import Mathlib

/-!
# shop-service: the ledger workflows

A shallow embedding of the repository layer (`internal/repository`) and of the
purchase and transfer workflows (`internal/service`) of shop-service.

* Tables are lists of rows, in storage order.
* Go `int64` values are integers; the only Go arithmetic in the workflows is
  the negation `-amount`, which wraps (`negInt64`).
* Every repository call takes the outcome of the driver for that statement
  (`fault : Option Err`): `some e` means the statement failed with `e` and
  changed nothing. Arithmetic inside SQL is exact; a value leaving the column
  range is a statement failure and is covered by `fault`.
* A workflow returns the final store, the repository calls it issued, in
  order, and the error it returned (`none` is Go's `nil`).
-/

namespace ShopService

/-! ## entity -/

/-- The sentinel errors of `entity/errs.go` that the workflows return, together
with `sql.ErrNoRows` and any other error value coming from the driver. -/
inductive Err where
  | ErrRecipientNotFound
  | ErrSendThemselves
  | ErrInsufficientBalance
  | ErrItemNotFound
  | ErrNoRows
  | driver (code : Nat)
  | ErrUserNotFound
  | ErrInvalidUserIDType
  | ErrIncorrectPassword
  | jwt (code : Nat)
  deriving DecidableEq, Repr

/-- The method `Error()`: the text of an error value. The sentinel texts are
those of `entity/errs.go`; driver and jwt errors have texts of their own, one
per code. -/
def Err.Error : Err → String
  | Err.ErrRecipientNotFound => "recipient not found"
  | Err.ErrSendThemselves => "cannot send coins to yourself"
  | Err.ErrInsufficientBalance => "insufficient balance"
  | Err.ErrItemNotFound => "item not found"
  | Err.ErrNoRows => "sql: no rows in result set"
  | Err.driver code => "driver error " ++ toString code
  | Err.ErrUserNotFound => "user not found"
  | Err.ErrInvalidUserIDType => "user id is of invalid type"
  | Err.ErrIncorrectPassword => "incorrect password"
  | Err.jwt code => "jwt error " ++ toString code

/-- The struct `entity.SendCoinRequest`, with the binding tags
`ToUser: required` and `Amount: required,gt=0`. -/
structure SendCoinRequest where
  ToUser : String
  Amount : Int
  deriving DecidableEq, Repr

/-- The struct `entity.AuthRequest`, with the binding tags `Username: required`
and `Password: required`. -/
structure AuthRequest where
  Username : String
  Password : String
  deriving DecidableEq, Repr

/-- The struct `entity.User`: a row of `users`. -/
structure User where
  ID : Int
  Username : String
  Password : String
  Coins : Int
  deriving DecidableEq, Repr

/-- The struct `entity.MerchItems`, a row of `merch_items`. Its declaration is
not part of the source tree; the fields are the ones `GetItem` selects and
`BuyItem` reads (`id`, `item_type`, `price`). -/
structure MerchItems where
  ID : Int
  ItemType : String
  Price : Int
  deriving DecidableEq, Repr

/-- A row of `inventory` (`user_id`, `merch_id`, `quantity`). -/
structure InventoryRow where
  UserID : Int
  MerchID : Int
  Quantity : Int
  deriving DecidableEq, Repr

/-- A row of `transactions` (`from_user`, `to_user`, `amount`). -/
structure TransactionRow where
  FromUser : Int
  ToUser : Int
  Amount : Int
  deriving DecidableEq, Repr

/-- The four tables the workflows touch. -/
structure Store where
  users : List User
  merch_items : List MerchItems
  inventory : List InventoryRow
  transactions : List TransactionRow
  deriving DecidableEq, Repr

/-- A Go slice: `none` is the nil slice, `some l` a non-nil slice with the
elements `l` (`some []` is the empty non-nil slice). -/
abbrev Slice (α : Type) := Option (List α)

/-- The elements of a slice; a nil slice has none. -/
def Slice.elems {α : Type} : Slice α → List α
  | none => []
  | some l => l

/-- The struct `entity.InventoryItem` (`Type_` is the Go field `Type`). -/
structure InventoryItem where
  Type_ : String
  Quantity : Int
  deriving DecidableEq, Repr

/-- The struct `entity.TransactionDetail`. -/
structure TransactionDetail where
  FromUser : String
  ToUser : String
  Amount : Int
  deriving DecidableEq, Repr

/-- The struct `entity.CoinHistory`. -/
structure CoinHistory where
  Received : Slice TransactionDetail
  Sent : Slice TransactionDetail
  deriving DecidableEq, Repr

/-- The struct `entity.InfoResponse`. -/
structure InfoResponse where
  Coins : Int
  Inventory : Slice InventoryItem
  CoinHistory : ShopService.CoinHistory
  deriving DecidableEq, Repr

/-- The zero value `entity.InfoResponse{}`. -/
def zeroInfoResponse : InfoResponse := ⟨0, none, ⟨none, none⟩⟩

/-! ## int64 -/

/-- Largest `int64`. -/
def maxInt64 : Int := 2 ^ 63 - 1

/-- Smallest `int64`. -/
def minInt64 : Int := -(2 ^ 63)

/-- Two's-complement reduction of an integer to the `int64` range. -/
def wrapInt64 (x : Int) : Int := (x + 2 ^ 63) % 2 ^ 64 - 2 ^ 63

/-- Go's unary minus on `int64`. -/
def negInt64 (x : Int) : Int := wrapInt64 (-x)

/-! ## repository/user.go -/

/-- The zero value of `entity.User`. -/
def zeroUser : User := ⟨0, "", "", 0⟩

/-- `UserPostgres.GetUser`:
`SELECT id, username, users.password_hash, coins FROM users WHERE username = $1`,
read with `GetContext` (first row, `sql.ErrNoRows` when there is none). -/
def GetUser (fault : Option Err) (s : Store) (username : String) : User × Option Err :=
  match fault with
  | some e => (zeroUser, some e)
  | none =>
    match s.users.find? (fun u => u.Username == username) with
    | some u => (u, none)
    | none => (zeroUser, some Err.ErrNoRows)

/-- `UserPostgres.GetUserBalance`: `SELECT coins FROM users WHERE id = $1`. -/
def GetUserBalance (fault : Option Err) (s : Store) (userID : Int) : Int × Option Err :=
  match fault with
  | some e => (0, some e)
  | none =>
    match s.users.find? (fun u => u.ID == userID) with
    | some u => (u.Coins, none)
    | none => (0, some Err.ErrNoRows)

/-- The `WHERE id = $2 AND coins >= $1` clause of `UpdateCoins`. -/
def coinsGuard (userID amount : Int) (u : User) : Bool :=
  u.ID == userID && decide (u.Coins ≥ amount)

/-- The `SET coins = coins + $1` clause of `UpdateCoins`, on one row. -/
def addCoins (amount : Int) (u : User) : User :=
  { u with Coins := u.Coins + amount }

/-- `UserPostgres.UpdateCoins`:
`UPDATE users SET coins = coins + $1 WHERE id = $2 AND coins >= $1`
with `$1 = amount`, `$2 = userID`; zero affected rows give
`ErrInsufficientBalance`. -/
def UpdateCoins (fault : Option Err) (s : Store) (userID amount : Int) : Store × Option Err :=
  match fault with
  | some e => (s, some e)
  | none =>
    let rowsAffected := (s.users.filter (coinsGuard userID amount)).length
    let s1 : Store :=
      { s with users :=
          List.map (fun u => if coinsGuard userID amount u then addCoins amount u else u) s.users }
    if rowsAffected = 0 then (s1, some Err.ErrInsufficientBalance) else (s1, none)

/-- `UserPostgres.CreateUser`:
`INSERT INTO users (username, password_hash, coins) VALUES ($1, $2, $3) RETURNING id`.
The id comes from the database (`newID`); a violated constraint is a statement
failure and is covered by `fault`. -/
def CreateUser (fault : Option Err) (newID : Int) (s : Store) (user : User) :
    Int × Store × Option Err :=
  match fault with
  | some e => (0, s, some e)
  | none => (newID, { s with users := s.users ++ [{ user with ID := newID }] }, none)

/-- What `SelectContext` leaves in a destination slice declared with `var`: the
slice stays nil when the query has no row, otherwise it holds the rows. -/
def selectResult {α : Type} (rows : List α) : Slice α :=
  if rows.isEmpty then none else some rows

/-! ## repository/inventory.go -/

/-- The zero value of `entity.MerchItems`. -/
def zeroMerchItems : MerchItems := ⟨0, "", 0⟩

/-- `InventoryPostgres.GetItem`:
`SELECT id, item_type, price FROM merch_items WHERE item_type = $1`. -/
def GetItem (fault : Option Err) (s : Store) (itemName : String) : MerchItems × Option Err :=
  match fault with
  | some e => (zeroMerchItems, some e)
  | none =>
    match s.merch_items.find? (fun m => m.ItemType == itemName) with
    | some m => (m, none)
    | none => (zeroMerchItems, some Err.ErrNoRows)

/-- The `WHERE user_id = $1 AND merch_id = $2` clause of the inventory statements. -/
def holdingMatch (userID merchID : Int) (r : InventoryRow) : Bool :=
  r.UserID == userID && r.MerchID == merchID

/-- `InventoryPostgres.GetInventoryItem`:
`SELECT quantity FROM inventory WHERE user_id = $1 AND merch_id = $2`. -/
def GetInventoryItem (fault : Option Err) (s : Store) (userID merchID : Int) :
    Int × Option Err :=
  match fault with
  | some e => (0, some e)
  | none =>
    match s.inventory.find? (holdingMatch userID merchID) with
    | some r => (r.Quantity, none)
    | none => (0, some Err.ErrNoRows)

/-- The `SET quantity = quantity + 1` clause of `UpdateInventoryItem`, on one row. -/
def incQuantity (r : InventoryRow) : InventoryRow :=
  { r with Quantity := r.Quantity + 1 }

/-- `InventoryPostgres.UpdateInventoryItem`:
`UPDATE inventory SET quantity = quantity + 1 WHERE user_id = $1 AND merch_id = $2`;
the number of affected rows is not inspected. -/
def UpdateInventoryItem (fault : Option Err) (s : Store) (userID merchID : Int) :
    Store × Option Err :=
  match fault with
  | some e => (s, some e)
  | none =>
    ({ s with inventory :=
        List.map (fun r => if holdingMatch userID merchID r then incQuantity r else r) s.inventory },
     none)

/-- `InventoryPostgres.InsertInventoryItem`:
`INSERT INTO inventory (user_id, merch_id, quantity) VALUES ($1, $2, 1)`. -/
def InsertInventoryItem (fault : Option Err) (s : Store) (userID merchID : Int) :
    Store × Option Err :=
  match fault with
  | some e => (s, some e)
  | none => ({ s with inventory := s.inventory ++ [⟨userID, merchID, 1⟩] }, none)

/-- The rows of `inventory AS i JOIN merch_items AS mi ON i.merch_id = mi.id
WHERE i.user_id = $1`, as pairs (`mi.item_type`, `i.quantity`). -/
def inventoryJoin (s : Store) (userID : Int) : List (String × Int) :=
  (s.inventory.filter (fun i => i.UserID == userID)).flatMap
    (fun i => (s.merch_items.filter (fun mi => mi.ID == i.MerchID)).map
      (fun mi => (mi.ItemType, i.Quantity)))

/-- The clause `SELECT mi.item_type AS type, SUM(i.quantity) AS quantity ...
GROUP BY mi.item_type`: one row per item type, in the order of first occurrence. -/
def groupSum (rows : List (String × Int)) : List InventoryItem :=
  (rows.map Prod.fst).eraseDups.map
    (fun t => ⟨t, ((rows.filter (fun r => r.1 == t)).map Prod.snd).sum⟩)

/-- `InventoryPostgres.GetUserInventory`. -/
def GetUserInventory (fault : Option Err) (s : Store) (userID : Int) :
    Slice InventoryItem × Option Err :=
  match fault with
  | some e => (none, some e)
  | none => (selectResult (groupSum (inventoryJoin s userID)), none)

/-! ## repository/transaction.go -/

/-- The rows of `SELECT u.username AS from_user, t.amount FROM transactions AS t
JOIN users AS u ON t.from_user = u.id WHERE t.to_user = $1`. -/
def receivedRows (s : Store) (userID : Int) : List TransactionDetail :=
  (s.transactions.filter (fun t => t.ToUser == userID)).flatMap
    (fun t => (s.users.filter (fun u => u.ID == t.FromUser)).map
      (fun u => ⟨u.Username, "", t.Amount⟩))

/-- The rows of `SELECT u.username AS to_user, t.amount FROM transactions AS t
JOIN users AS u ON t.to_user = u.id WHERE t.from_user = $1`. -/
def sentRows (s : Store) (userID : Int) : List TransactionDetail :=
  (s.transactions.filter (fun t => t.FromUser == userID)).flatMap
    (fun t => (s.users.filter (fun u => u.ID == t.ToUser)).map
      (fun u => ⟨"", u.Username, t.Amount⟩))

/-- `TransactionPostgres.GetReceivedTransactions`. -/
def GetReceivedTransactions (fault : Option Err) (s : Store) (userID : Int) :
    Slice TransactionDetail × Option Err :=
  match fault with
  | some e => (none, some e)
  | none => (selectResult (receivedRows s userID), none)

/-- `TransactionPostgres.GetSentTransactions`. -/
def GetSentTransactions (fault : Option Err) (s : Store) (userID : Int) :
    Slice TransactionDetail × Option Err :=
  match fault with
  | some e => (none, some e)
  | none => (selectResult (sentRows s userID), none)


/-- `TransactionPostgres.InsertTransaction`:
`INSERT INTO transactions (from_user, to_user, amount) VALUES ($1, $2, $3)`. -/
def InsertTransaction (fault : Option Err) (s : Store) (fromUserID toUserID amount : Int) :
    Store × Option Err :=
  match fault with
  | some e => (s, some e)
  | none => ({ s with transactions := s.transactions ++ [⟨fromUserID, toUserID, amount⟩] }, none)

/-! ## service -/

/-- A call on the repository interfaces (`repository.go`), with its arguments. -/
inductive Call where
  | GetUser (username : String)
  | GetUserBalance (userID : Int)
  | UpdateCoins (userID amount : Int)
  | GetItem (itemName : String)
  | GetInventoryItem (userID merchID : Int)
  | UpdateInventoryItem (userID merchID : Int)
  | InsertInventoryItem (userID merchID : Int)
  | InsertTransaction (fromUserID toUserID amount : Int)
  | GetUserInventory (userID : Int)
  | GetReceivedTransactions (userID : Int)
  | GetSentTransactions (userID : Int)
  | CreateUser (user : User)
  deriving DecidableEq, Repr

/-- What a workflow leaves behind: the store, the repository calls issued in
order, and the returned error. -/
structure Outcome where
  store : Store
  calls : List Call
  err : Option Err
  deriving DecidableEq, Repr

/-- Modelled from the spec: `manager.Manager.Do` belongs to the external
go-transaction-manager library and is not in the source tree. Section 4.1 gives
its contract, and the service tests expect it (`ExpectBegin`, then
`ExpectCommit` when the closure returns nil and `ExpectRollback` otherwise):
the closure runs in one scope on the current store; when it returns an error
every mutation it made is discarded, otherwise they are all kept; the
closure's error is returned as it is. -/
def trManagerDo (s : Store) (fn : Store → Outcome) : Outcome :=
  let r := fn s
  match r.err with
  | none => r
  | some _ => { r with store := s }

/-- The closure `SendCoin` hands to `trManager.Do` (transaction.go, lines 92-135).
`faults k` is the driver outcome of the `k`-th repository call of the scope. -/
def sendCoinScope (faults : Nat → Option Err) (fromUserID : Int) (toUsername : String)
    (amount : Int) (s : Store) : Outcome :=
  match GetUser (faults 0) s toUsername with
  | (_, some _) => ⟨s, [Call.GetUser toUsername], some Err.ErrRecipientNotFound⟩
  | (toUser, none) =>
    let toUserID := toUser.ID
    if fromUserID = toUserID then
      ⟨s, [Call.GetUser toUsername], some Err.ErrSendThemselves⟩
    else
      match GetUserBalance (faults 1) s fromUserID with
      | (_, some e) => ⟨s, [Call.GetUser toUsername, Call.GetUserBalance fromUserID], some e⟩
      | (balance, none) =>
        if balance < amount then
          ⟨s, [Call.GetUser toUsername, Call.GetUserBalance fromUserID],
            some Err.ErrInsufficientBalance⟩
        else
          match UpdateCoins (faults 2) s fromUserID (negInt64 amount) with
          | (s1, some e) =>
            ⟨s1, [Call.GetUser toUsername, Call.GetUserBalance fromUserID,
              Call.UpdateCoins fromUserID (negInt64 amount)], some e⟩
          | (s1, none) =>
            match UpdateCoins (faults 3) s1 toUserID amount with
            | (s2, some e) =>
              ⟨s2, [Call.GetUser toUsername, Call.GetUserBalance fromUserID,
                Call.UpdateCoins fromUserID (negInt64 amount),
                Call.UpdateCoins toUserID amount], some e⟩
            | (s2, none) =>
              match InsertTransaction (faults 4) s2 fromUserID toUserID amount with
              | (s3, some e) =>
                ⟨s3, [Call.GetUser toUsername, Call.GetUserBalance fromUserID,
                  Call.UpdateCoins fromUserID (negInt64 amount),
                  Call.UpdateCoins toUserID amount,
                  Call.InsertTransaction fromUserID toUserID amount], some e⟩
              | (s3, none) =>
                ⟨s3, [Call.GetUser toUsername, Call.GetUserBalance fromUserID,
                  Call.UpdateCoins fromUserID (negInt64 amount),
                  Call.UpdateCoins toUserID amount,
                  Call.InsertTransaction fromUserID toUserID amount], none⟩

/-- `TransactionService.SendCoin`. -/
def SendCoin (faults : Nat → Option Err) (s : Store) (fromUserID : Int) (toUsername : String)
    (amount : Int) : Outcome :=
  trManagerDo s (sendCoinScope faults fromUserID toUsername amount)

/-- The closure `GetUserInfo` hands to `trManager.Do` (transaction.go, lines
41-69), together with the variable `info` it fills as it goes. -/
def getUserInfoScope (faults : Nat → Option Err) (userID : Int) (s : Store) :
    InfoResponse × Outcome :=
  match GetUserBalance (faults 0) s userID with
  | (coins, some e) =>
    (⟨coins, none, ⟨none, none⟩⟩, ⟨s, [Call.GetUserBalance userID], some e⟩)
  | (coins, none) =>
    match GetUserInventory (faults 1) s userID with
    | (inventory, some e) =>
      (⟨coins, inventory, ⟨none, none⟩⟩,
        ⟨s, [Call.GetUserBalance userID, Call.GetUserInventory userID], some e⟩)
    | (inventory, none) =>
      match GetReceivedTransactions (faults 2) s userID with
      | (received, some e) =>
        (⟨coins, inventory, ⟨received, none⟩⟩,
          ⟨s, [Call.GetUserBalance userID, Call.GetUserInventory userID,
            Call.GetReceivedTransactions userID], some e⟩)
      | (received, none) =>
        match GetSentTransactions (faults 3) s userID with
        | (sent, some e) =>
          (⟨coins, inventory, ⟨received, sent⟩⟩,
            ⟨s, [Call.GetUserBalance userID, Call.GetUserInventory userID,
              Call.GetReceivedTransactions userID, Call.GetSentTransactions userID], some e⟩)
        | (sent, none) =>
          (⟨coins, inventory, ⟨received, sent⟩⟩,
            ⟨s, [Call.GetUserBalance userID, Call.GetUserInventory userID,
              Call.GetReceivedTransactions userID, Call.GetSentTransactions userID], none⟩)

/-- The replacement `if x == nil { x = make([]T, 0) }` (transaction.go, lines 75-83). -/
def orEmpty {α : Type} : Slice α → Slice α
  | none => some []
  | some l => some l

/-- `TransactionService.GetUserInfo`: the response and what the scope leaves
behind. -/
def GetUserInfo (faults : Nat → Option Err) (s : Store) (userID : Int) :
    InfoResponse × Outcome :=
  let info := (getUserInfoScope faults userID s).1
  let r := trManagerDo s (fun s0 => (getUserInfoScope faults userID s0).2)
  match r.err with
  | some _ => (zeroInfoResponse, r)
  | none =>
    (⟨info.Coins, orEmpty info.Inventory,
        ⟨orEmpty info.CoinHistory.Received, orEmpty info.CoinHistory.Sent⟩⟩, r)

/-- The closure `BuyItem` hands to `trManager.Do` (inventory.go, lines 36-78). -/
def buyItemScope (faults : Nat → Option Err) (userID : Int) (itemName : String)
    (s : Store) : Outcome :=
  match GetItem (faults 0) s itemName with
  | (_, some _) => ⟨s, [Call.GetItem itemName], some Err.ErrItemNotFound⟩
  | (item, none) =>
    match GetUserBalance (faults 1) s userID with
    | (_, some e) => ⟨s, [Call.GetItem itemName, Call.GetUserBalance userID], some e⟩
    | (balance, none) =>
      if balance < item.Price then
        ⟨s, [Call.GetItem itemName, Call.GetUserBalance userID],
          some Err.ErrInsufficientBalance⟩
      else
        match UpdateCoins (faults 2) s userID (negInt64 item.Price) with
        | (s1, some e) =>
          ⟨s1, [Call.GetItem itemName, Call.GetUserBalance userID,
            Call.UpdateCoins userID (negInt64 item.Price)], some e⟩
        | (s1, none) =>
          match GetInventoryItem (faults 3) s1 userID item.ID with
          | (_, some _) =>
            match InsertInventoryItem (faults 4) s1 userID item.ID with
            | (s2, some e) =>
              ⟨s2, [Call.GetItem itemName, Call.GetUserBalance userID,
                Call.UpdateCoins userID (negInt64 item.Price),
                Call.GetInventoryItem userID item.ID,
                Call.InsertInventoryItem userID item.ID], some e⟩
            | (s2, none) =>
              ⟨s2, [Call.GetItem itemName, Call.GetUserBalance userID,
                Call.UpdateCoins userID (negInt64 item.Price),
                Call.GetInventoryItem userID item.ID,
                Call.InsertInventoryItem userID item.ID], none⟩
          | (_, none) =>
            match UpdateInventoryItem (faults 4) s1 userID item.ID with
            | (s2, some e) =>
              ⟨s2, [Call.GetItem itemName, Call.GetUserBalance userID,
                Call.UpdateCoins userID (negInt64 item.Price),
                Call.GetInventoryItem userID item.ID,
                Call.UpdateInventoryItem userID item.ID], some e⟩
            | (s2, none) =>
              ⟨s2, [Call.GetItem itemName, Call.GetUserBalance userID,
                Call.UpdateCoins userID (negInt64 item.Price),
                Call.GetInventoryItem userID item.ID,
                Call.UpdateInventoryItem userID item.ID], none⟩

/-- `InventoryService.BuyItem`. -/
def BuyItem (faults : Nat → Option Err) (s : Store) (userID : Int) (itemName : String) :
    Outcome :=
  trManagerDo s (buyItemScope faults userID itemName)

/-! ## service/auth.go -/

/-- The constant `salt`. -/
def salt : String := "random_salt_string"

/-- One hexadecimal digit, lower case. -/
def hexDigit (n : Nat) : Char :=
  if n < 10 then Char.ofNat (48 + n) else Char.ofNat (87 + n)

/-- The verb `%x` on one byte: two hexadecimal digits. -/
def hexByte (b : Nat) : List Char := [hexDigit (b / 16 % 16), hexDigit (b % 16)]

/-- The call `fmt.Sprintf("%x", hash)` on a byte array. -/
def sprintfHex (bytes : List Nat) : String := String.mk (bytes.flatMap hexByte)

/-- `generatePasswordHash`. The digest `sha256.Sum256`, of the Go standard
library, is the parameter `sum256` (it returns 32 bytes). -/
def generatePasswordHash (sum256 : String → List Nat) (password : String) : String :=
  sprintfHex (sum256 (password ++ salt))

/-- `AuthService.CreateUser`. -/
def AuthService.CreateUser (sum256 : String → List Nat) (fault : Option Err) (newID : Int)
    (s : Store) (username password : String) : Outcome :=
  let hashedPassword := generatePasswordHash sum256 password
  let newUser : User := ⟨0, username, hashedPassword, 1000⟩
  match ShopService.CreateUser fault newID s newUser with
  | (_, s1, some e) => ⟨s1, [Call.CreateUser newUser], some e⟩
  | (_, s1, none) => ⟨s1, [Call.CreateUser newUser], none⟩

/-- `AuthService.GetUser`. -/
def AuthService.GetUser (fault : Option Err) (s : Store) (username : String) :
    User × Option Err :=
  match ShopService.GetUser fault s username with
  | (_, some _) => (zeroUser, some Err.ErrUserNotFound)
  | (user, none) => (user, none)

/-- `AuthService.GenerateToken`. Building and signing the token
(`jwt.NewWithClaims(...).SignedString(key)`, with the clock for the two
timestamps) belongs to the jwt library: `signedString id` is what it returns
for the user id `id`. -/
def AuthService.GenerateToken (sum256 : String → List Nat)
    (signedString : Int → String × Option Err) (fault : Option Err) (s : Store)
    (username password : String) : String × Option Err :=
  match ShopService.GetUser fault s username with
  | (_, some err) => ("", some err)
  | (user, none) =>
    let hashedPassword := generatePasswordHash sum256 password
    if user.Password ≠ hashedPassword then ("", some Err.ErrIncorrectPassword)
    else signedString user.ID

/-! ## handler -/

/-- The struct `service.Service` as the handlers see it: what each method of the
three interfaces returns for its arguments. -/
structure Service where
  GetUser : String → User × Option Err
  CreateUser : String → String → Option Err
  GenerateToken : String → String → String × Option Err
  ParseToken : String → Int × Option Err
  GetUserInfo : Int → InfoResponse × Option Err
  SendCoin : Int → String → Int → Option Err
  BuyItem : Int → String → Option Err

/-- A call of a handler on a service method, with its arguments. -/
inductive ServiceCall where
  | GetUser (username : String)
  | CreateUser (username password : String)
  | GenerateToken (username password : String)
  | ParseToken (accessToken : String)
  | GetUserInfo (userID : Int)
  | SendCoin (fromUserID : Int) (toUsername : String) (amount : Int)
  | BuyItem (userID : Int) (itemName : String)
  deriving DecidableEq, Repr

/-- A JSON body written by a handler: `entity.ErrorResponse`,
`entity.StatusResponse`, `entity.AuthResponse` or `entity.InfoResponse`. -/
inductive Body where
  | errors (message : String)
  | status (status : String)
  | token (token : String)
  | info (info : InfoResponse)
  deriving DecidableEq, Repr

/-- A response written to the client: status code and body. -/
structure Response where
  code : Nat
  body : Body
  deriving DecidableEq, Repr

/-- A value stored in the keys of a `gin.Context`: an `int64` or a value of
another type. -/
inductive CtxValue where
  | int64 (n : Int)
  | other
  deriving DecidableEq, Repr

/-- The parts of a `gin.Context` the handlers use: the `Authorization` header
(empty when absent), the path parameter `item`, the value under the key
`userID`, the responses written so far and the service calls made so far. -/
structure Context where
  authorization : String
  item : String
  userCtx : Option CtxValue
  written : List Response
  calls : List ServiceCall
  deriving DecidableEq, Repr

/-- `http.StatusOK`. -/
def StatusOK : Nat := 200

/-- `http.StatusBadRequest`. -/
def StatusBadRequest : Nat := 400

/-- `http.StatusUnauthorized`. -/
def StatusUnauthorized : Nat := 401

/-- `http.StatusInternalServerError`. -/
def StatusInternalServerError : Nat := 500

/-- `entity.NewErrorResponse`: writes `ErrorResponse{Message: message}` with the
status code; it does not abort the handler chain. -/
def NewErrorResponse (c : Context) (statusCode : Nat) (message : String) : Context :=
  { c with written := c.written ++ [⟨statusCode, Body.errors message⟩] }

/-- `c.JSON(code, obj)`. -/
def writeJSON (c : Context) (code : Nat) (body : Body) : Context :=
  { c with written := c.written ++ [⟨code, body⟩] }

/-- Records a service call in the context. -/
def recordCall (c : Context) (call : ServiceCall) : Context :=
  { c with calls := c.calls ++ [call] }

/-- The worker of `strings.Split(s, " ")`: `acc` holds the current part, reversed. -/
def splitSpaceAux : List Char → List Char → List String
  | [], acc => [String.mk acc.reverse]
  | ch :: rest, acc =>
    if ch = ' ' then String.mk acc.reverse :: splitSpaceAux rest []
    else splitSpaceAux rest (ch :: acc)

/-- `strings.Split(s, " ")`: the parts of `s` between single spaces. -/
def stringsSplitSpace (s : String) : List String := splitSpaceAux s.data []

/-- `c.ShouldBindJSON(&input)` for `entity.SendCoinRequest`. `decoded` is what
decoding the body into the struct gives (`none` when the body is not JSON of
that shape); the binding tags are then checked: `required` refuses the zero
value, `gt=0` refuses an amount that is not above zero. -/
def bindSendCoinRequest (decoded : Option SendCoinRequest) : Option SendCoinRequest :=
  match decoded with
  | none => none
  | some input =>
    if input.ToUser ≠ "" ∧ input.Amount ≠ 0 ∧ input.Amount > 0 then some input else none

/-- `c.ShouldBindJSON(&input)` for `entity.AuthRequest`: both fields are
`required`. -/
def bindAuthRequest (decoded : Option AuthRequest) : Option AuthRequest :=
  match decoded with
  | none => none
  | some input => if input.Username ≠ "" ∧ input.Password ≠ "" then some input else none

/-- `Handler.userIdentity` (middleware.go). -/
def userIdentity (svc : Service) (c : Context) : Context :=
  let header := c.authorization
  if header = "" then NewErrorResponse c StatusUnauthorized "empty auth header"
  else
    let headerParts := stringsSplitSpace header
    if headerParts.length ≠ 2 ∨ headerParts.getD 0 "" ≠ "Bearer" then
      NewErrorResponse c StatusUnauthorized "invalid auth header format"
    else
      let c1 := recordCall c (ServiceCall.ParseToken (headerParts.getD 1 ""))
      match svc.ParseToken (headerParts.getD 1 "") with
      | (_, some _) => NewErrorResponse c1 StatusUnauthorized "invalid or expired token"
      | (userID, none) => { c1 with userCtx := some (CtxValue.int64 userID) }

/-- `Handler.getUserID` (middleware.go). -/
def getUserID (c : Context) : Int × Option Err :=
  match c.userCtx with
  | none => (0, some Err.ErrUserNotFound)
  | some (CtxValue.int64 idInt) => (idInt, none)
  | some CtxValue.other => (0, some Err.ErrInvalidUserIDType)

/-- `Handler.sendCoin` (send.go); `decoded` is the decoded request body. -/
def sendCoin (svc : Service) (decoded : Option SendCoinRequest) (c : Context) : Context :=
  match getUserID c with
  | (_, some _) => c
  | (userID, none) =>
    match bindSendCoinRequest decoded with
    | none => NewErrorResponse c StatusBadRequest "invalid request format"
    | some input =>
      let c1 := recordCall c (ServiceCall.SendCoin userID input.ToUser input.Amount)
      match svc.SendCoin userID input.ToUser input.Amount with
      | some err =>
        if err = Err.ErrRecipientNotFound then
          NewErrorResponse c1 StatusBadRequest "recipient not found"
        else if err = Err.ErrSendThemselves then
          NewErrorResponse c1 StatusBadRequest "cannot send coins to yourself"
        else if err = Err.ErrInsufficientBalance then
          NewErrorResponse c1 StatusBadRequest "insufficient balance"
        else NewErrorResponse c1 StatusInternalServerError "internal server error"
      | none => writeJSON c1 StatusOK (Body.status "coins were successfully sent to the user")

/-- `Handler.buyItem` (buy.go). -/
def buyItem (svc : Service) (c : Context) : Context :=
  match getUserID c with
  | (_, some _) => c
  | (userID, none) =>
    let item := c.item
    if item = "" then NewErrorResponse c StatusBadRequest "item param is required"
    else
      let c1 := recordCall c (ServiceCall.BuyItem userID item)
      match svc.BuyItem userID item with
      | some err =>
        if err = Err.ErrItemNotFound then
          NewErrorResponse c1 StatusBadRequest "item not found"
        else if err = Err.ErrInsufficientBalance then
          NewErrorResponse c1 StatusBadRequest "insufficient balance"
        else NewErrorResponse c1 StatusInternalServerError "internal server error"
      | none => writeJSON c1 StatusOK (Body.status "item was successfully purchased")

/-- `Handler.getInfo` (info.go). -/
def getInfo (svc : Service) (c : Context) : Context :=
  match getUserID c with
  | (_, some _) => c
  | (userID, none) =>
    let c1 := recordCall c (ServiceCall.GetUserInfo userID)
    match svc.GetUserInfo userID with
    | (_, some err) => NewErrorResponse c1 StatusInternalServerError err.Error
    | (info, none) => writeJSON c1 StatusOK (Body.info info)

/-- The end of `Handler.authenticate` (auth.go, lines 27-34): the token. -/
def authenticateToken (svc : Service) (input : AuthRequest) (c : Context) : Context :=
  let c1 := recordCall c (ServiceCall.GenerateToken input.Username input.Password)
  match svc.GenerateToken input.Username input.Password with
  | (_, some err) => NewErrorResponse c1 StatusUnauthorized err.Error
  | (token, none) => writeJSON c1 StatusOK (Body.token token)

/-- `Handler.authenticate` (auth.go); `decoded` is the decoded request body. -/
def authenticate (svc : Service) (decoded : Option AuthRequest) (c : Context) : Context :=
  match bindAuthRequest decoded with
  | none => NewErrorResponse c StatusBadRequest "invalid request format"
  | some input =>
    let c1 := recordCall c (ServiceCall.GetUser input.Username)
    match svc.GetUser input.Username with
    | (_, some _) =>
      let c2 := recordCall c1 (ServiceCall.CreateUser input.Username input.Password)
      match svc.CreateUser input.Username input.Password with
      | some err => NewErrorResponse c2 StatusInternalServerError err.Error
      | none => authenticateToken svc input c2
    | (_, none) => authenticateToken svc input c1

/-- A route of the group `protected` of `InitRoutes`: `userIdentity` runs first
and, as it never aborts the chain, the handler of the route runs after it. -/
def protectedRoute (svc : Service) (handler : Context → Context) (c : Context) : Context :=
  handler (userIdentity svc c)

/-- The user id a call of the transaction or inventory service is made with;
`none` for the calls of the authorization service, which take no user id. -/
def ServiceCall.actingUser : ServiceCall → Option Int
  | ServiceCall.GetUserInfo userID => some userID
  | ServiceCall.SendCoin fromUserID _ _ => some fromUserID
  | ServiceCall.BuyItem userID _ => some userID
  | _ => none

/-- The context of a fresh request: nothing stored, written or called yet. -/
def newContext (authorization item : String) : Context :=
  ⟨authorization, item, none, [], []⟩

/-- No repository call fails at the driver. -/
def noFaults : Nat → Option Err := fun _ => none

/-- Only the `k`-th repository call of the scope fails at the driver, with `e`. -/
def faultAt (k : Nat) (e : Err) : Nat → Option Err := fun i => if i = k then some e else none

/-- From the `k`-th repository call of the scope on, every call fails at the
driver with `e`: the transaction is aborted, or its connection is lost. -/
def faultFrom (k : Nat) (e : Err) : Nat → Option Err := fun i => if k ≤ i then some e else none

/-! ## sequences of workflow calls -/

/-- A request reaching the service: which workflow, its arguments, and the
driver outcomes its repository calls will meet. -/
inductive Request where
  | BuyItem (faults : Nat → Option Err) (userID : Int) (itemName : String)
  | SendCoin (faults : Nat → Option Err) (fromUserID : Int) (toUsername : String) (amount : Int)

/-- The store after serving one request. -/
def serve (s : Store) : Request → Store
  | Request.BuyItem faults userID itemName => (BuyItem faults s userID itemName).store
  | Request.SendCoin faults fromUserID toUsername amount =>
    (SendCoin faults s fromUserID toUsername amount).store

/-- The store after serving a sequence of requests one after the other. -/
def serveAll (s : Store) (reqs : List Request) : Store := reqs.foldl serve s

/-- The primary key of `users`: no two rows share an id. -/
def uniqueIDs (s : Store) : Prop := (s.users.map User.ID).Nodup

instance (s : Store) : Decidable (uniqueIDs s) := by
  unfold uniqueIDs; infer_instance

/-- Every catalog price is a positive `int64`. -/
def validCatalog (s : Store) : Prop := ∀ m ∈ s.merch_items, 0 < m.Price ∧ m.Price ≤ maxInt64

/-- Every account balance is at least zero. -/
def nonNegative (s : Store) : Prop := ∀ u ∈ s.users, 0 ≤ u.Coins

/-- The amount of a transfer request is a positive `int64`; purchases carry no amount. -/
def positiveAmount : Request → Prop
  | Request.BuyItem _ _ _ => True
  | Request.SendCoin _ _ _ amount => 0 < amount ∧ amount ≤ maxInt64

instance : DecidablePred positiveAmount := fun r => by
  cases r <;> unfold positiveAmount <;> infer_instance

instance (s : Store) : Decidable (validCatalog s) := by
  unfold validCatalog; infer_instance

instance (s : Store) : Decidable (nonNegative s) := by
  unfold nonNegative; infer_instance

/-- Every holding has a quantity of at least one. -/
def quantitiesPositive (s : Store) : Prop := ∀ r ∈ s.inventory, 1 ≤ r.Quantity

/-- No two holdings are for the same (account, item) pair. -/
def oneHoldingPerPair (s : Store) : Prop :=
  (s.inventory.map (fun r => (r.UserID, r.MerchID))).Nodup

/-- Every holding of the inventory `before` is still in the inventory `after`, at
the same place and for the same pair, with a quantity at least as large. -/
def holdingsKept (before after : List InventoryRow) : Prop :=
  ∀ (i : Nat) (r : InventoryRow), before[i]? = some r →
    ∃ r1 : InventoryRow, after[i]? = some r1 ∧ r1.UserID = r.UserID ∧
      r1.MerchID = r.MerchID ∧ r.Quantity ≤ r1.Quantity

/-- The holding lookup of a purchase request (its fourth repository call) does
not fail at the driver; transfers have no such lookup. -/
def lookupNotFailing : Request → Prop
  | Request.BuyItem faults _ _ => faults 3 = none
  | Request.SendCoin _ _ _ _ => True

instance : DecidablePred lookupNotFailing := fun r => by
  cases r <;> unfold lookupNotFailing <;> infer_instance

/-- What the database adds to the purchase scope. Every repository call of the
scope goes through `DefaultTrOrDB`, hence runs on the one Postgres transaction
that `trManager.Do` opened, and a statement that fails there leaves the
transaction aborted: when the holding lookup of a purchase (its fourth
repository call) fails at the driver, the call that follows it fails at the
driver as well. A lookup that finds no row is no such failure: it answers
`sql.ErrNoRows` from the table. -/
def lookupFailureAborts (faults : Nat → Option Err) : Prop :=
  faults 3 ≠ none → faults 4 ≠ none

instance (faults : Nat → Option Err) : Decidable (lookupFailureAborts faults) := by
  unfold lookupFailureAborts; infer_instance

/-- The driver outcomes of a request are those of a Postgres transaction. -/
def transactional : Request → Prop
  | Request.BuyItem faults _ _ => lookupFailureAborts faults
  | Request.SendCoin _ _ _ _ => True

instance : DecidablePred transactional := fun r => by
  cases r <;> unfold transactional <;> infer_instance

instance (s : Store) : Decidable (quantitiesPositive s) := by
  unfold quantitiesPositive; infer_instance

instance (s : Store) : Decidable (oneHoldingPerPair s) := by
  unfold oneHoldingPerPair; infer_instance

/-- The sum of all account balances. -/
def totalCoins (s : Store) : Int := (s.users.map User.Coins).sum

/-! ## example stores -/

/-- Two fresh accounts with the starting balance and a small catalog. -/
def demoStore : Store :=
  { users := [⟨1, "acct1", "h1", 1000⟩, ⟨2, "acct2", "h2", 1000⟩],
    merch_items := [⟨1, "t-shirt", 80⟩, ⟨2, "cup", 20⟩],
    inventory := [],
    transactions := [] }

/-- A store with two transfers on record and one holding. -/
def historyStore : Store :=
  { users := [⟨1, "acct1", "h1", 900⟩, ⟨2, "acct2", "h2", 1050⟩, ⟨3, "acct3", "h3", 1050⟩],
    merch_items := [⟨1, "t-shirt", 80⟩, ⟨2, "cup", 20⟩],
    inventory := [⟨2, 2, 3⟩],
    transactions := [⟨1, 2, 100⟩, ⟨2, 3, 50⟩] }

/-- A stand-in for token parsing in examples: "token1" belongs to account 1,
"token2" to account 2, anything else is refused. -/
def demoParseToken (accessToken : String) : Int × Option Err :=
  if accessToken = "token1" then (1, none)
  else if accessToken = "token2" then (2, none)
  else (0, some (Err.jwt 1))

/-- A stand-in for token signing in examples. -/
def demoSignedString (id : Int) : String × Option Err :=
  if id = 1 then ("token1", none) else if id = 2 then ("token2", none)
  else ("", some (Err.jwt 2))

/-- A stand-in for the digest in examples: 32 zero bytes for every input. -/
def zeroDigest : String → List Nat := fun _ => List.replicate 32 0

/-- The services over a store, with no driver failure, for examples. -/
def demoService (s : Store) : Service :=
  { GetUser := fun username => AuthService.GetUser none s username,
    CreateUser := fun username password =>
      (AuthService.CreateUser zeroDigest none 3 s username password).err,
    GenerateToken := fun username password =>
      AuthService.GenerateToken zeroDigest demoSignedString none s username password,
    ParseToken := demoParseToken,
    GetUserInfo := fun userID =>
      ((GetUserInfo noFaults s userID).1, (GetUserInfo noFaults s userID).2.err),
    SendCoin := fun fromUserID toUsername amount =>
      (SendCoin noFaults s fromUserID toUsername amount).err,
    BuyItem := fun userID itemName => (BuyItem noFaults s userID itemName).err }

/-- A service whose `SendCoin` and `BuyItem` return fixed results, as the mocks
of the handler tests do; its other methods are those of `demoService`. -/
def stubService (send buy : Option Err) : Service :=
  { GetUser := (demoService demoStore).GetUser,
    CreateUser := (demoService demoStore).CreateUser,
    GenerateToken := (demoService demoStore).GenerateToken,
    ParseToken := demoParseToken,
    GetUserInfo := (demoService demoStore).GetUserInfo,
    SendCoin := fun _ _ _ => send,
    BuyItem := fun _ _ => buy }

/-- A store whose account "bob" has the password "pw", stored hashed. -/
def authStore : Store :=
  { users := [⟨1, "bob", generatePasswordHash zeroDigest "pw", 1000⟩],
    merch_items := [],
    inventory := [],
    transactions := [] }

/-- A store with a rich and a poor account. -/
def poorStore : Store :=
  { users := [⟨1, "rich", "h1", 100⟩, ⟨2, "poor", "h2", 30⟩],
    merch_items := [⟨1, "t-shirt", 80⟩, ⟨2, "cup", 30⟩],
    inventory := [⟨1, 1, 1⟩],
    transactions := [] }

end ShopService

namespace ShopService

/-! ## int64 negation -/

theorem negInt64_of_pos {a : Int} (h0 : 0 < a) (h1 : a ≤ maxInt64) : negInt64 a = -a := by
  unfold negInt64 wrapInt64
  unfold maxInt64 at h1
  omega

/-! ## what a successful repository call tells -/

theorem GetUser_ok {f : Option Err} {s : Store} {n : String} {u : User}
    (h : GetUser f s n = (u, none)) :
    f = none ∧ s.users.find? (fun v => v.Username == n) = some u := by
  unfold GetUser at h
  cases f with
  | some e => simp at h
  | none =>
    cases hf : s.users.find? (fun v => v.Username == n) with
    | none => simp [hf] at h
    | some v => simp [hf] at h; simp [h]

theorem GetUserBalance_ok {f : Option Err} {s : Store} {id b : Int}
    (h : GetUserBalance f s id = (b, none)) :
    f = none ∧ ∃ u, s.users.find? (fun v => v.ID == id) = some u ∧ u.Coins = b := by
  unfold GetUserBalance at h
  cases f with
  | some e => simp at h
  | none =>
    cases hf : s.users.find? (fun v => v.ID == id) with
    | none => simp [hf] at h
    | some v => simp [hf] at h; exact ⟨rfl, v, rfl, h⟩

theorem UpdateCoins_ok {f : Option Err} {s s1 : Store} {id amt : Int}
    (h : UpdateCoins f s id amt = (s1, none)) :
    f = none ∧ (∃ u ∈ s.users, coinsGuard id amt u = true) ∧
      s1 = { s with
        users := (List.map (fun u => if coinsGuard id amt u then addCoins amt u else u) s.users) } := by
  unfold UpdateCoins at h
  cases f with
  | some e => simp at h
  | none =>
    by_cases h0 : (s.users.filter (coinsGuard id amt)).length = 0
    · simp [h0] at h
    · simp only [h0, if_false, Prod.mk.injEq, and_true] at h
      refine ⟨rfl, ?_, h.symm⟩
      have hne : s.users.filter (coinsGuard id amt) ≠ [] := by
        intro hnil; exact h0 (by simp [hnil])
      obtain ⟨u, hu⟩ := List.exists_mem_of_ne_nil _ hne
      rw [List.mem_filter] at hu
      exact ⟨u, hu.1, hu.2⟩

theorem InsertTransaction_ok {f : Option Err} {s s1 : Store} {a b c : Int}
    (h : InsertTransaction f s a b c = (s1, none)) :
    f = none ∧ s1 = { s with transactions := s.transactions ++ [⟨a, b, c⟩] } := by
  unfold InsertTransaction at h
  cases f with
  | some e => simp at h
  | none => simp at h; exact ⟨rfl, h.symm⟩

/-! ## rows and the primary key -/

theorem mem_of_find? {α : Type} {p : α → Bool} {l : List α} {a : α}
    (h : l.find? p = some a) : a ∈ l ∧ p a = true :=
  ⟨List.mem_of_find?_eq_some h, List.find?_some h⟩

theorem eq_of_ID_eq {l : List User} (hn : (l.map User.ID).Nodup) {u v : User}
    (hu : u ∈ l) (hv : v ∈ l) (h : u.ID = v.ID) : u = v :=
  List.inj_on_of_nodup_map hn hu hv h

theorem find?_ID_of_mem {l : List User} (hn : (l.map User.ID).Nodup) {u : User}
    (hu : u ∈ l) : l.find? (fun v => v.ID == u.ID) = some u := by
  cases hf : l.find? (fun v => v.ID == u.ID) with
  | none =>
    rw [List.find?_eq_none] at hf
    exact absurd (by simp) (hf u hu)
  | some w =>
    obtain ⟨hw, hp⟩ := mem_of_find? hf
    have : w.ID = u.ID := by simpa using hp
    rw [eq_of_ID_eq hn hw hu this]

theorem find?_ID_map (f : User → User) (hf : ∀ u, (f u).ID = u.ID) (l : List User) (id : Int) :
    (l.map f).find? (fun v => v.ID == id) = (l.find? (fun v => v.ID == id)).map f := by
  induction l with
  | nil => rfl
  | cons a l ih =>
    simp only [List.map_cons, List.find?_cons, hf]
    cases a.ID == id <;> simp [ih]

theorem map_ID_map (f : User → User) (hf : ∀ u, (f u).ID = u.ID) (l : List User) :
    (l.map f).map User.ID = l.map User.ID := by
  simp [List.map_map, Function.comp_def, hf]

/-- Under the primary key, a guard that one row with the id passes selects
exactly the rows with that id. -/
theorem guarded_map_eq {l : List User} (hn : (l.map User.ID).Nodup) {id amt : Int}
    (hex : ∃ u ∈ l, coinsGuard id amt u = true) :
    l.map (fun u => if coinsGuard id amt u then addCoins amt u else u)
      = l.map (fun u => if u.ID = id then addCoins amt u else u) := by
  obtain ⟨u0, hu0, hg0⟩ := hex
  apply List.map_congr_left
  intro u hu
  by_cases hid : u.ID = id
  · have h0 : u0.ID = id := by
      simp only [coinsGuard, Bool.and_eq_true, beq_iff_eq] at hg0
      exact hg0.1
    have : u = u0 := eq_of_ID_eq hn hu hu0 (by rw [hid, h0])
    subst this
    simp [hg0, hid]
  · have : coinsGuard id amt u = false := by
      simp [coinsGuard, hid]
    simp [this, hid]

theorem UpdateCoins_ok_unique {f : Option Err} {s s1 : Store} {id amt : Int}
    (hn : uniqueIDs s) (h : UpdateCoins f s id amt = (s1, none)) :
    s1 = { s with
      users := (List.map (fun u => if u.ID = id then addCoins amt u else u) s.users) } := by
  obtain ⟨_, hex, hs1⟩ := UpdateCoins_ok h
  rw [hs1, guarded_map_eq hn hex]

theorem addCoins_ite_ID (id amt : Int) (u : User) :
    (if u.ID = id then addCoins amt u else u).ID = u.ID := by
  split <;> rfl

/-! ## the transfer scope, step by step -/

/-- A transfer scope that returns nil went through all five repository calls,
each returning nil. -/
theorem sendCoinScope_ok {faults : Nat → Option Err} {s : Store} {fromUserID amount : Int}
    {toUsername : String}
    (h : (sendCoinScope faults fromUserID toUsername amount s).err = none) :
    ∃ toUser balance s1 s2 s3,
      GetUser (faults 0) s toUsername = (toUser, none) ∧ fromUserID ≠ toUser.ID ∧
      GetUserBalance (faults 1) s fromUserID = (balance, none) ∧ amount ≤ balance ∧
      UpdateCoins (faults 2) s fromUserID (negInt64 amount) = (s1, none) ∧
      UpdateCoins (faults 3) s1 toUser.ID amount = (s2, none) ∧
      InsertTransaction (faults 4) s2 fromUserID toUser.ID amount = (s3, none) ∧
      sendCoinScope faults fromUserID toUsername amount s =
        ⟨s3, [Call.GetUser toUsername, Call.GetUserBalance fromUserID,
          Call.UpdateCoins fromUserID (negInt64 amount), Call.UpdateCoins toUser.ID amount,
          Call.InsertTransaction fromUserID toUser.ID amount], none⟩ := by
  unfold sendCoinScope at h ⊢
  rcases h0 : GetUser (faults 0) s toUsername with ⟨toUser, _ | e0⟩
  swap
  · simp [h0] at h
  simp only [h0] at h ⊢
  by_cases hself : fromUserID = toUser.ID
  · simp [hself] at h
  simp only [hself, if_false] at h ⊢
  rcases h1 : GetUserBalance (faults 1) s fromUserID with ⟨balance, _ | e1⟩
  swap
  · simp [h1] at h
  simp only [h1] at h ⊢
  by_cases hlt : balance < amount
  · simp [hlt] at h
  simp only [hlt, if_false] at h ⊢
  rcases h2 : UpdateCoins (faults 2) s fromUserID (negInt64 amount) with ⟨s1, _ | e2⟩
  swap
  · simp [h2] at h
  simp only [h2] at h ⊢
  rcases h3 : UpdateCoins (faults 3) s1 toUser.ID amount with ⟨s2, _ | e3⟩
  swap
  · simp [h3] at h
  simp only [h3] at h ⊢
  rcases h4 : InsertTransaction (faults 4) s2 fromUserID toUser.ID amount with ⟨s3, _ | e4⟩
  swap
  · simp [h4] at h
  simp only [h4] at h ⊢
  exact ⟨toUser, balance, s1, s2, s3, rfl, hself, rfl, not_lt.mp hlt, rfl, h3, h4, rfl⟩

theorem trManagerDo_ok {s : Store} {fn : Store → Outcome}
    (h : (trManagerDo s fn).err = none) : (fn s).err = none ∧ trManagerDo s fn = fn s := by
  unfold trManagerDo at h ⊢
  cases he : (fn s).err with
  | none => simp [he]
  | some e => simp [he] at h

theorem trManagerDo_err {s : Store} {fn : Store → Outcome} {e : Err}
    (h : (trManagerDo s fn).err = some e) :
    (fn s).err = some e ∧ (trManagerDo s fn).store = s := by
  unfold trManagerDo at h ⊢
  cases he : (fn s).err with
  | none => simp [he] at h
  | some e1 => simp [he] at h ⊢; exact h

theorem SendCoin_ok {faults : Nat → Option Err} {s : Store} {fromUserID amount : Int}
    {toUsername : String}
    (h : (SendCoin faults s fromUserID toUsername amount).err = none) :
    ∃ toUser balance s1 s2 s3,
      GetUser (faults 0) s toUsername = (toUser, none) ∧ fromUserID ≠ toUser.ID ∧
      GetUserBalance (faults 1) s fromUserID = (balance, none) ∧ amount ≤ balance ∧
      UpdateCoins (faults 2) s fromUserID (negInt64 amount) = (s1, none) ∧
      UpdateCoins (faults 3) s1 toUser.ID amount = (s2, none) ∧
      InsertTransaction (faults 4) s2 fromUserID toUser.ID amount = (s3, none) ∧
      SendCoin faults s fromUserID toUsername amount =
        ⟨s3, [Call.GetUser toUsername, Call.GetUserBalance fromUserID,
          Call.UpdateCoins fromUserID (negInt64 amount), Call.UpdateCoins toUser.ID amount,
          Call.InsertTransaction fromUserID toUser.ID amount], none⟩ := by
  obtain ⟨hscope, heq⟩ := trManagerDo_ok h
  obtain ⟨toUser, balance, s1, s2, s3, hg, hne, hb, hle, hd, hc, hi, hout⟩ :=
    sendCoinScope_ok hscope
  exact ⟨toUser, balance, s1, s2, s3, hg, hne, hb, hle, hd, hc, hi, by
    unfold SendCoin; rw [heq, hout]⟩

/-- The users table after a committed transfer, under the primary key. -/
theorem SendCoin_ok_users {faults : Nat → Option Err} {s : Store} {fromUserID amount : Int}
    {toUsername : String} (hn : uniqueIDs s) (h0 : 0 < amount) (h1 : amount ≤ maxInt64)
    (h : (SendCoin faults s fromUserID toUsername amount).err = none) :
    ∃ toUser balance,
      s.users.find? (fun v => v.Username == toUsername) = some toUser ∧
      fromUserID ≠ toUser.ID ∧
      (∃ u, s.users.find? (fun v => v.ID == fromUserID) = some u ∧ u.Coins = balance) ∧
      amount ≤ balance ∧
      SendCoin faults s fromUserID toUsername amount =
        ⟨{ s with
            users := (List.map (fun u => if u.ID = fromUserID then addCoins (-amount) u
              else if u.ID = toUser.ID then addCoins amount u else u) s.users)
            transactions := s.transactions ++ [⟨fromUserID, toUser.ID, amount⟩] },
          [Call.GetUser toUsername, Call.GetUserBalance fromUserID,
            Call.UpdateCoins fromUserID (-amount), Call.UpdateCoins toUser.ID amount,
            Call.InsertTransaction fromUserID toUser.ID amount], none⟩ := by
  obtain ⟨toUser, balance, s1, s2, s3, hg, hne, hb, hle, hd, hc, hi, hout⟩ := SendCoin_ok h
  rw [negInt64_of_pos h0 h1] at hd hout
  have hs1 := UpdateCoins_ok_unique hn hd
  have hn1 : uniqueIDs s1 := by
    unfold uniqueIDs at hn ⊢
    rw [hs1]
    simp only
    rw [map_ID_map _ (addCoins_ite_ID fromUserID (-amount))]
    exact hn
  have hs2 := UpdateCoins_ok_unique hn1 hc
  have hs3 := (InsertTransaction_ok hi).2
  refine ⟨toUser, balance, (GetUser_ok hg).2, hne, (GetUserBalance_ok hb).2, hle, ?_⟩
  rw [hout, hs3, hs2, hs1]
  simp only [List.map_map, Outcome.mk.injEq, Store.mk.injEq, and_true, true_and]
  apply List.map_congr_left
  intro u _
  simp only [Function.comp_apply]
  by_cases hf : u.ID = fromUserID
  · have : ¬ (addCoins (-amount) u).ID = toUser.ID := by
      simp only [addCoins]; rw [hf]; exact hne
    simp [hf, this]
  · simp [hf]

theorem GetUserBalance_of_find? {s : Store} {id : Int} {u : User}
    (h : s.users.find? (fun v => v.ID == id) = some u) :
    GetUserBalance none s id = (u.Coins, none) := by
  simp [GetUserBalance, h]

theorem GetUserBalance_map {s s1 : Store} {f : User → User} (hf : ∀ u, (f u).ID = u.ID)
    {id : Int} {u : User} (h : s.users.find? (fun v => v.ID == id) = some u)
    (hs : s1.users = s.users.map f) :
    GetUserBalance none s1 id = ((f u).Coins, none) := by
  apply GetUserBalance_of_find?
  rw [hs, find?_ID_map f hf, h]
  rfl

/-! ## the balance engine -/

/-- C1 (evaluation at the failing input): an account with balance 30 is debited
80 through `UpdateCoins(2, -80)`; the guard `coins >= -80` lets the row through,
the call returns nil and the balance becomes -50. -/
theorem UpdateCoins_debit_overdraws :
    GetUserBalance none poorStore 2 = (30, none) ∧
    (UpdateCoins none poorStore 2 (negInt64 80)).2 = none ∧
    GetUserBalance none (UpdateCoins none poorStore 2 (negInt64 80)).1 2 = (-50, none) := by
  decide

/-- C2 (evaluation at the failing input): an existing account with balance 30
is credited 50 through `UpdateCoins(2, 50)`; the guard `coins >= 50` rejects the
row, the call returns `ErrInsufficientBalance` and the balance stays 30. -/
theorem UpdateCoins_credit_rejected :
    GetUserBalance none poorStore 2 = (30, none) ∧
    UpdateCoins none poorStore 2 50 = (poorStore, some Err.ErrInsufficientBalance) := by
  decide

/-! ## the transfer workflow -/

/-- C3 (evaluation at the failing input): the recipient resolves to account 2,
different from the sender 1, the amount 50 is within the sender's balance 100
and no repository call fails at the driver, yet `SendCoin` returns
`ErrInsufficientBalance`, raised by the credit of the recipient whose balance 30
is below the amount. -/
theorem SendCoin_poor_recipient_rejected :
    GetUser none poorStore "poor" = (⟨2, "poor", "h2", 30⟩, none) ∧
    GetUserBalance none poorStore 1 = (100, none) ∧
    SendCoin noFaults poorStore 1 "poor" 50 =
      ⟨poorStore, [Call.GetUser "poor", Call.GetUserBalance 1, Call.UpdateCoins 1 (-50),
        Call.UpdateCoins 2 50], some Err.ErrInsufficientBalance⟩ := by
  decide

/-- C4: a `SendCoin` that returns nil, with a positive amount, lowers the
sender's balance by the amount, raises the recipient's balance by the amount,
appends exactly the record (sender, recipient id, amount) to the transfer log,
and changes no other account row, no inventory row and no catalog row. -/
theorem SendCoin_success_effect (faults : Nat → Option Err) (s : Store)
    (fromUserID : Int) (toUsername : String) (amount : Int)
    (hn : uniqueIDs s) (h0 : 0 < amount) (h1 : amount ≤ maxInt64)
    (h : (SendCoin faults s fromUserID toUsername amount).err = none) :
    ∃ toUser senderBalance,
      GetUser none s toUsername = (toUser, none) ∧ toUser.ID ≠ fromUserID ∧
      GetUserBalance none s fromUserID = (senderBalance, none) ∧
      GetUserBalance none s toUser.ID = (toUser.Coins, none) ∧
      GetUserBalance none (SendCoin faults s fromUserID toUsername amount).store fromUserID
        = (senderBalance - amount, none) ∧
      GetUserBalance none (SendCoin faults s fromUserID toUsername amount).store toUser.ID
        = (toUser.Coins + amount, none) ∧
      (SendCoin faults s fromUserID toUsername amount).store.transactions
        = s.transactions ++ [⟨fromUserID, toUser.ID, amount⟩] ∧
      (SendCoin faults s fromUserID toUsername amount).store.users
        = s.users.map (fun u =>
            if u.ID = fromUserID then { u with Coins := u.Coins - amount }
            else if u.ID = toUser.ID then { u with Coins := u.Coins + amount } else u) ∧
      (SendCoin faults s fromUserID toUsername amount).store.inventory = s.inventory ∧
      (SendCoin faults s fromUserID toUsername amount).store.merch_items = s.merch_items := by
  obtain ⟨toUser, balance, hto, hne, ⟨u, hu, hub⟩, _, hout⟩ := SendCoin_ok_users hn h0 h1 h
  have htomem := (mem_of_find? hto).1
  have hto2 : s.users.find? (fun v => v.ID == toUser.ID) = some toUser :=
    find?_ID_of_mem hn htomem
  have hpres : ∀ v : User, (if v.ID = fromUserID then addCoins (-amount) v
      else if v.ID = toUser.ID then addCoins amount v else v).ID = v.ID := by
    intro v; split
    · rfl
    · split <;> rfl
  have hfrom : u.ID = fromUserID := by simpa using (mem_of_find? hu).2
  refine ⟨toUser, balance, ?_, fun hc => hne hc.symm, ?_, GetUserBalance_of_find? hto2,
    ?_, ?_, ?_, ?_, ?_, ?_⟩
  · simp [GetUser, hto]
  · rw [GetUserBalance_of_find? hu, hub]
  · rw [GetUserBalance_map hpres hu (by rw [hout])]
    simp [hfrom, addCoins, hub]; omega
  · rw [GetUserBalance_map hpres hto2 (by rw [hout])]
    have : ¬ toUser.ID = fromUserID := fun hc => hne hc.symm
    simp [this, addCoins]
  · rw [hout]
  · rw [hout]
    apply List.map_congr_left
    intro v _
    by_cases hv : v.ID = fromUserID
    · simp only [hv, if_true, addCoins]
      congr 1
    · simp only [hv, if_false, addCoins]
  · rw [hout]
  · rw [hout]

/-- C4, at the scenario of the specification: accounts 1 and 2 both hold 1000,
account 1 sends 100 to "acct2"; afterwards they hold 900 and 1100. -/
theorem SendCoin_success_effect_witness :
    uniqueIDs demoStore ∧ (0 : Int) < 100 ∧ (100 : Int) ≤ maxInt64 ∧
    (SendCoin noFaults demoStore 1 "acct2" 100).err = none ∧
    GetUserBalance none (SendCoin noFaults demoStore 1 "acct2" 100).store 1 = (900, none) ∧
    GetUserBalance none (SendCoin noFaults demoStore 1 "acct2" 100).store 2 = (1100, none) ∧
    ∃ toUser senderBalance,
      GetUser none demoStore "acct2" = (toUser, none) ∧ toUser.ID ≠ 1 ∧
      GetUserBalance none demoStore 1 = (senderBalance, none) ∧
      GetUserBalance none demoStore toUser.ID = (toUser.Coins, none) ∧
      GetUserBalance none (SendCoin noFaults demoStore 1 "acct2" 100).store 1
        = (senderBalance - 100, none) ∧
      GetUserBalance none (SendCoin noFaults demoStore 1 "acct2" 100).store toUser.ID
        = (toUser.Coins + 100, none) ∧
      (SendCoin noFaults demoStore 1 "acct2" 100).store.transactions
        = demoStore.transactions ++ [⟨1, toUser.ID, 100⟩] ∧
      (SendCoin noFaults demoStore 1 "acct2" 100).store.users
        = demoStore.users.map (fun u =>
            if u.ID = 1 then { u with Coins := u.Coins - 100 }
            else if u.ID = toUser.ID then { u with Coins := u.Coins + 100 } else u) ∧
      (SendCoin noFaults demoStore 1 "acct2" 100).store.inventory = demoStore.inventory ∧
      (SendCoin noFaults demoStore 1 "acct2" 100).store.merch_items = demoStore.merch_items :=
  ⟨by decide, by decide, by decide, by decide, by decide, by decide,
    SendCoin_success_effect noFaults demoStore 1 "acct2" 100
      (by decide) (by decide) (by decide) (by decide)⟩

/-- C5: whenever `SendCoin` returns an error, the error is the one its scope
returned and the store after the call is the store before the call. -/
theorem SendCoin_error_rolls_back (faults : Nat → Option Err) (s : Store)
    (fromUserID : Int) (toUsername : String) (amount : Int) (e : Err)
    (h : (SendCoin faults s fromUserID toUsername amount).err = some e) :
    (sendCoinScope faults fromUserID toUsername amount s).err = some e ∧
    (SendCoin faults s fromUserID toUsername amount).store = s :=
  trManagerDo_err h

/-- C5, with the credit of the recipient failing at the driver after the debit
of the sender was applied inside the scope: the scope holds the debited balance
900, the call returns the driver error, and the store is the one before. -/
theorem SendCoin_error_rolls_back_witness :
    (SendCoin (faultAt 3 (Err.driver 1)) demoStore 1 "acct2" 100).err = some (Err.driver 1) ∧
    GetUserBalance none (sendCoinScope (faultAt 3 (Err.driver 1)) 1 "acct2" 100 demoStore).store 1
      = (900, none) ∧
    (sendCoinScope (faultAt 3 (Err.driver 1)) 1 "acct2" 100 demoStore).err
      = some (Err.driver 1) ∧
    (SendCoin (faultAt 3 (Err.driver 1)) demoStore 1 "acct2" 100).store = demoStore :=
  ⟨by decide, by decide,
    SendCoin_error_rolls_back (faultAt 3 (Err.driver 1)) demoStore 1 "acct2" 100 (Err.driver 1)
      (by decide)⟩

/-! ## the purchase scope, step by step -/

theorem GetItem_ok {f : Option Err} {s : Store} {n : String} {m : MerchItems}
    (h : GetItem f s n = (m, none)) :
    f = none ∧ s.merch_items.find? (fun v => v.ItemType == n) = some m := by
  unfold GetItem at h
  cases f with
  | some e => simp at h
  | none =>
    cases hf : s.merch_items.find? (fun v => v.ItemType == n) with
    | none => simp [hf] at h
    | some v => simp [hf] at h; simp [h]

theorem InsertInventoryItem_ok {f : Option Err} {s s1 : Store} {a b : Int}
    (h : InsertInventoryItem f s a b = (s1, none)) :
    f = none ∧ s1 = { s with inventory := s.inventory ++ [⟨a, b, 1⟩] } := by
  unfold InsertInventoryItem at h
  cases f with
  | some e => simp at h
  | none => simp at h; exact ⟨rfl, h.symm⟩

theorem UpdateInventoryItem_ok {f : Option Err} {s s1 : Store} {a b : Int}
    (h : UpdateInventoryItem f s a b = (s1, none)) :
    f = none ∧ s1 = { s with
      inventory := (List.map (fun r => if holdingMatch a b r then incQuantity r else r)
        s.inventory) } := by
  unfold UpdateInventoryItem at h
  cases f with
  | some e => simp at h
  | none => simp at h; exact ⟨rfl, h.symm⟩

/-- A purchase scope that returns nil went through the item lookup, the balance
read and the debit, each returning nil, and then through the insert when the
holding lookup returned an error, through the update when it returned nil. -/
theorem buyItemScope_ok {faults : Nat → Option Err} {s : Store} {userID : Int}
    {itemName : String}
    (h : (buyItemScope faults userID itemName s).err = none) :
    ∃ item balance s1 s2,
      GetItem (faults 0) s itemName = (item, none) ∧
      GetUserBalance (faults 1) s userID = (balance, none) ∧ item.Price ≤ balance ∧
      UpdateCoins (faults 2) s userID (negInt64 item.Price) = (s1, none) ∧
      (((GetInventoryItem (faults 3) s1 userID item.ID).2 ≠ none ∧
          InsertInventoryItem (faults 4) s1 userID item.ID = (s2, none)) ∨
        ((GetInventoryItem (faults 3) s1 userID item.ID).2 = none ∧
          UpdateInventoryItem (faults 4) s1 userID item.ID = (s2, none))) ∧
      (buyItemScope faults userID itemName s).store = s2 := by
  unfold buyItemScope at h ⊢
  rcases h0 : GetItem (faults 0) s itemName with ⟨item, _ | e0⟩
  swap
  · simp [h0] at h
  simp only [h0] at h ⊢
  rcases h1 : GetUserBalance (faults 1) s userID with ⟨balance, _ | e1⟩
  swap
  · simp [h1] at h
  simp only [h1] at h ⊢
  by_cases hlt : balance < item.Price
  · simp [hlt] at h
  simp only [hlt, if_false] at h ⊢
  rcases h2 : UpdateCoins (faults 2) s userID (negInt64 item.Price) with ⟨s1, _ | e2⟩
  swap
  · simp [h2] at h
  simp only [h2] at h ⊢
  rcases h3 : GetInventoryItem (faults 3) s1 userID item.ID with ⟨q, _ | e3⟩
  · simp only [h3] at h ⊢
    rcases h4 : UpdateInventoryItem (faults 4) s1 userID item.ID with ⟨s2, _ | e4⟩
    swap
    · simp [h4] at h
    simp only [h4] at h ⊢
    exact ⟨item, balance, s1, s2, rfl, rfl, not_lt.mp hlt, h2,
      Or.inr ⟨by rw [h3], h4⟩, rfl⟩
  · simp only [h3] at h ⊢
    rcases h4 : InsertInventoryItem (faults 4) s1 userID item.ID with ⟨s2, _ | e4⟩
    swap
    · simp [h4] at h
    simp only [h4] at h ⊢
    exact ⟨item, balance, s1, s2, rfl, rfl, not_lt.mp hlt, h2,
      Or.inl ⟨by rw [h3]; simp, h4⟩, rfl⟩

theorem GetInventoryItem_congr (f : Option Err) {s s1 : Store} (h : s1.inventory = s.inventory)
    (a b : Int) : GetInventoryItem f s1 a b = GetInventoryItem f s a b := by
  unfold GetInventoryItem
  rw [h]

theorem BuyItem_ok {faults : Nat → Option Err} {s : Store} {userID : Int} {itemName : String}
    (h : (BuyItem faults s userID itemName).err = none) :
    ∃ item balance s1 s2,
      GetItem (faults 0) s itemName = (item, none) ∧
      GetUserBalance (faults 1) s userID = (balance, none) ∧ item.Price ≤ balance ∧
      UpdateCoins (faults 2) s userID (negInt64 item.Price) = (s1, none) ∧
      (((GetInventoryItem (faults 3) s1 userID item.ID).2 ≠ none ∧
          InsertInventoryItem (faults 4) s1 userID item.ID = (s2, none)) ∨
        ((GetInventoryItem (faults 3) s1 userID item.ID).2 = none ∧
          UpdateInventoryItem (faults 4) s1 userID item.ID = (s2, none))) ∧
      (BuyItem faults s userID itemName).store = s2 := by
  obtain ⟨hscope, heq⟩ := trManagerDo_ok h
  obtain ⟨item, balance, s1, s2, hi, hb, hle, hd, hinv, hout⟩ := buyItemScope_ok hscope
  exact ⟨item, balance, s1, s2, hi, hb, hle, hd, hinv, by unfold BuyItem; rw [heq, hout]⟩

/-- The store after a committed purchase, under the primary key and with
catalog prices that are positive `int64` values. -/
theorem BuyItem_ok_store {faults : Nat → Option Err} {s : Store} {userID : Int}
    {itemName : String} (hn : uniqueIDs s) (hc : validCatalog s)
    (h : (BuyItem faults s userID itemName).err = none) :
    ∃ item u,
      s.merch_items.find? (fun v => v.ItemType == itemName) = some item ∧
      s.users.find? (fun v => v.ID == userID) = some u ∧ item.Price ≤ u.Coins ∧
      (BuyItem faults s userID itemName).store =
        { s with
          users := (List.map (fun v => if v.ID = userID then addCoins (-item.Price) v else v)
            s.users)
          inventory :=
            (if (GetInventoryItem (faults 3) s userID item.ID).2 = none then
              List.map (fun r => if holdingMatch userID item.ID r then incQuantity r else r)
                s.inventory
            else s.inventory ++ [⟨userID, item.ID, 1⟩]) } := by
  obtain ⟨item, balance, s1, s2, hi, hb, hle, hd, hinv, hout⟩ := BuyItem_ok h
  have hfind := (GetItem_ok hi).2
  obtain ⟨hp0, hp1⟩ := hc item (mem_of_find? hfind).1
  rw [negInt64_of_pos hp0 hp1] at hd
  have hs1 := UpdateCoins_ok_unique hn hd
  obtain ⟨u, hu, hub⟩ := (GetUserBalance_ok hb).2
  have hinv1 : s1.inventory = s.inventory := by rw [hs1]
  refine ⟨item, u, hfind, hu, by rw [hub]; exact hle, ?_⟩
  rw [hout]
  rw [GetInventoryItem_congr _ hinv1] at hinv
  rcases hinv with ⟨hg, hins⟩ | ⟨hg, hupd⟩
  · rw [(InsertInventoryItem_ok hins).2, hs1]
    simp [hg]
  · rw [(UpdateInventoryItem_ok hupd).2, hs1]
    simp [hg]

/-- In a Postgres transaction a purchase that returns nil had no driver
failure of its holding lookup: after such a failure the insert fails too. -/
theorem BuyItem_ok_lookup_not_failed {faults : Nat → Option Err} {s : Store} {userID : Int}
    {itemName : String} (ht : lookupFailureAborts faults)
    (h : (BuyItem faults s userID itemName).err = none) : faults 3 = none := by
  obtain ⟨item, balance, s1, s2, _, _, _, _, hinv, _⟩ := BuyItem_ok h
  rcases hinv with ⟨_, hins⟩ | ⟨hg, _⟩
  · by_contra hne
    exact ht hne (InsertInventoryItem_ok hins).1
  · cases hf : faults 3 with
    | none => rfl
    | some e =>
      rw [hf] at hg
      simp [GetInventoryItem] at hg

/-! ## the balance invariant -/

theorem SendCoin_preserves (faults : Nat → Option Err) {s : Store} (fromUserID : Int)
    {amount : Int} (toUsername : String) (hn : uniqueIDs s) (hb : nonNegative s)
    (h0 : 0 < amount) (h1 : amount ≤ maxInt64) :
    uniqueIDs (SendCoin faults s fromUserID toUsername amount).store ∧
    nonNegative (SendCoin faults s fromUserID toUsername amount).store ∧
    (SendCoin faults s fromUserID toUsername amount).store.merch_items = s.merch_items := by
  cases he : (SendCoin faults s fromUserID toUsername amount).err with
  | some e =>
    unfold SendCoin at he ⊢
    rw [(trManagerDo_err he).2]
    exact ⟨hn, hb, rfl⟩
  | none =>
    obtain ⟨toUser, balance, _, hne, ⟨u, hu, hub⟩, hle, hout⟩ := SendCoin_ok_users hn h0 h1 he
    have hpres : ∀ v : User, (if v.ID = fromUserID then addCoins (-amount) v
        else if v.ID = toUser.ID then addCoins amount v else v).ID = v.ID := by
      intro v; split
      · rfl
      · split <;> rfl
    rw [hout]
    refine ⟨?_, ?_, rfl⟩
    · unfold uniqueIDs at hn ⊢
      simp only
      rw [map_ID_map _ hpres]
      exact hn
    · intro v hv
      simp only [List.mem_map] at hv
      obtain ⟨w, hw, rfl⟩ := hv
      have hw0 := hb w hw
      by_cases hwf : w.ID = fromUserID
      · have hfrom : u.ID = fromUserID := by simpa using (mem_of_find? hu).2
        have : w = u := eq_of_ID_eq hn hw (mem_of_find? hu).1 (by rw [hwf, hfrom])
        subst this
        simp only [hwf, if_true, addCoins]
        omega
      · by_cases hwt : w.ID = toUser.ID
        · rw [if_neg hwf, if_pos hwt]
          simp only [addCoins]
          omega
        · rw [if_neg hwf, if_neg hwt]
          exact hw0

theorem BuyItem_preserves (faults : Nat → Option Err) {s : Store} (userID : Int)
    (itemName : String) (hn : uniqueIDs s) (hb : nonNegative s) (hc : validCatalog s) :
    uniqueIDs (BuyItem faults s userID itemName).store ∧
    nonNegative (BuyItem faults s userID itemName).store ∧
    (BuyItem faults s userID itemName).store.merch_items = s.merch_items := by
  cases he : (BuyItem faults s userID itemName).err with
  | some e =>
    unfold BuyItem at he ⊢
    rw [(trManagerDo_err he).2]
    exact ⟨hn, hb, rfl⟩
  | none =>
    obtain ⟨item, u, _, hu, hle, hout⟩ := BuyItem_ok_store hn hc he
    rw [hout]
    refine ⟨?_, ?_, rfl⟩
    · unfold uniqueIDs at hn ⊢
      simp only
      rw [map_ID_map _ (addCoins_ite_ID userID (-item.Price))]
      exact hn
    · intro v hv
      simp only [List.mem_map] at hv
      obtain ⟨w, hw, rfl⟩ := hv
      have hw0 := hb w hw
      by_cases hwf : w.ID = userID
      · have hfrom : u.ID = userID := by simpa using (mem_of_find? hu).2
        have : w = u := eq_of_ID_eq hn hw (mem_of_find? hu).1 (by rw [hwf, hfrom])
        subst this
        simp only [hwf, if_true, addCoins]
        omega
      · simp only [hwf, if_false]
        exact hw0

theorem serve_preserves {s : Store} {r : Request} (hn : uniqueIDs s) (hb : nonNegative s)
    (hc : validCatalog s) (hr : positiveAmount r) :
    uniqueIDs (serve s r) ∧ nonNegative (serve s r) ∧ validCatalog (serve s r) := by
  cases r with
  | BuyItem faults userID itemName =>
    obtain ⟨h1, h2, h3⟩ := BuyItem_preserves faults userID itemName hn hb hc
    exact ⟨h1, h2, by unfold validCatalog serve; rw [h3]; exact hc⟩
  | SendCoin faults fromUserID toUsername amount =>
    obtain ⟨h1, h2, h3⟩ := SendCoin_preserves faults fromUserID toUsername hn hb hr.1 hr.2
    exact ⟨h1, h2, by unfold validCatalog serve; rw [h3]; exact hc⟩

theorem serveAll_preserves (reqs : List Request) :
    ∀ s : Store, uniqueIDs s → nonNegative s → validCatalog s →
      (∀ r ∈ reqs, positiveAmount r) →
      uniqueIDs (serveAll s reqs) ∧ nonNegative (serveAll s reqs) ∧
        validCatalog (serveAll s reqs) := by
  induction reqs with
  | nil => intro s hn hb hc _; exact ⟨hn, hb, hc⟩
  | cons r rest ih =>
    intro s hn hb hc hr
    obtain ⟨h1, h2, h3⟩ := serve_preserves hn hb hc (hr r (List.mem_cons_self r rest))
    exact ih (serve s r) h1 h2 h3 (fun q hq => hr q (List.mem_cons_of_mem r hq))

/-- C6: from a store whose balances are all at least zero and whose catalog
prices are all positive, after serving any finite sequence of `BuyItem` and
`SendCoin` requests (transfers with a positive amount; a request's mutations are
kept exactly when it returns nil), every balance is at least zero. -/
theorem balances_stay_nonNegative (s : Store) (reqs : List Request)
    (hn : uniqueIDs s) (hb : nonNegative s) (hc : validCatalog s)
    (hr : ∀ r ∈ reqs, positiveAmount r) :
    ∀ u ∈ (serveAll s reqs).users, 0 ≤ u.Coins :=
  (serveAll_preserves reqs s hn hb hc hr).2.1

/-- C6, on a run that spends a balance down to exactly zero: account 1 buys a
t-shirt (920 left), sends all 920, is refused a further transfer of 5, and
account 2 has a purchase fail at the driver. -/
theorem balances_stay_nonNegative_witness :
    uniqueIDs demoStore ∧ nonNegative demoStore ∧ validCatalog demoStore ∧
    (∀ r ∈ [Request.BuyItem noFaults 1 "t-shirt", Request.SendCoin noFaults 1 "acct2" 920,
        Request.SendCoin noFaults 1 "acct2" 5,
        Request.BuyItem (faultAt 4 (Err.driver 1)) 2 "cup"], positiveAmount r) ∧
    GetUserBalance none (serveAll demoStore
      [Request.BuyItem noFaults 1 "t-shirt", Request.SendCoin noFaults 1 "acct2" 920,
        Request.SendCoin noFaults 1 "acct2" 5,
        Request.BuyItem (faultAt 4 (Err.driver 1)) 2 "cup"]) 1 = (0, none) ∧
    ∀ u ∈ (serveAll demoStore
      [Request.BuyItem noFaults 1 "t-shirt", Request.SendCoin noFaults 1 "acct2" 920,
        Request.SendCoin noFaults 1 "acct2" 5,
        Request.BuyItem (faultAt 4 (Err.driver 1)) 2 "cup"]).users, 0 ≤ u.Coins :=
  ⟨by decide, by decide, by decide, by decide, by decide,
    balances_stay_nonNegative demoStore _ (by decide) (by decide) (by decide) (by decide)⟩

/-! ## the purchase workflow -/

theorem find?_holding_map (userID merchID : Int) (l : List InventoryRow) :
    (l.map (fun r => if holdingMatch userID merchID r then incQuantity r else r)).find?
        (holdingMatch userID merchID)
      = (l.find? (holdingMatch userID merchID)).map incQuantity := by
  induction l with
  | nil => rfl
  | cons a l ih =>
    simp only [List.map_cons, List.find?_cons]
    cases ha : holdingMatch userID merchID a
    · simp [ha, ih]
    · have : holdingMatch userID merchID (incQuantity a) = true := by
        simpa [holdingMatch, incQuantity] using ha
      simp [this]

/-- C7: a `BuyItem` that returns nil, its statements running on one Postgres
transaction, lowers the buyer's balance by the item's price; when the buyer
held no row for the item it appends the row (userID, item, 1), and when it held
one, of quantity `q`, it raises that quantity by one, so that it is read back
as `q + 1`; it changes no other account row, no other holding, no transfer
record and no catalog row. -/
theorem BuyItem_success_effect (faults : Nat → Option Err) (s : Store) (userID : Int)
    (itemName : String) (hn : uniqueIDs s) (hc : validCatalog s)
    (ht : lookupFailureAborts faults)
    (h : (BuyItem faults s userID itemName).err = none) :
    ∃ item balance,
      GetItem none s itemName = (item, none) ∧
      GetUserBalance none s userID = (balance, none) ∧
      GetUserBalance none (BuyItem faults s userID itemName).store userID
        = (balance - item.Price, none) ∧
      (BuyItem faults s userID itemName).store.users
        = s.users.map (fun u =>
            if u.ID = userID then { u with Coins := u.Coins - item.Price } else u) ∧
      (s.inventory.find? (holdingMatch userID item.ID) = none →
        (BuyItem faults s userID itemName).store.inventory
          = s.inventory ++ [⟨userID, item.ID, 1⟩]) ∧
      (∀ q, GetInventoryItem none s userID item.ID = (q, none) →
        (BuyItem faults s userID itemName).store.inventory
          = s.inventory.map
              (fun r => if holdingMatch userID item.ID r then incQuantity r else r) ∧
        GetInventoryItem none (BuyItem faults s userID itemName).store userID item.ID
          = (q + 1, none)) ∧
      (BuyItem faults s userID itemName).store.transactions = s.transactions ∧
      (BuyItem faults s userID itemName).store.merch_items = s.merch_items := by
  have hf : faults 3 = none := BuyItem_ok_lookup_not_failed ht h
  obtain ⟨item, u, hfind, hu, _, hout⟩ := BuyItem_ok_store hn hc h
  have hinv : (BuyItem faults s userID itemName).store.inventory
      = (if (GetInventoryItem (faults 3) s userID item.ID).2 = none then
          s.inventory.map (fun r => if holdingMatch userID item.ID r then incQuantity r else r)
        else s.inventory ++ [⟨userID, item.ID, 1⟩]) := by rw [hout]
  refine ⟨item, u.Coins, ?_, GetUserBalance_of_find? hu, ?_, ?_, ?_, ?_, ?_, ?_⟩
  · simp [GetItem, hfind]
  · rw [GetUserBalance_map (addCoins_ite_ID userID (-item.Price)) hu (by rw [hout])]
    have hfrom : u.ID = userID := by simpa using (mem_of_find? hu).2
    simp [hfrom, addCoins]; omega
  · rw [hout]
    apply List.map_congr_left
    intro v _
    by_cases hv : v.ID = userID
    · simp only [hv, if_true, addCoins]
      congr 1
    · simp only [hv, if_false]
  · intro hnone
    rw [hinv, hf]
    simp [GetInventoryItem, hnone]
  · intro q hq
    have hq2 : (GetInventoryItem none s userID item.ID).2 = none := by rw [hq]
    have hmap : (BuyItem faults s userID itemName).store.inventory
        = s.inventory.map
            (fun r => if holdingMatch userID item.ID r then incQuantity r else r) := by
      rw [hinv, hf, if_pos hq2]
    refine ⟨hmap, ?_⟩
    unfold GetInventoryItem at hq ⊢
    simp only [hmap, find?_holding_map]
    cases hfd : s.inventory.find? (holdingMatch userID item.ID) with
    | none => simp [hfd] at hq
    | some r =>
      simp only [hfd, Prod.mk.injEq, and_true] at hq
      simp [incQuantity, hq]
  · rw [hout]
  · rw [hout]

/-- C7, at the scenario of the specification: an account with balance 1000 and
no holding buys a t-shirt priced 80; its balance becomes 920 and its inventory
is one t-shirt. A second account that holds three cups buys a cup and holds
four. -/
theorem BuyItem_success_effect_witness :
    uniqueIDs demoStore ∧ validCatalog demoStore ∧ lookupFailureAborts noFaults ∧
    (BuyItem noFaults demoStore 1 "t-shirt").err = none ∧
    GetUserBalance none (BuyItem noFaults demoStore 1 "t-shirt").store 1 = (920, none) ∧
    (BuyItem noFaults demoStore 1 "t-shirt").store.inventory = [⟨1, 1, 1⟩] ∧
    (BuyItem noFaults historyStore 2 "cup").store.inventory = [⟨2, 2, 4⟩] ∧
    ∃ item balance,
      GetItem none demoStore "t-shirt" = (item, none) ∧
      GetUserBalance none demoStore 1 = (balance, none) ∧
      GetUserBalance none (BuyItem noFaults demoStore 1 "t-shirt").store 1
        = (balance - item.Price, none) ∧
      (BuyItem noFaults demoStore 1 "t-shirt").store.users
        = demoStore.users.map (fun u =>
            if u.ID = 1 then { u with Coins := u.Coins - item.Price } else u) ∧
      (demoStore.inventory.find? (holdingMatch 1 item.ID) = none →
        (BuyItem noFaults demoStore 1 "t-shirt").store.inventory
          = demoStore.inventory ++ [⟨1, item.ID, 1⟩]) ∧
      (∀ q, GetInventoryItem none demoStore 1 item.ID = (q, none) →
        (BuyItem noFaults demoStore 1 "t-shirt").store.inventory
          = demoStore.inventory.map
              (fun r => if holdingMatch 1 item.ID r then incQuantity r else r) ∧
        GetInventoryItem none (BuyItem noFaults demoStore 1 "t-shirt").store 1 item.ID
          = (q + 1, none)) ∧
      (BuyItem noFaults demoStore 1 "t-shirt").store.transactions = demoStore.transactions ∧
      (BuyItem noFaults demoStore 1 "t-shirt").store.merch_items = demoStore.merch_items :=
  ⟨by decide, by decide, by decide, by decide, by decide, by decide, by decide,
    BuyItem_success_effect noFaults demoStore 1 "t-shirt" (by decide) (by decide) (by decide)
      (by decide)⟩

/-- C8: whenever `BuyItem` returns an error, the error is the one its scope
returned and the store after the call is the store before the call. -/
theorem BuyItem_error_rolls_back (faults : Nat → Option Err) (s : Store) (userID : Int)
    (itemName : String) (e : Err)
    (h : (BuyItem faults s userID itemName).err = some e) :
    (buyItemScope faults userID itemName s).err = some e ∧
    (BuyItem faults s userID itemName).store = s :=
  trManagerDo_err h

/-- C8, with the inventory insert failing at the driver after the debit was
applied inside the scope: the scope holds the debited balance 920, the call
returns the driver error, and the store is the one before. -/
theorem BuyItem_error_rolls_back_witness :
    (BuyItem (faultAt 4 (Err.driver 1)) demoStore 1 "t-shirt").err = some (Err.driver 1) ∧
    GetUserBalance none (buyItemScope (faultAt 4 (Err.driver 1)) 1 "t-shirt" demoStore).store 1
      = (920, none) ∧
    (buyItemScope (faultAt 4 (Err.driver 1)) 1 "t-shirt" demoStore).err
      = some (Err.driver 1) ∧
    (BuyItem (faultAt 4 (Err.driver 1)) demoStore 1 "t-shirt").store = demoStore :=
  ⟨by decide, by decide,
    BuyItem_error_rolls_back (faultAt 4 (Err.driver 1)) demoStore 1 "t-shirt" (Err.driver 1)
      (by decide)⟩

/-- C9: for an item name that no catalog row carries, `BuyItem` returns
`ErrItemNotFound`, its only repository call is the item lookup, and the store is
unchanged. -/
theorem BuyItem_unknown_item (faults : Nat → Option Err) (s : Store) (userID : Int)
    (itemName : String) (h : ∀ m ∈ s.merch_items, m.ItemType ≠ itemName) :
    BuyItem faults s userID itemName
      = ⟨s, [Call.GetItem itemName], some Err.ErrItemNotFound⟩ := by
  have hfind : s.merch_items.find? (fun m => m.ItemType == itemName) = none := by
    rw [List.find?_eq_none]
    intro m hm
    simpa using h m hm
  have hget : ∃ m e, GetItem (faults 0) s itemName = (m, some e) := by
    unfold GetItem
    cases faults 0 with
    | some e => exact ⟨zeroMerchItems, e, rfl⟩
    | none => exact ⟨zeroMerchItems, Err.ErrNoRows, by simp [hfind]⟩
  obtain ⟨m, e, hg⟩ := hget
  simp [BuyItem, trManagerDo, buyItemScope, hg]

/-- C9, at the scenario of the specification: buying "unknown-item". -/
theorem BuyItem_unknown_item_witness :
    (∀ m ∈ demoStore.merch_items, m.ItemType ≠ "unknown-item") ∧
    BuyItem noFaults demoStore 1 "unknown-item"
      = ⟨demoStore, [Call.GetItem "unknown-item"], some Err.ErrItemNotFound⟩ :=
  ⟨by decide, BuyItem_unknown_item noFaults demoStore 1 "unknown-item" (by decide)⟩

theorem coinsGuard_ite_ID (id amt : Int) (u : User) :
    (if coinsGuard id amt u then addCoins amt u else u).ID = u.ID := by
  split <;> rfl

/-- A guarded update whose first row with the id passes the guard returns nil. -/
theorem UpdateCoins_of_find? {s : Store} {id : Int} (amt : Int) {u : User}
    (hu : s.users.find? (fun v => v.ID == id) = some u) (hg : amt ≤ u.Coins) :
    UpdateCoins none s id amt =
      ({ s with
        users := (List.map (fun v => if coinsGuard id amt v then addCoins amt v else v)
          s.users) }, none) := by
  obtain ⟨hmem, hid⟩ := mem_of_find? hu
  have hguard : coinsGuard id amt u = true := by
    simp only [coinsGuard, Bool.and_eq_true, decide_eq_true_eq]
    exact ⟨hid, hg⟩
  have hin : u ∈ s.users.filter (coinsGuard id amt) := List.mem_filter.mpr ⟨hmem, hguard⟩
  have hlen : (s.users.filter (coinsGuard id amt)).length ≠ 0 :=
    Nat.pos_iff_ne_zero.mp (List.length_pos_of_mem hin)
  simp [UpdateCoins, hlen]

/-- With no driver failure, a purchase whose price is within the balance
returns nil and debits the first row of the buyer. -/
theorem buyItemScope_noFaults_ok {s : Store} (userID : Int) {itemName : String}
    {item : MerchItems} {u : User}
    (hitem : GetItem none s itemName = (item, none))
    (hp0 : 0 < item.Price) (hp1 : item.Price ≤ maxInt64)
    (hu : s.users.find? (fun v => v.ID == userID) = some u) (hb : 0 ≤ u.Coins)
    (hle : item.Price ≤ u.Coins) :
    (buyItemScope noFaults userID itemName s).err = none ∧
    (buyItemScope noFaults userID itemName s).store.users
      = s.users.map (fun v => if coinsGuard userID (-item.Price) v
          then addCoins (-item.Price) v else v) := by
  have hupd := UpdateCoins_of_find? (-item.Price) hu (by omega)
  have hlt : ¬ u.Coins < item.Price := not_lt.mpr hle
  unfold buyItemScope
  simp only [noFaults, hitem, GetUserBalance_of_find? hu, hlt, if_false,
    negInt64_of_pos hp0 hp1, hupd]
  rcases h3 : GetInventoryItem none
      { s with users := (List.map (fun v => if coinsGuard userID (-item.Price) v
          then addCoins (-item.Price) v else v) s.users) } userID item.ID with ⟨q, _ | e⟩
  · simp [UpdateInventoryItem]
  · simp [InsertInventoryItem]

/-- C10: for a catalog item with price p > 0 and a buyer with balance b >= 0,
with no repository call failing at the driver, `BuyItem` returns
`ErrInsufficientBalance` and leaves the balance at b exactly when p > b; when
p <= b it returns nil and leaves b - p, which is 0 at the boundary p = b. -/
theorem BuyItem_insufficient_iff (s : Store) (userID : Int) (itemName : String)
    (item : MerchItems) (b : Int)
    (hitem : GetItem none s itemName = (item, none))
    (hp0 : 0 < item.Price) (hp1 : item.Price ≤ maxInt64)
    (hbal : GetUserBalance none s userID = (b, none)) (hb : 0 ≤ b) :
    (((BuyItem noFaults s userID itemName).err = some Err.ErrInsufficientBalance ∧
        GetUserBalance none (BuyItem noFaults s userID itemName).store userID = (b, none))
      ↔ b < item.Price) ∧
    (item.Price ≤ b →
      (BuyItem noFaults s userID itemName).err = none ∧
      GetUserBalance none (BuyItem noFaults s userID itemName).store userID
        = (b - item.Price, none)) ∧
    (item.Price = b →
      (BuyItem noFaults s userID itemName).err = none ∧
      GetUserBalance none (BuyItem noFaults s userID itemName).store userID = (0, none)) := by
  obtain ⟨u, hu, hub⟩ := (GetUserBalance_ok hbal).2
  have hok : item.Price ≤ b →
      (BuyItem noFaults s userID itemName).err = none ∧
      GetUserBalance none (BuyItem noFaults s userID itemName).store userID
        = (b - item.Price, none) := by
    intro hle
    obtain ⟨herr, husers⟩ := buyItemScope_noFaults_ok userID hitem hp0 hp1 hu
      (by rw [hub]; exact hb) (by rw [hub]; exact hle)
    have hdo : BuyItem noFaults s userID itemName = buyItemScope noFaults userID itemName s := by
      unfold BuyItem trManagerDo
      simp only [herr]
    rw [hdo]
    refine ⟨herr, ?_⟩
    rw [GetUserBalance_map (coinsGuard_ite_ID userID (-item.Price)) hu husers]
    have : coinsGuard userID (-item.Price) u = true := by
      simp only [coinsGuard, Bool.and_eq_true, decide_eq_true_eq]
      exact ⟨(mem_of_find? hu).2, by omega⟩
    simp [this, addCoins, hub]; omega
  refine ⟨⟨?_, ?_⟩, hok, ?_⟩
  · rintro ⟨herr, _⟩
    by_contra hnot
    have := (hok (not_lt.mp hnot)).1
    rw [this] at herr
    exact absurd herr (by simp)
  · intro hlt
    have : BuyItem noFaults s userID itemName
        = ⟨s, [Call.GetItem itemName, Call.GetUserBalance userID],
            some Err.ErrInsufficientBalance⟩ := by
      simp [BuyItem, trManagerDo, buyItemScope, noFaults, hitem, hbal, hlt]
    rw [this]
    exact ⟨rfl, hbal⟩
  · intro heq
    have := hok (le_of_eq heq)
    rw [heq] at this
    simpa using this

/-- C10, at the scenario of the specification (balance 30, t-shirt priced 80:
refused, the balance stays 30) and at the boundary (balance 30, cup priced 30:
accepted, the balance becomes 0). -/
theorem BuyItem_insufficient_iff_witness :
    GetItem none poorStore "t-shirt" = (⟨1, "t-shirt", 80⟩, none) ∧
    GetUserBalance none poorStore 2 = (30, none) ∧
    (BuyItem noFaults poorStore 2 "t-shirt").err = some Err.ErrInsufficientBalance ∧
    GetUserBalance none (BuyItem noFaults poorStore 2 "t-shirt").store 2 = (30, none) ∧
    (BuyItem noFaults poorStore 2 "cup").err = none ∧
    GetUserBalance none (BuyItem noFaults poorStore 2 "cup").store 2 = (0, none) ∧
    ((((BuyItem noFaults poorStore 2 "t-shirt").err = some Err.ErrInsufficientBalance ∧
        GetUserBalance none (BuyItem noFaults poorStore 2 "t-shirt").store 2 = (30, none))
      ↔ (30 : Int) < (80 : Int)) ∧
    ((80 : Int) ≤ 30 →
      (BuyItem noFaults poorStore 2 "t-shirt").err = none ∧
      GetUserBalance none (BuyItem noFaults poorStore 2 "t-shirt").store 2
        = (30 - 80, none)) ∧
    ((80 : Int) = 30 →
      (BuyItem noFaults poorStore 2 "t-shirt").err = none ∧
      GetUserBalance none (BuyItem noFaults poorStore 2 "t-shirt").store 2 = (0, none))) :=
  ⟨by decide, by decide, by decide, by decide, by decide, by decide,
    BuyItem_insufficient_iff poorStore 2 "t-shirt" ⟨1, "t-shirt", 80⟩ 30
      (by decide) (by decide) (by decide) (by decide) (by decide)⟩

/-! ## the guard of `UpdateCoins`, in general -/

/-- A debit of a positive amount is never refused: whatever non-negative
balance the first row with the id holds, `UpdateCoins(id, -a)` returns nil and
that row then reads `b - a`, below zero when `a > b`. -/
theorem UpdateCoins_debit_passes {s : Store} {id a : Int} {u : User}
    (hu : s.users.find? (fun v => v.ID == id) = some u) (hb : 0 ≤ u.Coins)
    (h0 : 0 < a) (h1 : a ≤ maxInt64) :
    (UpdateCoins none s id (negInt64 a)).2 = none ∧
    GetUserBalance none (UpdateCoins none s id (negInt64 a)).1 id = (u.Coins - a, none) := by
  rw [negInt64_of_pos h0 h1, UpdateCoins_of_find? (-a) hu (by omega)]
  refine ⟨rfl, ?_⟩
  rw [GetUserBalance_map (coinsGuard_ite_ID id (-a)) hu rfl]
  have : coinsGuard id (-a) u = true := by
    simp only [coinsGuard, Bool.and_eq_true, decide_eq_true_eq]
    exact ⟨(mem_of_find? hu).2, by omega⟩
  simp [this, addCoins]; omega

/-- A credit is refused whenever the account holds less than the amount
credited: `UpdateCoins(id, a)` with `coins < a` changes nothing and returns
`ErrInsufficientBalance`. -/
theorem UpdateCoins_credit_refused {s : Store} {id a : Int} {u : User} (hn : uniqueIDs s)
    (hu : s.users.find? (fun v => v.ID == id) = some u) (hlt : u.Coins < a) :
    UpdateCoins none s id a = (s, some Err.ErrInsufficientBalance) := by
  have hfalse : ∀ v ∈ s.users, coinsGuard id a v = false := by
    intro v hv
    by_cases hid : v.ID = id
    · have hfrom : u.ID = id := by simpa using (mem_of_find? hu).2
      have : v = u := eq_of_ID_eq hn hv (mem_of_find? hu).1 (by rw [hid, hfrom])
      subst this
      simp [coinsGuard, hlt]
    · simp [coinsGuard, hid]
  have hfilter : s.users.filter (coinsGuard id a) = [] := by
    rw [List.filter_eq_nil_iff]
    intro v hv
    simp [hfalse v hv]
  have hmap : List.map (fun v => if coinsGuard id a v then addCoins a v else v) s.users
      = s.users := by
    conv_rhs => rw [← List.map_id s.users]
    apply List.map_congr_left
    intro v hv
    simp [hfalse v hv]
  simp [UpdateCoins, hfilter, hmap]

/-- A transfer within the sender's balance is refused with
`ErrInsufficientBalance` whenever the recipient holds less than the amount:
the refusal comes from the credit. -/
theorem SendCoin_credit_refused {s : Store} {fromUserID amount : Int} {toUsername : String}
    {toUser u : User} (hn : uniqueIDs s)
    (hto : s.users.find? (fun v => v.Username == toUsername) = some toUser)
    (hne : fromUserID ≠ toUser.ID)
    (hu : s.users.find? (fun v => v.ID == fromUserID) = some u)
    (h0 : 0 < amount) (h1 : amount ≤ maxInt64) (hle : amount ≤ u.Coins)
    (hlt : toUser.Coins < amount) :
    SendCoin noFaults s fromUserID toUsername amount
      = ⟨s, [Call.GetUser toUsername, Call.GetUserBalance fromUserID,
          Call.UpdateCoins fromUserID (-amount), Call.UpdateCoins toUser.ID amount],
        some Err.ErrInsufficientBalance⟩ := by
  have hdebit := UpdateCoins_of_find? (-amount) hu (by omega)
  have hn1 : uniqueIDs { s with
      users := (List.map (fun v => if coinsGuard fromUserID (-amount) v
        then addCoins (-amount) v else v) s.users) } := by
    unfold uniqueIDs at hn ⊢
    simp only
    rw [map_ID_map _ (coinsGuard_ite_ID fromUserID (-amount))]
    exact hn
  have hto1 : (List.map (fun v => if coinsGuard fromUserID (-amount) v
      then addCoins (-amount) v else v) s.users).find? (fun v => v.ID == toUser.ID)
      = some toUser := by
    rw [find?_ID_map _ (coinsGuard_ite_ID fromUserID (-amount)),
      find?_ID_of_mem hn (mem_of_find? hto).1]
    have : coinsGuard fromUserID (-amount) toUser = false := by
      have hid : ¬ toUser.ID = fromUserID := fun hc => hne hc.symm
      simp [coinsGuard, hid]
    simp [this]
  have hcredit := UpdateCoins_credit_refused hn1 hto1 hlt
  have hnlt : ¬ u.Coins < amount := not_lt.mpr hle
  simp [SendCoin, trManagerDo, sendCoinScope, noFaults, GetUser, hto, hne,
    GetUserBalance_of_find? hu, hnlt, negInt64_of_pos h0 h1, hdebit, hcredit]

/-! ## buying the same item twice -/

theorem GetInventoryItem_err_of_absent (f : Option Err) {s : Store} {userID merchID : Int}
    (h : ∀ r ∈ s.inventory, holdingMatch userID merchID r = false) :
    (GetInventoryItem f s userID merchID).2 ≠ none := by
  have hfind : s.inventory.find? (holdingMatch userID merchID) = none := by
    rw [List.find?_eq_none]
    intro r hr
    simp [h r hr]
  unfold GetInventoryItem
  cases f with
  | some e => simp
  | none => simp [hfind]

theorem map_incQuantity_of_absent {l : List InventoryRow} {userID merchID : Int}
    (h : ∀ r ∈ l, holdingMatch userID merchID r = false) :
    l.map (fun r => if holdingMatch userID merchID r then incQuantity r else r) = l := by
  conv_rhs => rw [← List.map_id l]
  apply List.map_congr_left
  intro r hr
  simp [h r hr]

theorem filter_holding_of_absent {l : List InventoryRow} {userID merchID : Int}
    (h : ∀ r ∈ l, holdingMatch userID merchID r = false) :
    l.filter (holdingMatch userID merchID) = [] := by
  rw [List.filter_eq_nil_iff]
  intro r hr
  simp [h r hr]

/-- C11: when an account holds no row for an item, two consecutive `BuyItem`
calls for that item that both return nil, the statements of the second one
running on one Postgres transaction, leave the inventory with exactly one row
for (account, item), appended after the old rows, with quantity 2. -/
theorem BuyItem_twice_one_row (faults1 faults2 : Nat → Option Err) (s : Store) (userID : Int)
    (itemName : String) (item : MerchItems) (hn : uniqueIDs s) (hc : validCatalog s)
    (hitem : GetItem none s itemName = (item, none))
    (habsent : ∀ r ∈ s.inventory, holdingMatch userID item.ID r = false)
    (h1 : (BuyItem faults1 s userID itemName).err = none)
    (h2 : (BuyItem faults2 (BuyItem faults1 s userID itemName).store userID itemName).err
      = none)
    (ht : lookupFailureAborts faults2) :
    (BuyItem faults2 (BuyItem faults1 s userID itemName).store userID itemName).store.inventory
      = s.inventory ++ [⟨userID, item.ID, 2⟩] ∧
    (BuyItem faults2 (BuyItem faults1 s userID itemName).store userID
      itemName).store.inventory.filter (holdingMatch userID item.ID)
      = [⟨userID, item.ID, 2⟩] := by
  have hf : faults2 3 = none := BuyItem_ok_lookup_not_failed ht h2
  have hfind := (GetItem_ok hitem).2
  obtain ⟨item1, u1, hfind1, _, _, hout1⟩ := BuyItem_ok_store hn hc h1
  have hi1 : item1 = item := by
    rw [hfind] at hfind1
    exact (Option.some.inj hfind1).symm
  subst hi1
  rw [if_neg (GetInventoryItem_err_of_absent (faults1 3) habsent)] at hout1
  have hn1 : uniqueIDs (BuyItem faults1 s userID itemName).store := by
    rw [hout1]
    unfold uniqueIDs at hn ⊢
    simp only
    rw [map_ID_map _ (addCoins_ite_ID userID (-item1.Price))]
    exact hn
  have hc1 : validCatalog (BuyItem faults1 s userID itemName).store := by
    rw [hout1]
    exact hc
  obtain ⟨item2, u2, hfind2, _, _, hout2⟩ := BuyItem_ok_store hn1 hc1 h2
  have hi2 : item2 = item1 := by
    rw [hout1] at hfind2
    simp only at hfind2
    rw [hfind] at hfind2
    exact (Option.some.inj hfind2).symm
  subst hi2
  have hrow : holdingMatch userID item2.ID ⟨userID, item2.ID, 1⟩ = true := by
    simp [holdingMatch]
  have hinv1 : (BuyItem faults1 s userID itemName).store.inventory
      = s.inventory ++ [⟨userID, item2.ID, 1⟩] := by rw [hout1]
  have hlook : (GetInventoryItem (faults2 3) (BuyItem faults1 s userID itemName).store
      userID item2.ID).2 = none := by
    have hfd : s.inventory.find? (holdingMatch userID item2.ID) = none := by
      rw [List.find?_eq_none]
      intro r hr
      simp [habsent r hr]
    rw [hf]
    unfold GetInventoryItem
    simp [hinv1, List.find?_append, hfd, hrow]
  have hinv2 : (BuyItem faults2 (BuyItem faults1 s userID itemName).store userID
      itemName).store.inventory = s.inventory ++ [⟨userID, item2.ID, 2⟩] := by
    rw [hout2, if_pos hlook]
    simp only [hinv1, List.map_append, map_incQuantity_of_absent habsent]
    simp [hrow, incQuantity]
  refine ⟨hinv2, ?_⟩
  rw [hinv2, List.filter_append, filter_holding_of_absent habsent]
  simp [holdingMatch]

/-- C11, at the scenario of the specification: account 1 holds no t-shirt,
buys one twice with no driver failure, and ends with the single row
(1, t-shirt, 2). -/
theorem BuyItem_twice_one_row_witness :
    uniqueIDs demoStore ∧ validCatalog demoStore ∧
    GetItem none demoStore "t-shirt" = (⟨1, "t-shirt", 80⟩, none) ∧
    (BuyItem noFaults demoStore 1 "t-shirt").err = none ∧
    (BuyItem noFaults (BuyItem noFaults demoStore 1 "t-shirt").store 1 "t-shirt").err = none ∧
    (BuyItem noFaults (BuyItem noFaults demoStore 1 "t-shirt").store 1
      "t-shirt").store.inventory = demoStore.inventory ++ [⟨1, 1, 2⟩] ∧
    (BuyItem noFaults (BuyItem noFaults demoStore 1 "t-shirt").store 1
      "t-shirt").store.inventory.filter (holdingMatch 1 1) = [⟨1, 1, 2⟩] :=
  ⟨by decide, by decide, by decide, by decide, by decide,
    BuyItem_twice_one_row noFaults noFaults demoStore 1 "t-shirt" ⟨1, "t-shirt", 80⟩
      (by decide) (by decide) (by decide) (by decide) (by decide) (by decide) (by decide)⟩

theorem BuyItem_noFaults_ok {s : Store} (userID : Int) {itemName : String}
    {item : MerchItems} {u : User}
    (hitem : GetItem none s itemName = (item, none))
    (hp0 : 0 < item.Price) (hp1 : item.Price ≤ maxInt64)
    (hu : s.users.find? (fun v => v.ID == userID) = some u) (hle : item.Price ≤ u.Coins) :
    (BuyItem noFaults s userID itemName).err = none := by
  obtain ⟨herr, _⟩ := buyItemScope_noFaults_ok userID hitem hp0 hp1 hu (by omega) hle
  unfold BuyItem trManagerDo
  simp only [herr]

/-- With no driver failure and a balance of at least twice the price, two
consecutive purchases of the item both return nil. -/
theorem BuyItem_twice_noFaults_ok {s : Store} (userID : Int) {itemName : String}
    {item : MerchItems} {u : User} (hn : uniqueIDs s) (hc : validCatalog s)
    (hitem : GetItem none s itemName = (item, none))
    (hu : s.users.find? (fun v => v.ID == userID) = some u)
    (h2p : 2 * item.Price ≤ u.Coins) :
    (BuyItem noFaults s userID itemName).err = none ∧
    (BuyItem noFaults (BuyItem noFaults s userID itemName).store userID itemName).err
      = none := by
  have hfind := (GetItem_ok hitem).2
  obtain ⟨hp0, hp1⟩ := hc item (mem_of_find? hfind).1
  have h1 := BuyItem_noFaults_ok userID hitem hp0 hp1 hu (by omega)
  refine ⟨h1, ?_⟩
  obtain ⟨item1, u1, hfind1, _, _, hout1⟩ := BuyItem_ok_store hn hc h1
  have hi1 : item1 = item := by
    rw [hfind] at hfind1
    exact (Option.some.inj hfind1).symm
  subst hi1
  have hitem1 : GetItem none (BuyItem noFaults s userID itemName).store itemName
      = (item1, none) := by
    rw [hout1]
    simp [GetItem, hfind]
  have hu1 : (BuyItem noFaults s userID itemName).store.users.find?
      (fun v => v.ID == userID)
      = some (if u.ID = userID then addCoins (-item1.Price) u else u) := by
    rw [hout1]
    simp only
    rw [find?_ID_map _ (addCoins_ite_ID userID (-item1.Price)), hu]
    rfl
  apply BuyItem_noFaults_ok userID hitem1 hp0 hp1 hu1
  have hid : u.ID = userID := by simpa using (mem_of_find? hu).2
  simp only [hid, if_true, addCoins]
  omega

/-! ## the early exits of the transfer workflow -/

/-- C12: when no account carries the name `toUsername`, `SendCoin` returns
`ErrRecipientNotFound` for every amount, every sender and every driver outcome;
its only repository call is the recipient lookup (no balance read, no
mutation) and the store is unchanged. -/
theorem SendCoin_unknown_recipient (faults : Nat → Option Err) (s : Store) (fromUserID : Int)
    (toUsername : String) (amount : Int) (h : ∀ u ∈ s.users, u.Username ≠ toUsername) :
    SendCoin faults s fromUserID toUsername amount
      = ⟨s, [Call.GetUser toUsername], some Err.ErrRecipientNotFound⟩ := by
  have hfind : s.users.find? (fun u => u.Username == toUsername) = none := by
    rw [List.find?_eq_none]
    intro u hu
    simpa using h u hu
  have hget : ∃ u e, GetUser (faults 0) s toUsername = (u, some e) := by
    unfold GetUser
    cases faults 0 with
    | some e => exact ⟨zeroUser, e, rfl⟩
    | none => exact ⟨zeroUser, Err.ErrNoRows, by simp [hfind]⟩
  obtain ⟨u, e, hg⟩ := hget
  simp [SendCoin, trManagerDo, sendCoinScope, hg]

/-- C12, on a store with accounts "acct1" and "acct2": sending to "nobody". -/
theorem SendCoin_unknown_recipient_witness :
    (∀ u ∈ demoStore.users, u.Username ≠ "nobody") ∧
    SendCoin noFaults demoStore 1 "nobody" 5000
      = ⟨demoStore, [Call.GetUser "nobody"], some Err.ErrRecipientNotFound⟩ :=
  ⟨by decide, SendCoin_unknown_recipient noFaults demoStore 1 "nobody" 5000 (by decide)⟩

/-- C13: when `toUsername` resolves to the sender's own account, `SendCoin`
returns `ErrSendThemselves` for every amount, also one above the sender's
balance; its only repository call is the recipient lookup (the balance is not
read) and the store is unchanged. -/
theorem SendCoin_to_self (faults : Nat → Option Err) (s : Store) (fromUserID : Int)
    (toUsername : String) (amount : Int) (toUser : User)
    (hget : GetUser (faults 0) s toUsername = (toUser, none))
    (hself : toUser.ID = fromUserID) :
    SendCoin faults s fromUserID toUsername amount
      = ⟨s, [Call.GetUser toUsername], some Err.ErrSendThemselves⟩ := by
  simp [SendCoin, trManagerDo, sendCoinScope, hget, hself]

/-- C13, at the scenario of the specification and above the balance: account 1
("acct1", balance 1000) sends 50, and 5000, to "acct1". -/
theorem SendCoin_to_self_witness :
    GetUser (noFaults 0) demoStore "acct1" = (⟨1, "acct1", "h1", 1000⟩, none) ∧
    SendCoin noFaults demoStore 1 "acct1" 50
      = ⟨demoStore, [Call.GetUser "acct1"], some Err.ErrSendThemselves⟩ ∧
    SendCoin noFaults demoStore 1 "acct1" 5000
      = ⟨demoStore, [Call.GetUser "acct1"], some Err.ErrSendThemselves⟩ :=
  ⟨by decide, by decide,
    SendCoin_to_self noFaults demoStore 1 "acct1" 5000 ⟨1, "acct1", "h1", 1000⟩
      (by decide) (by decide)⟩

/-! ## driver failures inside the workflows -/

theorem GetUserBalance_of_fault {f : Option Err} {e : Err} {s : Store} {id : Int}
    {r : Int × Option Err} (hf : f = some e) (h : GetUserBalance f s id = r) :
    r.2 = some e := by
  subst hf; subst h; rfl

theorem UpdateCoins_of_fault {f : Option Err} {e : Err} {s : Store} {id amt : Int}
    {r : Store × Option Err} (hf : f = some e) (h : UpdateCoins f s id amt = r) :
    r.2 = some e := by
  subst hf; subst h; rfl

theorem InsertTransaction_of_fault {f : Option Err} {e : Err} {s : Store} {a b c : Int}
    {r : Store × Option Err} (hf : f = some e) (h : InsertTransaction f s a b c = r) :
    r.2 = some e := by
  subst hf; subst h; rfl

theorem InsertInventoryItem_of_fault {f : Option Err} {e : Err} {s : Store} {a b : Int}
    {r : Store × Option Err} (hf : f = some e) (h : InsertInventoryItem f s a b = r) :
    r.2 = some e := by
  subst hf; subst h; rfl

theorem UpdateInventoryItem_of_fault {f : Option Err} {e : Err} {s : Store} {a b : Int}
    {r : Store × Option Err} (hf : f = some e) (h : UpdateInventoryItem f s a b = r) :
    r.2 = some e := by
  subst hf; subst h; rfl

/-- A driver failure of the balance read, of a balance update or of the record
insert is what `SendCoin` returns. -/
theorem SendCoin_fault_returned (faults : Nat → Option Err) (s : Store) (fromUserID : Int)
    (toUsername : String) (amount : Int) (k : Nat) (e : Err) (hf : faults k = some e)
    (hc : (SendCoin faults s fromUserID toUsername amount).calls[k]?
          = some (Call.GetUserBalance fromUserID) ∨
        (∃ id a, (SendCoin faults s fromUserID toUsername amount).calls[k]?
          = some (Call.UpdateCoins id a)) ∨
        (∃ a b c, (SendCoin faults s fromUserID toUsername amount).calls[k]?
          = some (Call.InsertTransaction a b c))) :
    (SendCoin faults s fromUserID toUsername amount).err = some e := by
  unfold SendCoin trManagerDo sendCoinScope at hc ⊢
  rcases h0 : GetUser (faults 0) s toUsername with ⟨toUser, _ | e0⟩
  swap
  · rcases k with _ | k <;> simp [h0] at hc
  simp only [h0] at hc ⊢
  by_cases hself : fromUserID = toUser.ID
  · rcases k with _ | k <;> simp [hself] at hc
  simp only [hself, if_false] at hc ⊢
  rcases h1 : GetUserBalance (faults 1) s fromUserID with ⟨balance, _ | e1⟩
  swap
  · rcases k with _ | _ | k <;> simp [h1] at hc ⊢
    simpa using GetUserBalance_of_fault hf h1
  have g1 := (GetUserBalance_ok h1).1
  simp only [h1] at hc ⊢
  by_cases hlt : balance < amount
  · rcases k with _ | _ | k <;> simp [hlt] at hc ⊢
    simp [g1] at hf
  simp only [hlt, if_false] at hc ⊢
  rcases h2 : UpdateCoins (faults 2) s fromUserID (negInt64 amount) with ⟨s1, _ | e2⟩
  swap
  · rcases k with _ | _ | _ | k <;> simp [h2] at hc ⊢
    · simp [g1] at hf
    · simpa using UpdateCoins_of_fault hf h2
  have g2 := (UpdateCoins_ok h2).1
  simp only [h2] at hc ⊢
  rcases h3 : UpdateCoins (faults 3) s1 toUser.ID amount with ⟨s2, _ | e3⟩
  swap
  · rcases k with _ | _ | _ | _ | k <;> simp [h3] at hc ⊢
    · simp [g1] at hf
    · simp [g2] at hf
    · simpa using UpdateCoins_of_fault hf h3
  have g3 := (UpdateCoins_ok h3).1
  simp only [h3] at hc ⊢
  rcases h4 : InsertTransaction (faults 4) s2 fromUserID toUser.ID amount with ⟨s3, _ | e4⟩
  swap
  · rcases k with _ | _ | _ | _ | _ | k <;> simp [h4] at hc ⊢
    · simp [g1] at hf
    · simp [g2] at hf
    · simp [g3] at hf
    · simpa using InsertTransaction_of_fault hf h4
  have g4 := (InsertTransaction_ok h4).1
  rcases k with _ | _ | _ | _ | _ | k <;> simp [h4] at hc ⊢
  · simp [g1] at hf
  · simp [g2] at hf
  · simp [g3] at hf
  · simp [g4] at hf

/-- A driver failure of the balance read, of the debit or of the inventory
insert or update is what `BuyItem` returns. -/
theorem BuyItem_fault_returned (faults : Nat → Option Err) (s : Store) (userID : Int)
    (itemName : String) (k : Nat) (e : Err) (hf : faults k = some e)
    (hc : (BuyItem faults s userID itemName).calls[k]? = some (Call.GetUserBalance userID) ∨
        (∃ id a, (BuyItem faults s userID itemName).calls[k]? = some (Call.UpdateCoins id a)) ∨
        (∃ a b, (BuyItem faults s userID itemName).calls[k]?
          = some (Call.InsertInventoryItem a b)) ∨
        (∃ a b, (BuyItem faults s userID itemName).calls[k]?
          = some (Call.UpdateInventoryItem a b))) :
    (BuyItem faults s userID itemName).err = some e := by
  unfold BuyItem trManagerDo buyItemScope at hc ⊢
  rcases h0 : GetItem (faults 0) s itemName with ⟨item, _ | e0⟩
  swap
  · rcases k with _ | k <;> simp [h0] at hc
  simp only [h0] at hc ⊢
  rcases h1 : GetUserBalance (faults 1) s userID with ⟨balance, _ | e1⟩
  swap
  · rcases k with _ | _ | k <;> simp [h1] at hc ⊢
    simpa using GetUserBalance_of_fault hf h1
  have g1 := (GetUserBalance_ok h1).1
  simp only [h1] at hc ⊢
  by_cases hlt : balance < item.Price
  · rcases k with _ | _ | k <;> simp [hlt] at hc ⊢
    simp [g1] at hf
  simp only [hlt, if_false] at hc ⊢
  rcases h2 : UpdateCoins (faults 2) s userID (negInt64 item.Price) with ⟨s1, _ | e2⟩
  swap
  · rcases k with _ | _ | _ | k <;> simp [h2] at hc ⊢
    · simp [g1] at hf
    · simpa using UpdateCoins_of_fault hf h2
  have g2 := (UpdateCoins_ok h2).1
  simp only [h2] at hc ⊢
  rcases h3 : GetInventoryItem (faults 3) s1 userID item.ID with ⟨q, _ | e3⟩
  · simp only [h3] at hc ⊢
    rcases h4 : UpdateInventoryItem (faults 4) s1 userID item.ID with ⟨s2, _ | e4⟩
    swap
    · rcases k with _ | _ | _ | _ | _ | k <;> simp [h4] at hc ⊢
      · simp [g1] at hf
      · simp [g2] at hf
      · simpa using UpdateInventoryItem_of_fault hf h4
    have g4 := (UpdateInventoryItem_ok h4).1
    rcases k with _ | _ | _ | _ | _ | k <;> simp [h4] at hc ⊢
    · simp [g1] at hf
    · simp [g2] at hf
    · simp [g4] at hf
  · simp only [h3] at hc ⊢
    rcases h4 : InsertInventoryItem (faults 4) s1 userID item.ID with ⟨s2, _ | e4⟩
    swap
    · rcases k with _ | _ | _ | _ | _ | k <;> simp [h4] at hc ⊢
      · simp [g1] at hf
      · simp [g2] at hf
      · simpa using InsertInventoryItem_of_fault hf h4
    have g4 := (InsertInventoryItem_ok h4).1
    rcases k with _ | _ | _ | _ | _ | k <;> simp [h4] at hc ⊢
    · simp [g1] at hf
    · simp [g2] at hf
    · simp [g4] at hf

theorem SendCoin_lookup_fault (faults : Nat → Option Err) (s : Store) (fromUserID : Int)
    (toUsername : String) (amount : Int) (e : Err) (hf : faults 0 = some e) :
    SendCoin faults s fromUserID toUsername amount
      = ⟨s, [Call.GetUser toUsername], some Err.ErrRecipientNotFound⟩ := by
  simp [SendCoin, trManagerDo, sendCoinScope, GetUser, hf]

theorem BuyItem_lookup_fault (faults : Nat → Option Err) (s : Store) (userID : Int)
    (itemName : String) (e : Err) (hf : faults 0 = some e) :
    BuyItem faults s userID itemName
      = ⟨s, [Call.GetItem itemName], some Err.ErrItemNotFound⟩ := by
  simp [BuyItem, trManagerDo, buyItemScope, GetItem, hf]

/-- A driver failure of the holding lookup is not returned: `BuyItem` goes on
to the insert and returns what the insert returns. -/
theorem BuyItem_holding_lookup_fault (faults : Nat → Option Err) (s : Store) (userID : Int)
    (itemName : String) (e : Err) (hf : faults 3 = some e) (a b : Int)
    (hc : (BuyItem faults s userID itemName).calls[3]? = some (Call.GetInventoryItem a b)) :
    (BuyItem faults s userID itemName).calls[4]? = some (Call.InsertInventoryItem a b) ∧
    (BuyItem faults s userID itemName).err = faults 4 := by
  unfold BuyItem trManagerDo buyItemScope at hc ⊢
  rcases h0 : GetItem (faults 0) s itemName with ⟨item, _ | e0⟩
  swap
  · simp [h0] at hc
  simp only [h0] at hc ⊢
  rcases h1 : GetUserBalance (faults 1) s userID with ⟨balance, _ | e1⟩
  swap
  · simp [h1] at hc
  simp only [h1] at hc ⊢
  by_cases hlt : balance < item.Price
  · simp [hlt] at hc
  simp only [hlt, if_false] at hc ⊢
  rcases h2 : UpdateCoins (faults 2) s userID (negInt64 item.Price) with ⟨s1, _ | e2⟩
  swap
  · simp [h2] at hc
  simp only [h2] at hc ⊢
  have h3 : GetInventoryItem (faults 3) s1 userID item.ID = (0, some e) := by
    rw [hf]; rfl
  simp only [h3] at hc ⊢
  have herr : (InsertInventoryItem (faults 4) s1 userID item.ID).2 = faults 4 := by
    unfold InsertInventoryItem
    cases faults 4 <;> rfl
  rcases h4 : InsertInventoryItem (faults 4) s1 userID item.ID with ⟨s2, _ | e4⟩
  · rw [h4] at herr
    simp only [h4] at hc ⊢
    simp at hc
    simp [hc, ← herr]
  · rw [h4] at herr
    simp only [h4] at hc ⊢
    simp at hc
    simp [hc, ← herr]

/-- C14 (counterexample): a driver failure `e` of the item lookup makes
`BuyItem` return `ErrItemNotFound`, one of the recipient lookup makes `SendCoin`
return `ErrRecipientNotFound`, and one of the holding lookup lets `BuyItem`
return nil; in none of the three cases is `e` returned. -/
theorem lookup_fault_not_returned :
    (GetItem (some (Err.driver 7)) demoStore "t-shirt").2 = some (Err.driver 7) ∧
    (BuyItem (faultAt 0 (Err.driver 7)) demoStore 1 "t-shirt").err
      = some Err.ErrItemNotFound ∧
    (GetUser (some (Err.driver 7)) demoStore "acct2").2 = some (Err.driver 7) ∧
    (SendCoin (faultAt 0 (Err.driver 7)) demoStore 1 "acct2" 100).err
      = some Err.ErrRecipientNotFound ∧
    (GetInventoryItem (some (Err.driver 7)) demoStore 1 1).2 = some (Err.driver 7) ∧
    (BuyItem (faultAt 3 (Err.driver 7)) demoStore 1 "t-shirt").err = none := by
  decide

/-- C14 (amended): when the `k`-th repository call of a workflow fails at the
driver with `e`, then `SendCoin` returns exactly `e` if that call is
`GetUserBalance`, `UpdateCoins` or `InsertTransaction`, and `BuyItem` returns
exactly `e` if that call is `GetUserBalance`, `UpdateCoins`,
`InsertInventoryItem` or `UpdateInventoryItem`. A failure of the first call, the
lookup `GetUser` or `GetItem`, is returned as `ErrRecipientNotFound` or
`ErrItemNotFound`; a failure of the holding lookup `GetInventoryItem` is not
returned, the insert is called next and `BuyItem` returns what it returns. -/
theorem driver_failure_propagation (faults : Nat → Option Err) (s : Store)
    (fromUserID : Int) (toUsername : String) (amount : Int) (userID : Int) (itemName : String)
    (k : Nat) (e : Err) (hf : faults k = some e) :
    (((SendCoin faults s fromUserID toUsername amount).calls[k]?
          = some (Call.GetUserBalance fromUserID) ∨
        (∃ id a, (SendCoin faults s fromUserID toUsername amount).calls[k]?
          = some (Call.UpdateCoins id a)) ∨
        (∃ a b c, (SendCoin faults s fromUserID toUsername amount).calls[k]?
          = some (Call.InsertTransaction a b c))) →
      (SendCoin faults s fromUserID toUsername amount).err = some e) ∧
    (((BuyItem faults s userID itemName).calls[k]? = some (Call.GetUserBalance userID) ∨
        (∃ id a, (BuyItem faults s userID itemName).calls[k]? = some (Call.UpdateCoins id a)) ∨
        (∃ a b, (BuyItem faults s userID itemName).calls[k]?
          = some (Call.InsertInventoryItem a b)) ∨
        (∃ a b, (BuyItem faults s userID itemName).calls[k]?
          = some (Call.UpdateInventoryItem a b))) →
      (BuyItem faults s userID itemName).err = some e) ∧
    (k = 0 →
      SendCoin faults s fromUserID toUsername amount
        = ⟨s, [Call.GetUser toUsername], some Err.ErrRecipientNotFound⟩ ∧
      BuyItem faults s userID itemName
        = ⟨s, [Call.GetItem itemName], some Err.ErrItemNotFound⟩) ∧
    (k = 3 → ∀ a b,
      (BuyItem faults s userID itemName).calls[3]? = some (Call.GetInventoryItem a b) →
      (BuyItem faults s userID itemName).calls[4]? = some (Call.InsertInventoryItem a b) ∧
      (BuyItem faults s userID itemName).err = faults 4) := by
  refine ⟨SendCoin_fault_returned faults s fromUserID toUsername amount k e hf,
    BuyItem_fault_returned faults s userID itemName k e hf, ?_, ?_⟩
  · intro hk
    subst hk
    exact ⟨SendCoin_lookup_fault faults s fromUserID toUsername amount e hf,
      BuyItem_lookup_fault faults s userID itemName e hf⟩
  · intro hk a b hc
    subst hk
    exact BuyItem_holding_lookup_fault faults s userID itemName e hf a b hc

/-- C14 (amended), with the credit of the recipient (call 3 of `SendCoin`) and
the holding lookup (call 3 of `BuyItem`) failing at the driver: `SendCoin`
returns the driver error, `BuyItem` returns nil. -/
theorem driver_failure_propagation_witness :
    faultAt 3 (Err.driver 1) 3 = some (Err.driver 1) ∧
    (SendCoin (faultAt 3 (Err.driver 1)) demoStore 1 "acct2" 100).calls[3]?
      = some (Call.UpdateCoins 2 100) ∧
    (SendCoin (faultAt 3 (Err.driver 1)) demoStore 1 "acct2" 100).err
      = some (Err.driver 1) ∧
    (BuyItem (faultAt 3 (Err.driver 1)) demoStore 1 "t-shirt").calls[4]?
      = some (Call.InsertInventoryItem 1 1) ∧
    (BuyItem (faultAt 3 (Err.driver 1)) demoStore 1 "t-shirt").err = none :=
  have h := driver_failure_propagation (faultAt 3 (Err.driver 1)) demoStore 1 "acct2" 100 1
    "t-shirt" 3 (Err.driver 1) (by decide)
  ⟨by decide, by decide, h.1 (Or.inr (Or.inl ⟨2, 100, by decide⟩)),
    (h.2.2.2 rfl 1 1 (by decide)).1, by decide⟩

/-! ## zero affected rows -/

/-- Absent a driver failure, `UpdateCoins` returns `ErrInsufficientBalance`
exactly when no row passes the clause `id = $2 AND coins >= $1`, whether no row
carries the id or the rows that do hold less than `$1`; the store is then
unchanged. -/
theorem UpdateCoins_insufficient_iff (s : Store) (id amt : Int) :
    ((UpdateCoins none s id amt).2 = some Err.ErrInsufficientBalance ↔
      ∀ u ∈ s.users, ¬ (u.ID = id ∧ amt ≤ u.Coins)) ∧
    ((UpdateCoins none s id amt).2 = some Err.ErrInsufficientBalance →
      (UpdateCoins none s id amt).1 = s) := by
  have key : (∀ u ∈ s.users, ¬ (u.ID = id ∧ amt ≤ u.Coins)) →
      UpdateCoins none s id amt = (s, some Err.ErrInsufficientBalance) := by
    intro h
    have hfalse : ∀ v ∈ s.users, coinsGuard id amt v = false := by
      intro v hv
      have := h v hv
      simp only [coinsGuard, Bool.and_eq_false_iff, decide_eq_false_iff_not]
      by_cases hid : v.ID = id
      · right; exact fun hc => this ⟨hid, hc⟩
      · left; simpa using hid
    have hfilter : s.users.filter (coinsGuard id amt) = [] := by
      rw [List.filter_eq_nil_iff]
      intro v hv
      simp [hfalse v hv]
    have hmap : List.map (fun v => if coinsGuard id amt v then addCoins amt v else v) s.users
        = s.users := by
      conv_rhs => rw [← List.map_id s.users]
      apply List.map_congr_left
      intro v hv
      simp [hfalse v hv]
    simp [UpdateCoins, hfilter, hmap]
  have back : (UpdateCoins none s id amt).2 = some Err.ErrInsufficientBalance →
      ∀ u ∈ s.users, ¬ (u.ID = id ∧ amt ≤ u.Coins) := by
    intro herr u hu hc
    have hguard : coinsGuard id amt u = true := by
      simp only [coinsGuard, Bool.and_eq_true, decide_eq_true_eq, beq_iff_eq]
      exact ⟨hc.1, hc.2⟩
    have hin : u ∈ s.users.filter (coinsGuard id amt) := List.mem_filter.mpr ⟨hu, hguard⟩
    have hlen : (s.users.filter (coinsGuard id amt)).length ≠ 0 :=
      Nat.pos_iff_ne_zero.mp (List.length_pos_of_mem hin)
    simp [UpdateCoins, hlen] at herr
  refine ⟨⟨back, fun h => by rw [key h]⟩, fun herr => by rw [key (back herr)]⟩

/-- C15 (counterexample): no account has id 99, and `UpdateCoins(99, -10)`
returns `ErrInsufficientBalance`, the error of a failed balance guard, leaving
the store as it was. -/
theorem UpdateCoins_missing_account_insufficient :
    (∀ u ∈ demoStore.users, u.ID ≠ 99) ∧
    UpdateCoins none demoStore 99 (negInt64 10)
      = (demoStore, some Err.ErrInsufficientBalance) := by
  decide

/-- C15 (amended): `UpdateCoins` applied to an account id that no row carries
changes nothing and returns `ErrInsufficientBalance`, for every amount: a
missing account is reported the same way as a row that fails the guard. -/
theorem UpdateCoins_missing_account (s : Store) (id amt : Int)
    (h : ∀ u ∈ s.users, u.ID ≠ id) :
    UpdateCoins none s id amt = (s, some Err.ErrInsufficientBalance) := by
  obtain ⟨hiff, hstore⟩ := UpdateCoins_insufficient_iff s id amt
  have herr := hiff.mpr (fun u hu hc => h u hu hc.1)
  exact Prod.ext (hstore herr) herr

/-- C15 (amended), on a store whose accounts are 1 and 2: a credit of 10 to
account 99. -/
theorem UpdateCoins_missing_account_witness :
    (∀ u ∈ demoStore.users, u.ID ≠ 99) ∧
    UpdateCoins none demoStore 99 10 = (demoStore, some Err.ErrInsufficientBalance) :=
  ⟨by decide, UpdateCoins_missing_account demoStore 99 10 (by decide)⟩

/-- C16 (evaluation at the failing input): account 1 holds 100; the first
`UpdateCoins(1, -60)` returns nil and leaves 40, the second one, run on that
result, returns nil as well and leaves -20. The two calls are the same call, so
both serial orders are this execution. -/
theorem UpdateCoins_two_debits_both_pass :
    GetUserBalance none poorStore 1 = (100, none) ∧
    (UpdateCoins none poorStore 1 (negInt64 60)).2 = none ∧
    GetUserBalance none (UpdateCoins none poorStore 1 (negInt64 60)).1 1 = (40, none) ∧
    (UpdateCoins none (UpdateCoins none poorStore 1 (negInt64 60)).1 1 (negInt64 60)).2
      = none ∧
    GetUserBalance none
      (UpdateCoins none (UpdateCoins none poorStore 1 (negInt64 60)).1 1 (negInt64 60)).1 1
      = (-20, none) := by
  decide

/-! ## the query workflow -/

theorem orEmpty_eq {α : Type} (x : Slice α) : orEmpty x = some x.elems := by
  cases x <;> rfl

/-- C17: when `GetUserInfo` returns nil, all four reads returned nil, `Coins` is
the balance that was read, and each of the three collections of the response
is a non-nil slice holding the elements the store returned; it is the empty
non-nil slice when the store returned nil. -/
theorem GetUserInfo_success_collections (faults : Nat → Option Err) (s : Store) (userID : Int)
    (h : (GetUserInfo faults s userID).2.err = none) :
    ∃ coins inventory received sent,
      GetUserBalance (faults 0) s userID = (coins, none) ∧
      GetUserInventory (faults 1) s userID = (inventory, none) ∧
      GetReceivedTransactions (faults 2) s userID = (received, none) ∧
      GetSentTransactions (faults 3) s userID = (sent, none) ∧
      (GetUserInfo faults s userID).1
        = ⟨coins, some inventory.elems, ⟨some received.elems, some sent.elems⟩⟩ ∧
      (inventory = none → (GetUserInfo faults s userID).1.Inventory = some []) ∧
      (received = none → (GetUserInfo faults s userID).1.CoinHistory.Received = some []) ∧
      (sent = none → (GetUserInfo faults s userID).1.CoinHistory.Sent = some []) := by
  simp only [GetUserInfo, trManagerDo, getUserInfoScope] at h ⊢
  rcases h0 : GetUserBalance (faults 0) s userID with ⟨coins, _ | e0⟩
  swap
  · simp [h0] at h
  rcases h1 : GetUserInventory (faults 1) s userID with ⟨inventory, _ | e1⟩
  swap
  · simp [h0, h1] at h
  rcases h2 : GetReceivedTransactions (faults 2) s userID with ⟨received, _ | e2⟩
  swap
  · simp [h0, h1, h2] at h
  rcases h3 : GetSentTransactions (faults 3) s userID with ⟨sent, _ | e3⟩
  swap
  · simp [h0, h1, h2, h3] at h
  refine ⟨coins, inventory, received, sent, rfl, rfl, rfl, rfl, ?_, ?_, ?_, ?_⟩
  · simp [orEmpty_eq]
  · intro hn; subst hn; simp [orEmpty]
  · intro hn; subst hn; simp [orEmpty]
  · intro hn; subst hn; simp [orEmpty]

/-- C17, on a fresh account: the store has no inventory row and no transfer for
account 1, the three reads return nil, and the response holds three empty
non-nil slices and the balance 1000. -/
theorem GetUserInfo_success_collections_witness :
    (GetUserInfo noFaults demoStore 1).2.err = none ∧
    GetUserInventory (noFaults 1) demoStore 1 = (none, none) ∧
    GetReceivedTransactions (noFaults 2) demoStore 1 = (none, none) ∧
    GetSentTransactions (noFaults 3) demoStore 1 = (none, none) ∧
    (GetUserInfo noFaults demoStore 1).1 = ⟨1000, some [], ⟨some [], some []⟩⟩ ∧
    ∃ coins inventory received sent,
      GetUserBalance (noFaults 0) demoStore 1 = (coins, none) ∧
      GetUserInventory (noFaults 1) demoStore 1 = (inventory, none) ∧
      GetReceivedTransactions (noFaults 2) demoStore 1 = (received, none) ∧
      GetSentTransactions (noFaults 3) demoStore 1 = (sent, none) ∧
      (GetUserInfo noFaults demoStore 1).1
        = ⟨coins, some inventory.elems, ⟨some received.elems, some sent.elems⟩⟩ ∧
      (inventory = none → (GetUserInfo noFaults demoStore 1).1.Inventory = some []) ∧
      (received = none → (GetUserInfo noFaults demoStore 1).1.CoinHistory.Received = some []) ∧
      (sent = none → (GetUserInfo noFaults demoStore 1).1.CoinHistory.Sent = some []) :=
  ⟨by decide, by decide, by decide, by decide, by decide,
    GetUserInfo_success_collections noFaults demoStore 1 (by decide)⟩

/-- C18: when one of the four reads of `GetUserInfo` (balance, inventory,
received, sent, in this order) returns the error `e`, the reads before it
having returned nil, `GetUserInfo` returns the zero response together with `e`,
and its repository calls end with the failed read. -/
theorem GetUserInfo_read_error (faults : Nat → Option Err) (s : Store) (userID : Int)
    (e : Err) :
    ((GetUserBalance (faults 0) s userID).2 = some e →
      GetUserInfo faults s userID
        = (zeroInfoResponse, ⟨s, [Call.GetUserBalance userID], some e⟩)) ∧
    ((GetUserBalance (faults 0) s userID).2 = none →
      (GetUserInventory (faults 1) s userID).2 = some e →
      GetUserInfo faults s userID
        = (zeroInfoResponse,
            ⟨s, [Call.GetUserBalance userID, Call.GetUserInventory userID], some e⟩)) ∧
    ((GetUserBalance (faults 0) s userID).2 = none →
      (GetUserInventory (faults 1) s userID).2 = none →
      (GetReceivedTransactions (faults 2) s userID).2 = some e →
      GetUserInfo faults s userID
        = (zeroInfoResponse,
            ⟨s, [Call.GetUserBalance userID, Call.GetUserInventory userID,
              Call.GetReceivedTransactions userID], some e⟩)) ∧
    ((GetUserBalance (faults 0) s userID).2 = none →
      (GetUserInventory (faults 1) s userID).2 = none →
      (GetReceivedTransactions (faults 2) s userID).2 = none →
      (GetSentTransactions (faults 3) s userID).2 = some e →
      GetUserInfo faults s userID
        = (zeroInfoResponse,
            ⟨s, [Call.GetUserBalance userID, Call.GetUserInventory userID,
              Call.GetReceivedTransactions userID, Call.GetSentTransactions userID],
              some e⟩)) ∧
    ((GetUserInfo faults s userID).2.err = some e →
      (GetUserInfo faults s userID).1 = zeroInfoResponse) := by
  simp only [GetUserInfo, trManagerDo, getUserInfoScope]
  rcases h0 : GetUserBalance (faults 0) s userID with ⟨coins, _ | e0⟩
  swap
  · simp
  rcases h1 : GetUserInventory (faults 1) s userID with ⟨inventory, _ | e1⟩
  swap
  · simp
  rcases h2 : GetReceivedTransactions (faults 2) s userID with ⟨received, _ | e2⟩
  swap
  · simp
  rcases h3 : GetSentTransactions (faults 3) s userID with ⟨sent, _ | e3⟩
  swap
  · simp
  simp

/-- C18, with the received-transfers read (the third read) failing at the
driver for account 2, which has a balance, a holding and transfers on record. -/
theorem GetUserInfo_read_error_witness :
    (GetUserBalance (faultAt 2 (Err.driver 1) 0) historyStore 2).2 = none ∧
    (GetUserInventory (faultAt 2 (Err.driver 1) 1) historyStore 2).2 = none ∧
    (GetReceivedTransactions (faultAt 2 (Err.driver 1) 2) historyStore 2).2
      = some (Err.driver 1) ∧
    GetUserInfo (faultAt 2 (Err.driver 1)) historyStore 2
      = (zeroInfoResponse,
          ⟨historyStore, [Call.GetUserBalance 2, Call.GetUserInventory 2,
            Call.GetReceivedTransactions 2], some (Err.driver 1)⟩) :=
  ⟨by decide, by decide, by decide,
    (GetUserInfo_read_error (faultAt 2 (Err.driver 1)) historyStore 2 (Err.driver 1)).2.2.1
      (by decide) (by decide) (by decide)⟩

/-! ## transfers in the history -/

theorem coinsGuard_ite_Username (id amt : Int) (u : User) :
    (if coinsGuard id amt u then addCoins amt u else u).Username = u.Username := by
  split <;> rfl

theorem filter_ID_map_Username {β : Type} (h : User → User)
    (hid : ∀ u, (h u).ID = u.ID) (hname : ∀ u, (h u).Username = u.Username)
    (F : String → β) (x : Int) (l : List User) :
    ((l.map h).filter (fun u => u.ID == x)).map (fun u => F u.Username)
      = (l.filter (fun u => u.ID == x)).map (fun u => F u.Username) := by
  induction l with
  | nil => rfl
  | cons a l ih =>
    simp only [List.map_cons, List.filter_cons, hid]
    cases a.ID == x
    · simpa using ih
    · simp only [if_true, List.map_cons, hname, ih]

theorem filter_ID_singleton {l : List User} (hn : (l.map User.ID).Nodup) {u : User}
    (hu : u ∈ l) : l.filter (fun v => v.ID == u.ID) = [u] := by
  induction l with
  | nil => simp at hu
  | cons a l ih =>
    simp only [List.map_cons, List.nodup_cons, List.mem_map, not_exists, not_and] at hn
    rcases List.mem_cons.mp hu with rfl | hmem
    · have hnone : l.filter (fun v => v.ID == u.ID) = [] := by
        rw [List.filter_eq_nil_iff]
        intro v hv
        simpa using hn.1 v hv
      simp [List.filter_cons, hnone]
    · have hne : ¬ a.ID = u.ID := fun hc => hn.1 u hmem hc.symm
      simp [List.filter_cons, hne, ih hn.2 hmem]

theorem sentRows_of_tables {s s1 : Store} (h : User → User)
    (hid : ∀ u, (h u).ID = u.ID) (hname : ∀ u, (h u).Username = u.Username)
    (hu : s1.users = s.users.map h) (extra : List TransactionRow)
    (ht : s1.transactions = s.transactions ++ extra) (x : Int) :
    sentRows s1 x = sentRows s x ++
      (extra.filter (fun t => t.FromUser == x)).flatMap
        (fun t => (s.users.filter (fun u => u.ID == t.ToUser)).map
          (fun u => ⟨"", u.Username, t.Amount⟩)) := by
  have hfun : (fun t : TransactionRow => (s1.users.filter (fun u => u.ID == t.ToUser)).map
      (fun u => (⟨"", u.Username, t.Amount⟩ : TransactionDetail)))
      = (fun t => (s.users.filter (fun u => u.ID == t.ToUser)).map
          (fun u => ⟨"", u.Username, t.Amount⟩)) := by
    funext t
    rw [hu]
    exact filter_ID_map_Username h hid hname
      (fun n => (⟨"", n, t.Amount⟩ : TransactionDetail)) t.ToUser s.users
  unfold sentRows
  rw [hfun, ht, List.filter_append, List.flatMap_append]

theorem receivedRows_of_tables {s s1 : Store} (h : User → User)
    (hid : ∀ u, (h u).ID = u.ID) (hname : ∀ u, (h u).Username = u.Username)
    (hu : s1.users = s.users.map h) (extra : List TransactionRow)
    (ht : s1.transactions = s.transactions ++ extra) (x : Int) :
    receivedRows s1 x = receivedRows s x ++
      (extra.filter (fun t => t.ToUser == x)).flatMap
        (fun t => (s.users.filter (fun u => u.ID == t.FromUser)).map
          (fun u => ⟨u.Username, "", t.Amount⟩)) := by
  have hfun : (fun t : TransactionRow => (s1.users.filter (fun u => u.ID == t.FromUser)).map
      (fun u => (⟨u.Username, "", t.Amount⟩ : TransactionDetail)))
      = (fun t => (s.users.filter (fun u => u.ID == t.FromUser)).map
          (fun u => ⟨u.Username, "", t.Amount⟩)) := by
    funext t
    rw [hu]
    exact filter_ID_map_Username h hid hname
      (fun n => (⟨n, "", t.Amount⟩ : TransactionDetail)) t.FromUser s.users
  unfold receivedRows
  rw [hfun, ht, List.filter_append, List.flatMap_append]

/-- The tables after a committed transfer: the users rows keep their ids and
names, one record is appended, inventory and catalog are untouched. -/
theorem SendCoin_ok_tables {faults : Nat → Option Err} {s : Store} {fromUserID amount : Int}
    {toUsername : String}
    (h : (SendCoin faults s fromUserID toUsername amount).err = none) :
    ∃ (toUser sender : User) (g : User → User),
      s.users.find? (fun v => v.Username == toUsername) = some toUser ∧
      fromUserID ≠ toUser.ID ∧
      s.users.find? (fun v => v.ID == fromUserID) = some sender ∧
      (∀ u, (g u).ID = u.ID) ∧ (∀ u, (g u).Username = u.Username) ∧
      (SendCoin faults s fromUserID toUsername amount).store.users = s.users.map g ∧
      (SendCoin faults s fromUserID toUsername amount).store.transactions
        = s.transactions ++ [⟨fromUserID, toUser.ID, amount⟩] ∧
      (SendCoin faults s fromUserID toUsername amount).store.inventory = s.inventory ∧
      (SendCoin faults s fromUserID toUsername amount).store.merch_items = s.merch_items := by
  obtain ⟨toUser, balance, s1, s2, s3, hg, hne, hb, _, hd, hc, hi, hout⟩ := SendCoin_ok h
  obtain ⟨sender, hsender, _⟩ := (GetUserBalance_ok hb).2
  have hs1 := (UpdateCoins_ok hd).2.2
  have hs2 := (UpdateCoins_ok hc).2.2
  have hs3 := (InsertTransaction_ok hi).2
  refine ⟨toUser, sender,
    (fun u => if coinsGuard toUser.ID amount u then addCoins amount u else u) ∘
      (fun u => if coinsGuard fromUserID (negInt64 amount) u
        then addCoins (negInt64 amount) u else u),
    (GetUser_ok hg).2, hne, hsender, ?_, ?_, ?_, ?_, ?_, ?_⟩
  · intro u
    simp only [Function.comp_apply]
    rw [coinsGuard_ite_ID, coinsGuard_ite_ID]
  · intro u
    simp only [Function.comp_apply]
    rw [coinsGuard_ite_Username, coinsGuard_ite_Username]
  · rw [hout, hs3, hs2, hs1]
    simp only [List.map_map]
  · rw [hout, hs3, hs2, hs1]
  · rw [hout, hs3, hs2, hs1]
  · rw [hout, hs3, hs2, hs1]

theorem orEmpty_selectResult {α : Type} (rows : List α) :
    orEmpty (selectResult rows) = some rows := by
  cases rows <;> rfl

theorem GetUserInfo_noFaults_history {s : Store} {id : Int} {u : User}
    (hu : s.users.find? (fun v => v.ID == id) = some u) :
    (GetUserInfo noFaults s id).1.CoinHistory
      = ⟨some (receivedRows s id), some (sentRows s id)⟩ := by
  simp [GetUserInfo, trManagerDo, getUserInfoScope, noFaults, GetUserBalance, hu,
    GetUserInventory, GetReceivedTransactions, GetSentTransactions, orEmpty_selectResult]

theorem GetUserBalance_err_map {s s1 : Store} (h : User → User) (hid : ∀ u, (h u).ID = u.ID)
    (hu : s1.users = s.users.map h) (f : Option Err) (x : Int) :
    (GetUserBalance f s1 x).2 = (GetUserBalance f s x).2 := by
  unfold GetUserBalance
  cases f with
  | some e => rfl
  | none =>
    simp only [hu, find?_ID_map h hid]
    cases s.users.find? (fun v => v.ID == x) <;> rfl

/-- The history part of the response depends on the store only through the
outcome of the balance read and the rows of the two history queries. -/
theorem GetUserInfo_history_congr (faults : Nat → Option Err) {s s1 : Store} (x : Int)
    (hbal : (GetUserBalance (faults 0) s1 x).2 = (GetUserBalance (faults 0) s x).2)
    (hrec : receivedRows s1 x = receivedRows s x) (hsent : sentRows s1 x = sentRows s x) :
    (GetUserInfo faults s1 x).1.CoinHistory = (GetUserInfo faults s x).1.CoinHistory := by
  simp only [GetUserInfo, trManagerDo, getUserInfoScope]
  rcases h0 : GetUserBalance (faults 0) s x with ⟨c, _ | e⟩
  · rcases h1 : GetUserBalance (faults 0) s1 x with ⟨c1, _ | e1⟩
    · cases faults 1 <;> cases faults 2 <;> cases faults 3 <;>
        simp [GetUserInventory, GetReceivedTransactions, GetSentTransactions, hrec, hsent,
          zeroInfoResponse]
    · rw [h0, h1] at hbal
      simp at hbal
  · rcases h1 : GetUserBalance (faults 0) s1 x with ⟨c1, _ | e1⟩
    · rw [h0, h1] at hbal
      simp at hbal
    · simp [zeroInfoResponse]

/-- C19: after a `SendCoin` from account A to the account named U with amount n
that returned nil, the sent list of `GetUserInfo(A)` is the one before followed
by the entry (ToUser U, Amount n), the received list of `GetUserInfo` of the
recipient is the one before followed by the entry (FromUser the name of A,
Amount n), the other two lists of these accounts are unchanged, and the
history of every other account is unchanged. -/
theorem SendCoin_history (faults : Nat → Option Err) (s : Store) (fromUserID : Int)
    (toUsername : String) (amount : Int) (hn : uniqueIDs s)
    (h : (SendCoin faults s fromUserID toUsername amount).err = none) :
    ∃ toUser sender,
      GetUser none s toUsername = (toUser, none) ∧ toUser.ID ≠ fromUserID ∧
      s.users.find? (fun v => v.ID == fromUserID) = some sender ∧
      (GetUserInfo noFaults (SendCoin faults s fromUserID toUsername amount).store
          fromUserID).1.CoinHistory.Sent.elems
        = (GetUserInfo noFaults s fromUserID).1.CoinHistory.Sent.elems
            ++ [⟨"", toUsername, amount⟩] ∧
      (GetUserInfo noFaults (SendCoin faults s fromUserID toUsername amount).store
          toUser.ID).1.CoinHistory.Received.elems
        = (GetUserInfo noFaults s toUser.ID).1.CoinHistory.Received.elems
            ++ [⟨sender.Username, "", amount⟩] ∧
      (GetUserInfo noFaults (SendCoin faults s fromUserID toUsername amount).store
          fromUserID).1.CoinHistory.Received
        = (GetUserInfo noFaults s fromUserID).1.CoinHistory.Received ∧
      (GetUserInfo noFaults (SendCoin faults s fromUserID toUsername amount).store
          toUser.ID).1.CoinHistory.Sent
        = (GetUserInfo noFaults s toUser.ID).1.CoinHistory.Sent ∧
      ∀ (f : Nat → Option Err) (x : Int), x ≠ fromUserID → x ≠ toUser.ID →
        (GetUserInfo f (SendCoin faults s fromUserID toUsername amount).store x).1.CoinHistory
          = (GetUserInfo f s x).1.CoinHistory := by
  obtain ⟨toUser, sender, g, hto, hne, hsender, hid, hname, husers, htx, _, _⟩ :=
    SendCoin_ok_tables h
  have htomem := (mem_of_find? hto).1
  have htoname : toUser.Username = toUsername := by simpa using (mem_of_find? hto).2
  have hsmem := (mem_of_find? hsender).1
  have hsid : sender.ID = fromUserID := by simpa using (mem_of_find? hsender).2
  have hto2 : s.users.find? (fun v => v.ID == toUser.ID) = some toUser :=
    find?_ID_of_mem hn htomem
  have hne2 : ¬ toUser.ID = fromUserID := fun hc => hne hc.symm
  have hsent := sentRows_of_tables g hid hname husers _ htx
  have hrec := receivedRows_of_tables g hid hname husers _ htx
  have hfilt_to : s.users.filter (fun v => v.ID == toUser.ID) = [toUser] :=
    filter_ID_singleton hn htomem
  have hfilt_from : s.users.filter (fun v => v.ID == fromUserID) = [sender] := by
    rw [← hsid]; exact filter_ID_singleton hn hsmem
  have hfrom1 : (SendCoin faults s fromUserID toUsername amount).store.users.find?
      (fun v => v.ID == fromUserID) = some (g sender) := by
    rw [husers, find?_ID_map g hid, hsender]; rfl
  have hto1 : (SendCoin faults s fromUserID toUsername amount).store.users.find?
      (fun v => v.ID == toUser.ID) = some (g toUser) := by
    rw [husers, find?_ID_map g hid, hto2]; rfl
  refine ⟨toUser, sender, by simp [GetUser, hto], hne2, hsender, ?_, ?_, ?_, ?_, ?_⟩
  · rw [GetUserInfo_noFaults_history hfrom1, GetUserInfo_noFaults_history hsender, hsent]
    simp [Slice.elems, hfilt_to, htoname]
  · rw [GetUserInfo_noFaults_history hto1, GetUserInfo_noFaults_history hto2, hrec]
    simp [Slice.elems, hfilt_from]
  · rw [GetUserInfo_noFaults_history hfrom1, GetUserInfo_noFaults_history hsender, hrec]
    simp [hne2]
  · rw [GetUserInfo_noFaults_history hto1, GetUserInfo_noFaults_history hto2, hsent]
    simp [hne]
  · intro f x hx1 hx2
    apply GetUserInfo_history_congr f x (GetUserBalance_err_map g hid husers (f 0) x)
    · rw [hrec]
      have : ¬ toUser.ID = x := fun hc => hx2 hc.symm
      simp [this]
    · rw [hsent]
      have : ¬ fromUserID = x := fun hc => hx1 hc.symm
      simp [this]

/-- C19, on a store with transfers on record: account 1 ("acct1") sends 100 to
"acct2"; the sent list of account 1 and the received list of account 2 each
gain one entry, and account 3 sees the same history as before. -/
theorem SendCoin_history_witness :
    uniqueIDs historyStore ∧
    (SendCoin noFaults historyStore 1 "acct2" 100).err = none ∧
    (GetUserInfo noFaults historyStore 1).1.CoinHistory.Sent = some [⟨"", "acct2", 100⟩] ∧
    (GetUserInfo noFaults (SendCoin noFaults historyStore 1 "acct2" 100).store
        1).1.CoinHistory.Sent = some [⟨"", "acct2", 100⟩, ⟨"", "acct2", 100⟩] ∧
    (GetUserInfo noFaults (SendCoin noFaults historyStore 1 "acct2" 100).store
        2).1.CoinHistory.Received = some [⟨"acct1", "", 100⟩, ⟨"acct1", "", 100⟩] ∧
    ∃ toUser sender,
      GetUser none historyStore "acct2" = (toUser, none) ∧ toUser.ID ≠ 1 ∧
      historyStore.users.find? (fun v => v.ID == 1) = some sender ∧
      (GetUserInfo noFaults (SendCoin noFaults historyStore 1 "acct2" 100).store
          1).1.CoinHistory.Sent.elems
        = (GetUserInfo noFaults historyStore 1).1.CoinHistory.Sent.elems
            ++ [⟨"", "acct2", 100⟩] ∧
      (GetUserInfo noFaults (SendCoin noFaults historyStore 1 "acct2" 100).store
          toUser.ID).1.CoinHistory.Received.elems
        = (GetUserInfo noFaults historyStore toUser.ID).1.CoinHistory.Received.elems
            ++ [⟨sender.Username, "", 100⟩] ∧
      (GetUserInfo noFaults (SendCoin noFaults historyStore 1 "acct2" 100).store
          1).1.CoinHistory.Received
        = (GetUserInfo noFaults historyStore 1).1.CoinHistory.Received ∧
      (GetUserInfo noFaults (SendCoin noFaults historyStore 1 "acct2" 100).store
          toUser.ID).1.CoinHistory.Sent
        = (GetUserInfo noFaults historyStore toUser.ID).1.CoinHistory.Sent ∧
      ∀ (f : Nat → Option Err) (x : Int), x ≠ 1 → x ≠ toUser.ID →
        (GetUserInfo f (SendCoin noFaults historyStore 1 "acct2" 100).store x).1.CoinHistory
          = (GetUserInfo f historyStore x).1.CoinHistory :=
  ⟨by decide, by decide, by decide, by decide, by decide,
    SendCoin_history noFaults historyStore 1 "acct2" 100 (by decide) (by decide)⟩

/-! ## registration -/

theorem length_flatMap_hexByte (bytes : List Nat) :
    (bytes.flatMap hexByte).length = 2 * bytes.length := by
  induction bytes with
  | nil => rfl
  | cons b bs ih =>
    simp only [List.flatMap_cons, List.length_append, ih, List.length_cons, hexByte,
      List.length_nil]
    omega

theorem generatePasswordHash_length (sum256 : String → List Nat) (password : String)
    (h : (sum256 (password ++ salt)).length = 32) :
    (generatePasswordHash sum256 password).length = 64 := by
  unfold generatePasswordHash sprintfHex
  rw [String.length_mk, length_flatMap_hexByte, h]

/-- C20: for every username and password, `AuthService.CreateUser` calls the
repository once, with the user (Username the given name, Password
`generatePasswordHash(password)`, Coins 1000); it returns the repository's error
when the creation fails and nil, with that user stored under the new id, when
it succeeds. The stored password is the 64 hexadecimal digits of the digest of
password and salt, so it differs from every password that is not 64 characters
long. -/
theorem AuthService_CreateUser_user (sum256 : String → List Nat) (fault : Option Err)
    (newID : Int) (s : Store) (username password : String) :
    (AuthService.CreateUser sum256 fault newID s username password).calls
      = [Call.CreateUser ⟨0, username, generatePasswordHash sum256 password, 1000⟩] ∧
    (∀ e, (CreateUser fault newID s
          ⟨0, username, generatePasswordHash sum256 password, 1000⟩).2.2 = some e →
      (AuthService.CreateUser sum256 fault newID s username password).err = some e ∧
      (AuthService.CreateUser sum256 fault newID s username password).store = s) ∧
    ((CreateUser fault newID s
          ⟨0, username, generatePasswordHash sum256 password, 1000⟩).2.2 = none →
      (AuthService.CreateUser sum256 fault newID s username password).err = none ∧
      (AuthService.CreateUser sum256 fault newID s username password).store.users
        = s.users ++ [⟨newID, username, generatePasswordHash sum256 password, 1000⟩]) ∧
    ((sum256 (password ++ salt)).length = 32 →
      (generatePasswordHash sum256 password).length = 64 ∧
      (password.length ≠ 64 → generatePasswordHash sum256 password ≠ password)) := by
  refine ⟨?_, ?_, ?_, ?_⟩
  · cases fault <;> rfl
  · intro e he
    cases fault with
    | none => simp [CreateUser] at he
    | some e1 =>
      simp only [CreateUser, Option.some.injEq] at he
      subst he
      exact ⟨rfl, rfl⟩
  · intro he
    cases fault with
    | none => exact ⟨rfl, rfl⟩
    | some e1 => simp [CreateUser] at he
  · intro hlen
    have h64 := generatePasswordHash_length sum256 password hlen
    refine ⟨h64, fun hne heq => hne ?_⟩
    rw [← heq]
    exact h64

/-- C20, for the user "bob" with password "pw", once with the insert going
through and once with it failing at the driver. -/
theorem AuthService_CreateUser_user_witness :
    (zeroDigest ("pw" ++ salt)).length = 32 ∧
    (AuthService.CreateUser zeroDigest none 3 demoStore "bob" "pw").calls
      = [Call.CreateUser ⟨0, "bob", generatePasswordHash zeroDigest "pw", 1000⟩] ∧
    (AuthService.CreateUser zeroDigest none 3 demoStore "bob" "pw").err = none ∧
    (AuthService.CreateUser zeroDigest none 3 demoStore "bob" "pw").store.users
      = demoStore.users ++ [⟨3, "bob", generatePasswordHash zeroDigest "pw", 1000⟩] ∧
    (AuthService.CreateUser zeroDigest (some (Err.driver 5)) 3 demoStore "bob" "pw").err
      = some (Err.driver 5) ∧
    generatePasswordHash zeroDigest "pw" ≠ "pw" :=
  have h := AuthService_CreateUser_user zeroDigest none 3 demoStore "bob" "pw"
  have h2 := AuthService_CreateUser_user zeroDigest (some (Err.driver 5)) 3 demoStore "bob" "pw"
  ⟨by decide, h.1, (h.2.2.1 rfl).1, (h.2.2.1 rfl).2, (h2.2.1 (Err.driver 5) rfl).1,
    (h.2.2.2 (by decide)).2 (by decide)⟩

/-! ## the order of the mutations of a transfer -/

/-- The repository calls of `SendCoin` are a beginning of the sequence lookup,
balance read, debit, credit, insert; the credit is there only when the debit
returned nil, the insert only when the credit returned nil as well. -/
theorem SendCoin_calls_shape (faults : Nat → Option Err) (s : Store) (fromUserID : Int)
    (toUsername : String) (amount : Int) :
    (SendCoin faults s fromUserID toUsername amount).calls = [Call.GetUser toUsername] ∨
    (∃ toUser, GetUser (faults 0) s toUsername = (toUser, none) ∧
      ((SendCoin faults s fromUserID toUsername amount).calls
          = [Call.GetUser toUsername, Call.GetUserBalance fromUserID] ∨
        (∃ e, (UpdateCoins (faults 2) s fromUserID (negInt64 amount)).2 = some e ∧
          (SendCoin faults s fromUserID toUsername amount).calls
            = [Call.GetUser toUsername, Call.GetUserBalance fromUserID,
                Call.UpdateCoins fromUserID (negInt64 amount)]) ∨
        (∃ s1, UpdateCoins (faults 2) s fromUserID (negInt64 amount) = (s1, none) ∧
          ((∃ e, (UpdateCoins (faults 3) s1 toUser.ID amount).2 = some e ∧
            (SendCoin faults s fromUserID toUsername amount).calls
              = [Call.GetUser toUsername, Call.GetUserBalance fromUserID,
                  Call.UpdateCoins fromUserID (negInt64 amount),
                  Call.UpdateCoins toUser.ID amount]) ∨
          (∃ s2, UpdateCoins (faults 3) s1 toUser.ID amount = (s2, none) ∧
            (SendCoin faults s fromUserID toUsername amount).calls
              = [Call.GetUser toUsername, Call.GetUserBalance fromUserID,
                  Call.UpdateCoins fromUserID (negInt64 amount),
                  Call.UpdateCoins toUser.ID amount,
                  Call.InsertTransaction fromUserID toUser.ID amount]))))) := by
  unfold SendCoin trManagerDo sendCoinScope
  rcases h0 : GetUser (faults 0) s toUsername with ⟨toUser, _ | e0⟩
  swap
  · left; simp
  by_cases hself : fromUserID = toUser.ID
  · left; simp [hself]
  right
  refine ⟨toUser, rfl, ?_⟩
  simp only [hself, if_false]
  rcases h1 : GetUserBalance (faults 1) s fromUserID with ⟨balance, _ | e1⟩
  swap
  · left; simp
  by_cases hlt : balance < amount
  · left; simp [hlt]
  right
  simp only [hlt, if_false]
  rcases h2 : UpdateCoins (faults 2) s fromUserID (negInt64 amount) with ⟨s1, _ | e2⟩
  swap
  · left; exact ⟨e2, rfl, by simp⟩
  right
  refine ⟨s1, rfl, ?_⟩
  simp only
  rcases h3 : UpdateCoins (faults 3) s1 toUser.ID amount with ⟨s2, _ | e3⟩
  swap
  · left; exact ⟨e3, rfl, by simp⟩
  right
  refine ⟨s2, rfl, ?_⟩
  simp only
  rcases h4 : InsertTransaction (faults 4) s2 fromUserID toUser.ID amount with ⟨s3, _ | e4⟩
  · simp
  · simp

/-- C26: in every execution of `SendCoin`, a fourth repository call exists only
when the debit of the sender returned nil and it is the credit of the resolved
recipient; a fifth call exists only when the debit and then the credit returned
nil and it is `InsertTransaction(fromUserID, recipient id, amount)`; no other
position holds an insert, and balance updates sit at the third and fourth
position only. -/
theorem SendCoin_mutation_order (faults : Nat → Option Err) (s : Store) (fromUserID : Int)
    (toUsername : String) (amount : Int) :
    (∀ c, (SendCoin faults s fromUserID toUsername amount).calls[3]? = some c →
      ∃ toUser s1, GetUser (faults 0) s toUsername = (toUser, none) ∧
        UpdateCoins (faults 2) s fromUserID (negInt64 amount) = (s1, none) ∧
        c = Call.UpdateCoins toUser.ID amount) ∧
    (∀ c, (SendCoin faults s fromUserID toUsername amount).calls[4]? = some c →
      ∃ toUser s1 s2, GetUser (faults 0) s toUsername = (toUser, none) ∧
        UpdateCoins (faults 2) s fromUserID (negInt64 amount) = (s1, none) ∧
        UpdateCoins (faults 3) s1 toUser.ID amount = (s2, none) ∧
        c = Call.InsertTransaction fromUserID toUser.ID amount) ∧
    (∀ k a b c, (SendCoin faults s fromUserID toUsername amount).calls[k]?
        = some (Call.InsertTransaction a b c) → k = 4) ∧
    (∀ k id a, (SendCoin faults s fromUserID toUsername amount).calls[k]?
        = some (Call.UpdateCoins id a) → k = 2 ∨ k = 3) ∧
    (∀ c, (SendCoin faults s fromUserID toUsername amount).calls[2]? = some c →
      c = Call.UpdateCoins fromUserID (negInt64 amount)) := by
  rcases SendCoin_calls_shape faults s fromUserID toUsername amount with
    h | ⟨toUser, hg, h | ⟨e, he, h⟩ | ⟨s1, hd, ⟨e, he, h⟩ | ⟨s2, hc, h⟩⟩⟩
  · rw [h]
    refine ⟨?_, ?_, ?_, ?_, ?_⟩
    · intro c hc; simp at hc
    · intro c hc; simp at hc
    · intro k a b c hk
      rcases k with _ | k <;> simp at hk
    · intro k id a hk
      rcases k with _ | k <;> simp at hk
    · intro c hc; simp at hc
  · rw [h]
    refine ⟨?_, ?_, ?_, ?_, ?_⟩
    · intro c hc; simp at hc
    · intro c hc; simp at hc
    · intro k a b c hk
      rcases k with _ | _ | k <;> simp at hk
    · intro k id a hk
      rcases k with _ | _ | k <;> simp at hk
    · intro c hc; simp at hc
  · rw [h]
    refine ⟨?_, ?_, ?_, ?_, ?_⟩
    · intro c hc; simp at hc
    · intro c hc; simp at hc
    · intro k a b c hk
      rcases k with _ | _ | _ | k <;> simp at hk
    · intro k id a hk
      rcases k with _ | _ | _ | k <;> simp at hk
      left; rfl
    · intro c hc; simp at hc; exact hc.symm
  · rw [h]
    refine ⟨?_, ?_, ?_, ?_, ?_⟩
    · intro c hc
      simp at hc
      exact ⟨toUser, s1, hg, hd, hc.symm⟩
    · intro c hc; simp at hc
    · intro k a b c hk
      rcases k with _ | _ | _ | _ | k <;> simp at hk
    · intro k id a hk
      rcases k with _ | _ | _ | _ | k <;> simp at hk
      · left; rfl
      · right; rfl
    · intro c hc; simp at hc; exact hc.symm
  · rw [h]
    refine ⟨?_, ?_, ?_, ?_, ?_⟩
    · intro c hc
      simp at hc
      exact ⟨toUser, s1, hg, hd, hc.symm⟩
    · intro c hq
      simp at hq
      exact ⟨toUser, s1, s2, hg, hd, hc, hq.symm⟩
    · intro k a b c hk
      rcases k with _ | _ | _ | _ | _ | k <;> simp at hk
      rfl
    · intro k id a hk
      rcases k with _ | _ | _ | _ | _ | k <;> simp at hk
      · left; rfl
      · right; rfl
    · intro c hc; simp at hc; exact hc.symm

/-- C26, on three executions: a transfer that goes through (five calls, the
insert last, carrying (1, 2, 100)), one whose credit fails at the driver (four
calls, no insert) and one whose debit fails at the driver (three calls, neither
credit nor insert). -/
theorem SendCoin_mutation_order_witness :
    (SendCoin noFaults demoStore 1 "acct2" 100).calls
      = [Call.GetUser "acct2", Call.GetUserBalance 1, Call.UpdateCoins 1 (-100),
          Call.UpdateCoins 2 100, Call.InsertTransaction 1 2 100] ∧
    (SendCoin (faultAt 3 (Err.driver 1)) demoStore 1 "acct2" 100).calls
      = [Call.GetUser "acct2", Call.GetUserBalance 1, Call.UpdateCoins 1 (-100),
          Call.UpdateCoins 2 100] ∧
    (SendCoin (faultAt 2 (Err.driver 1)) demoStore 1 "acct2" 100).calls
      = [Call.GetUser "acct2", Call.GetUserBalance 1, Call.UpdateCoins 1 (-100)] ∧
    (∃ toUser s1 s2, GetUser (noFaults 0) demoStore "acct2" = (toUser, none) ∧
        UpdateCoins (noFaults 2) demoStore 1 (negInt64 100) = (s1, none) ∧
        UpdateCoins (noFaults 3) s1 toUser.ID 100 = (s2, none) ∧
        Call.InsertTransaction 1 2 100 = Call.InsertTransaction 1 toUser.ID 100) :=
  ⟨by decide, by decide, by decide,
    (SendCoin_mutation_order noFaults demoStore 1 "acct2" 100).2.1
      (Call.InsertTransaction 1 2 100) (by decide)⟩

/-! ## the inventory under purchases -/

theorem SendCoin_inventory (faults : Nat → Option Err) (s : Store) (fromUserID : Int)
    (toUsername : String) (amount : Int) :
    (SendCoin faults s fromUserID toUsername amount).store.inventory = s.inventory := by
  cases he : (SendCoin faults s fromUserID toUsername amount).err with
  | some e =>
    unfold SendCoin at he ⊢
    rw [(trManagerDo_err he).2]
  | none =>
    obtain ⟨_, _, _, _, _, _, _, _, _, _, hinv, _⟩ := SendCoin_ok_tables he
    exact hinv

/-- One request leaves the inventory as it is, or raises by one the quantity of
the rows of a pair that has a row, or appends a row of quantity one; when the
holding lookup did not fail at the driver the appended row is for a pair that
had no row. -/
theorem serve_inventory (s : Store) (r : Request) :
    (serve s r).inventory = s.inventory ∨
    (∃ uid mid, (serve s r).inventory
        = s.inventory.map (fun x => if holdingMatch uid mid x then incQuantity x else x)) ∨
    (∃ uid mid, (serve s r).inventory = s.inventory ++ [⟨uid, mid, 1⟩] ∧
      (lookupNotFailing r → ∀ x ∈ s.inventory, holdingMatch uid mid x = false)) := by
  cases r with
  | SendCoin faults fromUserID toUsername amount =>
    left
    exact SendCoin_inventory faults s fromUserID toUsername amount
  | BuyItem faults userID itemName =>
    simp only [serve]
    cases he : (BuyItem faults s userID itemName).err with
    | some e =>
      left
      unfold BuyItem at he ⊢
      rw [(trManagerDo_err he).2]
    | none =>
      obtain ⟨item, balance, s1, s2, _, _, _, hd, hinv, hout⟩ := BuyItem_ok he
      have hs1 := (UpdateCoins_ok hd).2.2
      have hinv1 : s1.inventory = s.inventory := by rw [hs1]
      rw [hout]
      rcases hinv with ⟨hg, hins⟩ | ⟨_, hupd⟩
      · right; right
        refine ⟨userID, item.ID, ?_, ?_⟩
        · rw [(InsertInventoryItem_ok hins).2]
          simp only [hinv1]
        · intro hl x hx
          simp only [lookupNotFailing] at hl
          rw [hl, GetInventoryItem_congr none hinv1] at hg
          cases hfd : s.inventory.find? (holdingMatch userID item.ID) with
          | some y => simp [GetInventoryItem, hfd] at hg
          | none =>
            rw [List.find?_eq_none] at hfd
            simpa using hfd x hx
      · right; left
        refine ⟨userID, item.ID, ?_⟩
        rw [(UpdateInventoryItem_ok hupd).2]
        simp only [hinv1]

theorem holdingsKept_refl (l : List InventoryRow) : holdingsKept l l := by
  intro _ r h
  exact ⟨r, h, rfl, rfl, le_refl _⟩

theorem holdingsKept_trans {a b c : List InventoryRow} (hab : holdingsKept a b)
    (hbc : holdingsKept b c) : holdingsKept a c := by
  intro i r h
  obtain ⟨r1, h1, hu1, hm1, hq1⟩ := hab i r h
  obtain ⟨r2, h2, hu2, hm2, hq2⟩ := hbc i r1 h1
  exact ⟨r2, h2, by rw [hu2, hu1], by rw [hm2, hm1], le_trans hq1 hq2⟩

theorem serve_holdingsKept (s : Store) (r : Request) :
    holdingsKept s.inventory (serve s r).inventory := by
  rcases serve_inventory s r with h | ⟨uid, mid, h⟩ | ⟨uid, mid, h, _⟩
  · rw [h]; exact holdingsKept_refl _
  · rw [h]
    intro i x hx
    refine ⟨if holdingMatch uid mid x then incQuantity x else x, ?_, ?_, ?_, ?_⟩
    · rw [List.getElem?_map, hx]; rfl
    · split <;> rfl
    · split <;> rfl
    · split
      · simp only [incQuantity]; omega
      · exact le_refl _
  · rw [h]
    intro i x hx
    refine ⟨x, ?_, rfl, rfl, le_refl _⟩
    have hlt : i < s.inventory.length := by
      by_contra hc
      rw [List.getElem?_eq_none (not_lt.mp hc)] at hx
      exact absurd hx (by simp)
    rw [List.getElem?_append_left hlt]
    exact hx

theorem serve_quantitiesPositive (s : Store) (r : Request) (hq : quantitiesPositive s) :
    quantitiesPositive (serve s r) := by
  unfold quantitiesPositive at hq ⊢
  rcases serve_inventory s r with h | ⟨uid, mid, h⟩ | ⟨uid, mid, h, _⟩
  · rw [h]; exact hq
  · rw [h]
    intro x hx
    simp only [List.mem_map] at hx
    obtain ⟨y, hy, rfl⟩ := hx
    have := hq y hy
    split
    · simp only [incQuantity]; omega
    · exact this
  · rw [h]
    intro x hx
    rcases List.mem_append.mp hx with hx | hx
    · exact hq x hx
    · simp only [List.mem_singleton] at hx
      rw [hx]

theorem serve_oneHoldingPerPair (s : Store) (r : Request) (hp : oneHoldingPerPair s)
    (hl : lookupNotFailing r) : oneHoldingPerPair (serve s r) := by
  unfold oneHoldingPerPair at hp ⊢
  rcases serve_inventory s r with h | ⟨uid, mid, h⟩ | ⟨uid, mid, h, habs⟩
  · rw [h]; exact hp
  · rw [h, List.map_map]
    have : ((fun x : InventoryRow => (x.UserID, x.MerchID)) ∘
        fun x => if holdingMatch uid mid x then incQuantity x else x)
        = fun x => (x.UserID, x.MerchID) := by
      funext x
      simp only [Function.comp_apply]
      split <;> rfl
    rw [this]
    exact hp
  · rw [h, List.map_append, List.nodup_append]
    refine ⟨hp, by simp, ?_⟩
    intro a ha hb
    simp only [List.map_cons, List.map_nil, List.mem_singleton] at hb
    simp only [List.mem_map] at ha
    obtain ⟨x, hx, hxa⟩ := ha
    have hfalse := habs hl x hx
    rw [hb] at hxa
    simp only [Prod.mk.injEq] at hxa
    simp [holdingMatch, hxa.1, hxa.2] at hfalse

/-- In a Postgres transaction a request keeps the holdings one per pair: a
purchase whose holding lookup failed at the driver is rolled back. -/
theorem serve_oneHoldingPerPair_of_transactional (s : Store) (r : Request)
    (hp : oneHoldingPerPair s) (ht : transactional r) : oneHoldingPerPair (serve s r) := by
  cases r with
  | SendCoin faults fromUserID toUsername amount =>
    exact serve_oneHoldingPerPair s _ hp trivial
  | BuyItem faults userID itemName =>
    cases he : (BuyItem faults s userID itemName).err with
    | some e =>
      have hs : serve s (Request.BuyItem faults userID itemName) = s := by
        simp only [serve]
        unfold BuyItem at he ⊢
        exact (trManagerDo_err he).2
      rw [hs]
      exact hp
    | none =>
      exact serve_oneHoldingPerPair s _ hp (BuyItem_ok_lookup_not_failed ht he)

theorem serveAll_inventory (reqs : List Request) :
    ∀ s : Store,
      (quantitiesPositive s → quantitiesPositive (serveAll s reqs)) ∧
      holdingsKept s.inventory (serveAll s reqs).inventory ∧
      (oneHoldingPerPair s → (∀ r ∈ reqs, transactional r) →
        oneHoldingPerPair (serveAll s reqs)) := by
  induction reqs with
  | nil =>
    intro s
    exact ⟨fun h => h, holdingsKept_refl _, fun h _ => h⟩
  | cons r rest ih =>
    intro s
    obtain ⟨h1, h2, h3⟩ := ih (serve s r)
    refine ⟨fun hq => h1 (serve_quantitiesPositive s r hq),
      holdingsKept_trans (serve_holdingsKept s r) h2, ?_⟩
    intro hp hl
    exact h3 (serve_oneHoldingPerPair_of_transactional s r hp
        (hl r (List.mem_cons_self r rest)))
      (fun q hq => hl q (List.mem_cons_of_mem r hq))

/-- C27: from a store in which every holding has quantity at least one, after
any sequence of purchases (and transfers) every holding still has quantity at
least one, and every holding of the start is still there, at the same place,
with a quantity at least as large; if moreover the start has at most one
holding per pair, and each request runs on one Postgres transaction, there is
still at most one holding per pair. -/
theorem inventory_holdings_invariant (s : Store) (reqs : List Request)
    (hq : quantitiesPositive s) :
    (∀ r ∈ (serveAll s reqs).inventory, 1 ≤ r.Quantity) ∧
    holdingsKept s.inventory (serveAll s reqs).inventory ∧
    (oneHoldingPerPair s → (∀ r ∈ reqs, transactional r) →
      oneHoldingPerPair (serveAll s reqs)) :=
  ⟨(serveAll_inventory reqs s).1 hq, (serveAll_inventory reqs s).2.1,
    (serveAll_inventory reqs s).2.2⟩

/-- C27, on a run of four purchases by account 2: a cup, a t-shirt, a cup whose
insert or update fails at the driver, and a cup whose holding lookup fails and
aborts the transaction; the two failed purchases are rolled back, the cup
holding goes from 3 to 4 and a t-shirt holding of 1 is created. -/
theorem inventory_holdings_invariant_witness :
    quantitiesPositive historyStore ∧ oneHoldingPerPair historyStore ∧
    (∀ r ∈ [Request.BuyItem noFaults 2 "cup", Request.BuyItem noFaults 2 "t-shirt",
        Request.BuyItem (faultAt 4 (Err.driver 1)) 2 "cup",
        Request.BuyItem (faultFrom 3 (Err.driver 7)) 2 "cup"], transactional r) ∧
    (BuyItem (faultFrom 3 (Err.driver 7)) historyStore 2 "cup").err = some (Err.driver 7) ∧
    (serveAll historyStore [Request.BuyItem noFaults 2 "cup",
        Request.BuyItem noFaults 2 "t-shirt",
        Request.BuyItem (faultAt 4 (Err.driver 1)) 2 "cup",
        Request.BuyItem (faultFrom 3 (Err.driver 7)) 2 "cup"]).inventory
      = [⟨2, 2, 4⟩, ⟨2, 1, 1⟩] ∧
    (∀ r ∈ (serveAll historyStore [Request.BuyItem noFaults 2 "cup",
        Request.BuyItem noFaults 2 "t-shirt",
        Request.BuyItem (faultAt 4 (Err.driver 1)) 2 "cup",
        Request.BuyItem (faultFrom 3 (Err.driver 7)) 2 "cup"]).inventory, 1 ≤ r.Quantity) ∧
    oneHoldingPerPair (serveAll historyStore [Request.BuyItem noFaults 2 "cup",
        Request.BuyItem noFaults 2 "t-shirt",
        Request.BuyItem (faultAt 4 (Err.driver 1)) 2 "cup",
        Request.BuyItem (faultFrom 3 (Err.driver 7)) 2 "cup"]) :=
  have h := inventory_holdings_invariant historyStore
    [Request.BuyItem noFaults 2 "cup", Request.BuyItem noFaults 2 "t-shirt",
      Request.BuyItem (faultAt 4 (Err.driver 1)) 2 "cup",
      Request.BuyItem (faultFrom 3 (Err.driver 7)) 2 "cup"] (by decide)
  ⟨by decide, by decide, by decide, by decide, by decide, h.1, h.2.2 (by decide) (by decide)⟩

/-! ## the sum of the balances -/

theorem negInt64_of_gt_min {a : Int} (h0 : minInt64 < a) (h1 : a ≤ maxInt64) :
    negInt64 a = -a := by
  unfold negInt64 wrapInt64
  unfold maxInt64 at h1
  unfold minInt64 at h0
  omega

theorem map_addCoins_of_no_row {l : List User} {id amt : Int} (h : ∀ v ∈ l, v.ID ≠ id) :
    l.map (fun v => if v.ID = id then addCoins amt v else v) = l := by
  conv_rhs => rw [← List.map_id l]
  apply List.map_congr_left
  intro v hv
  simp [h v hv]

theorem sum_map_addCoins {l : List User} (hn : (l.map User.ID).Nodup) {id amt : Int}
    (hex : ∃ u ∈ l, u.ID = id) :
    ((l.map (fun v => if v.ID = id then addCoins amt v else v)).map User.Coins).sum
      = (l.map User.Coins).sum + amt := by
  induction l with
  | nil =>
    obtain ⟨u, hu, _⟩ := hex
    simp at hu
  | cons a l ih =>
    simp only [List.map_cons, List.nodup_cons, List.mem_map, not_exists, not_and] at hn
    by_cases ha : a.ID = id
    · have hrest : ∀ v ∈ l, v.ID ≠ id := fun v hv hc => hn.1 v hv (by rw [hc, ha])
      simp only [List.map_cons, ha, if_true, List.sum_cons]
      rw [map_addCoins_of_no_row hrest]
      simp only [addCoins]
      omega
    · obtain ⟨u, hu, hid⟩ := hex
      have hul : u ∈ l := by
        rcases List.mem_cons.mp hu with rfl | hmem
        · exact absurd hid ha
        · exact hmem
      simp only [List.map_cons, ha, if_false, List.sum_cons, ih hn.2 ⟨u, hul, hid⟩]
      omega

/-- Under the primary key, a balance update that returns nil changes the sum of
the balances by exactly its amount. -/
theorem UpdateCoins_ok_total {f : Option Err} {s s1 : Store} {id amt : Int}
    (hn : uniqueIDs s) (h : UpdateCoins f s id amt = (s1, none)) :
    totalCoins s1 = totalCoins s + amt ∧ uniqueIDs s1 ∧ s1.merch_items = s.merch_items := by
  obtain ⟨_, ⟨u, hu, hg⟩, _⟩ := UpdateCoins_ok h
  have hs1 := UpdateCoins_ok_unique hn h
  have hid : u.ID = id := by
    simp only [coinsGuard, Bool.and_eq_true, beq_iff_eq] at hg
    exact hg.1
  refine ⟨?_, ?_, by rw [hs1]⟩
  · unfold totalCoins
    rw [hs1]
    exact sum_map_addCoins hn ⟨u, hu, hid⟩
  · unfold uniqueIDs at hn ⊢
    rw [hs1]
    simp only
    rw [map_ID_map _ (addCoins_ite_ID id amt)]
    exact hn

theorem SendCoin_ok_total {faults : Nat → Option Err} {s : Store} {fromUserID amount : Int}
    {toUsername : String} (hn : uniqueIDs s)
    (h : (SendCoin faults s fromUserID toUsername amount).err = none) :
    totalCoins (SendCoin faults s fromUserID toUsername amount).store
      = totalCoins s + negInt64 amount + amount := by
  obtain ⟨toUser, balance, s1, s2, s3, _, _, _, _, hd, hc, hi, hout⟩ := SendCoin_ok h
  obtain ⟨ht1, hn1, _⟩ := UpdateCoins_ok_total hn hd
  obtain ⟨ht2, _, _⟩ := UpdateCoins_ok_total hn1 hc
  have hs3 := (InsertTransaction_ok hi).2
  rw [hout]
  simp only
  have : totalCoins s3 = totalCoins s2 := by rw [hs3]; rfl
  rw [this, ht2, ht1]

theorem BuyItem_ok_total {faults : Nat → Option Err} {s : Store} {userID : Int}
    {itemName : String} (hn : uniqueIDs s)
    (h : (BuyItem faults s userID itemName).err = none) :
    ∃ item, GetItem none s itemName = (item, none) ∧
      totalCoins (BuyItem faults s userID itemName).store
        = totalCoins s + negInt64 item.Price := by
  obtain ⟨item, balance, s1, s2, hi, _, _, hd, hinv, hout⟩ := BuyItem_ok h
  obtain ⟨ht1, _, _⟩ := UpdateCoins_ok_total hn hd
  refine ⟨item, by simp [GetItem, (GetItem_ok hi).2], ?_⟩
  rw [hout]
  have : totalCoins s2 = totalCoins s1 := by
    rcases hinv with ⟨_, hins⟩ | ⟨_, hupd⟩
    · rw [(InsertInventoryItem_ok hins).2]; rfl
    · rw [(UpdateInventoryItem_ok hupd).2]; rfl
  rw [this, ht1]

/-- C28: a `SendCoin` that returns nil leaves the sum of all balances
unchanged, a `BuyItem` that returns nil lowers it by exactly the price of the
item bought, and a `SendCoin` or `BuyItem` that returns an error leaves the
whole store, hence the sum, unchanged. The amount is any `int64` other than the
smallest one, in particular any positive amount. -/
theorem total_coins_conservation (faults : Nat → Option Err) (s : Store) (fromUserID : Int)
    (toUsername : String) (amount : Int) (userID : Int) (itemName : String)
    (hn : uniqueIDs s) (hc : validCatalog s)
    (ha0 : minInt64 < amount) (ha1 : amount ≤ maxInt64) :
    ((SendCoin faults s fromUserID toUsername amount).err = none →
      totalCoins (SendCoin faults s fromUserID toUsername amount).store = totalCoins s) ∧
    ((SendCoin faults s fromUserID toUsername amount).err ≠ none →
      totalCoins (SendCoin faults s fromUserID toUsername amount).store = totalCoins s) ∧
    ((BuyItem faults s userID itemName).err = none →
      ∃ item, GetItem none s itemName = (item, none) ∧
        totalCoins (BuyItem faults s userID itemName).store = totalCoins s - item.Price) ∧
    ((BuyItem faults s userID itemName).err ≠ none →
      totalCoins (BuyItem faults s userID itemName).store = totalCoins s) := by
  refine ⟨?_, ?_, ?_, ?_⟩
  · intro h
    rw [SendCoin_ok_total hn h, negInt64_of_gt_min ha0 ha1]
    omega
  · intro h
    cases he : (SendCoin faults s fromUserID toUsername amount).err with
    | none => exact absurd he h
    | some e =>
      unfold SendCoin at he ⊢
      rw [(trManagerDo_err he).2]
  · intro h
    obtain ⟨item, hitem, htot⟩ := BuyItem_ok_total hn h
    obtain ⟨hp0, hp1⟩ := hc item (mem_of_find? (GetItem_ok hitem).2).1
    refine ⟨item, hitem, ?_⟩
    rw [htot, negInt64_of_pos hp0 hp1]
    omega
  · intro h
    cases he : (BuyItem faults s userID itemName).err with
    | none => exact absurd he h
    | some e =>
      unfold BuyItem at he ⊢
      rw [(trManagerDo_err he).2]

/-- C28, on two accounts of 1000 each: a transfer of 100 keeps the sum at 2000, a
t-shirt priced 80 brings it to 1920. -/
theorem total_coins_conservation_witness :
    uniqueIDs demoStore ∧ validCatalog demoStore ∧ minInt64 < (100 : Int) ∧
    (100 : Int) ≤ maxInt64 ∧ totalCoins demoStore = 2000 ∧
    (SendCoin noFaults demoStore 1 "acct2" 100).err = none ∧
    totalCoins (SendCoin noFaults demoStore 1 "acct2" 100).store = totalCoins demoStore ∧
    (BuyItem noFaults demoStore 1 "t-shirt").err = none ∧
    totalCoins (BuyItem noFaults demoStore 1 "t-shirt").store = 1920 :=
  have h := total_coins_conservation noFaults demoStore 1 "acct2" 100 1 "t-shirt"
    (by decide) (by decide) (by decide) (by decide)
  ⟨by decide, by decide, by decide, by decide, by decide, by decide, h.1 (by decide),
    by decide, by decide⟩

/-! ## transfers of a non-positive amount -/

/-- C29 (counterexample): `SendCoin(1, "poor", -50)` on a sender holding 100 and
a recipient holding 30 returns nil; the sender then holds 150 and the recipient
-20: the sender's balance was raised, the recipient's was lowered, and it went
below zero. -/
theorem SendCoin_negative_amount_reverses :
    GetUserBalance none poorStore 1 = (100, none) ∧
    GetUserBalance none poorStore 2 = (30, none) ∧
    (SendCoin noFaults poorStore 1 "poor" (-50)).err = none ∧
    GetUserBalance none (SendCoin noFaults poorStore 1 "poor" (-50)).store 1 = (150, none) ∧
    GetUserBalance none (SendCoin noFaults poorStore 1 "poor" (-50)).store 2
      = (-20, none) := by
  decide

/-- The users table after a committed transfer, under the primary key, for
every amount: the sender's row gets Go's `-amount`, the recipient's `amount`. -/
theorem SendCoin_ok_users_wrapped {faults : Nat → Option Err} {s : Store}
    {fromUserID amount : Int} {toUsername : String} (hn : uniqueIDs s)
    (h : (SendCoin faults s fromUserID toUsername amount).err = none) :
    ∃ toUser sender,
      s.users.find? (fun v => v.Username == toUsername) = some toUser ∧
      fromUserID ≠ toUser.ID ∧
      s.users.find? (fun v => v.ID == fromUserID) = some sender ∧
      amount ≤ sender.Coins ∧
      (SendCoin faults s fromUserID toUsername amount).store.users
        = s.users.map (fun u => if u.ID = fromUserID then addCoins (negInt64 amount) u
            else if u.ID = toUser.ID then addCoins amount u else u) := by
  obtain ⟨toUser, balance, s1, s2, s3, hg, hne, hb, hle, hd, hc, hi, hout⟩ := SendCoin_ok h
  have hs1 := UpdateCoins_ok_unique hn hd
  have hn1 : uniqueIDs s1 := by
    unfold uniqueIDs at hn ⊢
    rw [hs1]
    simp only
    rw [map_ID_map _ (addCoins_ite_ID fromUserID (negInt64 amount))]
    exact hn
  have hs2 := UpdateCoins_ok_unique hn1 hc
  have hs3 := (InsertTransaction_ok hi).2
  obtain ⟨sender, hsender, hcoins⟩ := (GetUserBalance_ok hb).2
  refine ⟨toUser, sender, (GetUser_ok hg).2, hne, hsender, by rw [hcoins]; exact hle, ?_⟩
  rw [hout, hs3, hs2, hs1]
  simp only [List.map_map]
  apply List.map_congr_left
  intro u _
  simp only [Function.comp_apply]
  by_cases hf : u.ID = fromUserID
  · have : ¬ (addCoins (negInt64 amount) u).ID = toUser.ID := by
      simp only [addCoins]; rw [hf]; exact hne
    simp [hf, this]
  · simp [hf]

theorem negInt64_minInt64 : negInt64 minInt64 = minInt64 := by
  unfold negInt64 wrapInt64 minInt64
  omega

/-- C29 (amended): `SendCoin` called with an `int64` amount at most zero is not
refused as such. When it returns nil, the recipient's balance is its balance
before plus the amount, hence not higher than before, and the sender's balance
is its balance before plus Go's `-amount`, every other account unchanged. For
an amount other than the smallest `int64` that is the balance before minus the
amount, hence not lower than before; for the smallest `int64`, whose negation
wraps to itself, it is the balance before minus 2^63, and the recipient's
balance is lowered by 2^63 as well. With amount 0 no balance changes. -/
theorem SendCoin_nonpositive_amount (faults : Nat → Option Err) (s : Store)
    (fromUserID : Int) (toUsername : String) (amount : Int)
    (hn : uniqueIDs s) (ha0 : minInt64 ≤ amount) (ha1 : amount ≤ 0)
    (h : (SendCoin faults s fromUserID toUsername amount).err = none) :
    ∃ toUser sender : User,
      GetUser none s toUsername = (toUser, none) ∧ toUser.ID ≠ fromUserID ∧
      GetUserBalance none s fromUserID = (sender.Coins, none) ∧
      GetUserBalance none s toUser.ID = (toUser.Coins, none) ∧
      GetUserBalance none (SendCoin faults s fromUserID toUsername amount).store fromUserID
        = (sender.Coins + negInt64 amount, none) ∧
      GetUserBalance none (SendCoin faults s fromUserID toUsername amount).store toUser.ID
        = (toUser.Coins + amount, none) ∧
      toUser.Coins + amount ≤ toUser.Coins ∧
      (minInt64 < amount →
        sender.Coins + negInt64 amount = sender.Coins - amount ∧
        sender.Coins ≤ sender.Coins + negInt64 amount) ∧
      (amount = minInt64 →
        sender.Coins + negInt64 amount = sender.Coins - 2 ^ 63 ∧
        toUser.Coins + amount = toUser.Coins - 2 ^ 63) ∧
      (SendCoin faults s fromUserID toUsername amount).store.users
        = s.users.map (fun u =>
            if u.ID = fromUserID then { u with Coins := u.Coins + negInt64 amount }
            else if u.ID = toUser.ID then { u with Coins := u.Coins + amount } else u) ∧
      (amount = 0 → (SendCoin faults s fromUserID toUsername amount).store.users = s.users) := by
  obtain ⟨toUser, sender, hto, hne, hsender, _, husers⟩ := SendCoin_ok_users_wrapped hn h
  have htomem := (mem_of_find? hto).1
  have hto2 : s.users.find? (fun v => v.ID == toUser.ID) = some toUser :=
    find?_ID_of_mem hn htomem
  have hpres : ∀ v : User, (if v.ID = fromUserID then addCoins (negInt64 amount) v
      else if v.ID = toUser.ID then addCoins amount v else v).ID = v.ID := by
    intro v; split
    · rfl
    · split <;> rfl
  have hfrom : sender.ID = fromUserID := by simpa using (mem_of_find? hsender).2
  have hne2 : ¬ toUser.ID = fromUserID := fun hc => hne hc.symm
  have hmap : (SendCoin faults s fromUserID toUsername amount).store.users
      = s.users.map (fun u =>
          if u.ID = fromUserID then { u with Coins := u.Coins + negInt64 amount }
          else if u.ID = toUser.ID then { u with Coins := u.Coins + amount } else u) := by
    rw [husers]
    rfl
  refine ⟨toUser, sender, by simp [GetUser, hto], hne2, GetUserBalance_of_find? hsender,
    GetUserBalance_of_find? hto2, ?_, ?_, by omega, ?_, ?_, hmap, ?_⟩
  · rw [GetUserBalance_map hpres hsender husers]
    simp [hfrom, addCoins]
  · rw [GetUserBalance_map hpres hto2 husers]
    simp [hne2, addCoins]
  · intro hgt
    have hneg : negInt64 amount = -amount :=
      negInt64_of_gt_min hgt (by unfold maxInt64; omega)
    rw [hneg]
    constructor <;> omega
  · intro hmin
    rw [hmin, negInt64_minInt64]
    unfold minInt64
    constructor <;> omega
  · intro hz
    rw [hmap]
    conv_rhs => rw [← List.map_id s.users]
    apply List.map_congr_left
    intro v _
    subst hz
    have hz0 : negInt64 0 = 0 := by decide
    rw [hz0]
    split
    · simp
    · split <;> simp

/-- C29 (amended), on a sender holding 100 and a recipient holding 30, with the
smallest `int64` as amount: the call returns nil and both balances are lowered
by 2^63. On two accounts of 1000 each a transfer of -100 from account 1 to
"acct2" returns nil and leaves 1100 and 900. -/
theorem SendCoin_nonpositive_amount_witness :
    uniqueIDs poorStore ∧ minInt64 ≤ minInt64 ∧ minInt64 ≤ 0 ∧
    (SendCoin noFaults poorStore 1 "poor" minInt64).err = none ∧
    GetUserBalance none (SendCoin noFaults poorStore 1 "poor" minInt64).store 1
      = (100 - 2 ^ 63, none) ∧
    GetUserBalance none (SendCoin noFaults poorStore 1 "poor" minInt64).store 2
      = (30 - 2 ^ 63, none) ∧
    (SendCoin noFaults demoStore 1 "acct2" (-100)).err = none ∧
    GetUserBalance none (SendCoin noFaults demoStore 1 "acct2" (-100)).store 1
      = (1100, none) ∧
    GetUserBalance none (SendCoin noFaults demoStore 1 "acct2" (-100)).store 2
      = (900, none) ∧
    ∃ toUser sender : User,
      GetUser none poorStore "poor" = (toUser, none) ∧ toUser.ID ≠ 1 ∧
      GetUserBalance none poorStore 1 = (sender.Coins, none) ∧
      GetUserBalance none poorStore toUser.ID = (toUser.Coins, none) ∧
      GetUserBalance none (SendCoin noFaults poorStore 1 "poor" minInt64).store 1
        = (sender.Coins + negInt64 minInt64, none) ∧
      GetUserBalance none (SendCoin noFaults poorStore 1 "poor" minInt64).store toUser.ID
        = (toUser.Coins + minInt64, none) ∧
      toUser.Coins + minInt64 ≤ toUser.Coins ∧
      (minInt64 < minInt64 →
        sender.Coins + negInt64 minInt64 = sender.Coins - minInt64 ∧
        sender.Coins ≤ sender.Coins + negInt64 minInt64) ∧
      (minInt64 = minInt64 →
        sender.Coins + negInt64 minInt64 = sender.Coins - 2 ^ 63 ∧
        toUser.Coins + minInt64 = toUser.Coins - 2 ^ 63) ∧
      (SendCoin noFaults poorStore 1 "poor" minInt64).store.users
        = poorStore.users.map (fun u =>
            if u.ID = 1 then { u with Coins := u.Coins + negInt64 minInt64 }
            else if u.ID = toUser.ID then { u with Coins := u.Coins + minInt64 } else u) ∧
      (minInt64 = 0 →
        (SendCoin noFaults poorStore 1 "poor" minInt64).store.users = poorStore.users) :=
  ⟨by decide, by decide, by decide, by decide, by decide, by decide, by decide, by decide,
    by decide,
    SendCoin_nonpositive_amount noFaults poorStore 1 "poor" minInt64
      (by decide) (by decide) (by decide) (by decide)⟩

/-! ## tokens -/

/-- C25: when the repository finds the user, `GenerateToken` returns the empty
token with `ErrIncorrectPassword` exactly when `generatePasswordHash(password)`
differs from the stored hash (the signing step never returning that error
itself); when the lookup fails, `GenerateToken` returns the empty token with
the lookup's error. -/
theorem GenerateToken_password_check (sum256 : String → List Nat)
    (signedString : Int → String × Option Err) (fault : Option Err) (s : Store)
    (username password : String)
    (hsign : ∀ id, (signedString id).2 ≠ some Err.ErrIncorrectPassword) :
    (∀ user, GetUser fault s username = (user, none) →
      (AuthService.GenerateToken sum256 signedString fault s username password
          = ("", some Err.ErrIncorrectPassword) ↔
        generatePasswordHash sum256 password ≠ user.Password) ∧
      (generatePasswordHash sum256 password = user.Password →
        AuthService.GenerateToken sum256 signedString fault s username password
          = signedString user.ID)) ∧
    (∀ user err, GetUser fault s username = (user, some err) →
      AuthService.GenerateToken sum256 signedString fault s username password
        = ("", some err)) := by
  refine ⟨?_, ?_⟩
  · intro user hget
    have heq : generatePasswordHash sum256 password = user.Password →
        AuthService.GenerateToken sum256 signedString fault s username password
          = signedString user.ID := by
      intro hp
      simp [AuthService.GenerateToken, hget, hp]
    refine ⟨⟨?_, ?_⟩, heq⟩
    · intro hres hp
      rw [heq hp] at hres
      exact hsign user.ID (by rw [hres])
    · intro hp
      have hp2 : ¬ user.Password = generatePasswordHash sum256 password :=
        fun hc => hp hc.symm
      simp [AuthService.GenerateToken, hget, hp2]
  · intro user err hget
    simp [AuthService.GenerateToken, hget]

/-- C25, for the account "bob" whose stored hash is that of "pw": the password
"pw" gets the token, an unknown name gets the lookup's error, and an account
whose stored value is not that hash gets `ErrIncorrectPassword`. -/
theorem GenerateToken_password_check_witness :
    (∀ id, (demoSignedString id).2 ≠ some Err.ErrIncorrectPassword) ∧
    AuthService.GenerateToken zeroDigest demoSignedString none authStore "bob" "pw"
      = ("token1", none) ∧
    AuthService.GenerateToken zeroDigest demoSignedString none authStore "eve" "pw"
      = ("", some Err.ErrNoRows) ∧
    AuthService.GenerateToken zeroDigest demoSignedString none demoStore "acct1" "pw"
      = ("", some Err.ErrIncorrectPassword) ∧
    (AuthService.GenerateToken zeroDigest demoSignedString none authStore "bob" "pw"
        = ("", some Err.ErrIncorrectPassword) ↔
      generatePasswordHash zeroDigest "pw"
        ≠ (⟨1, "bob", generatePasswordHash zeroDigest "pw", 1000⟩ : User).Password) :=
  have hs : ∀ id, (demoSignedString id).2 ≠ some Err.ErrIncorrectPassword := by
    intro id
    unfold demoSignedString
    split
    · simp
    · split <;> simp
  have h := GenerateToken_password_check zeroDigest demoSignedString none authStore "bob" "pw" hs
  ⟨hs, by decide, by decide, by decide,
    (h.1 ⟨1, "bob", generatePasswordHash zeroDigest "pw", 1000⟩ (by decide)).1⟩

/-! ## the sendCoin handler and its request body -/

theorem bindSendCoinRequest_some {decoded : Option SendCoinRequest} {input : SendCoinRequest}
    (h : bindSendCoinRequest decoded = some input) :
    decoded = some input ∧ 0 < input.Amount ∧ input.ToUser ≠ "" := by
  unfold bindSendCoinRequest at h
  cases decoded with
  | none => simp at h
  | some d =>
    by_cases hv : d.ToUser ≠ "" ∧ d.Amount ≠ 0 ∧ d.Amount > 0
    · have h2 : (if d.ToUser ≠ "" ∧ d.Amount ≠ 0 ∧ d.Amount > 0 then some d else none)
          = some input := h
      rw [if_pos hv] at h2
      have hd : d = input := Option.some.inj h2
      subst hd
      exact ⟨rfl, hv.2.2, hv.1⟩
    · have h2 : (if d.ToUser ≠ "" ∧ d.Amount ≠ 0 ∧ d.Amount > 0 then some d else none)
          = some input := h
      rw [if_neg hv] at h2
      exact absurd h2 (by simp)

theorem bindSendCoinRequest_none {decoded : Option SendCoinRequest}
    (h : decoded = none ∨
      ∃ input, decoded = some input ∧ (input.Amount ≤ 0 ∨ input.ToUser = "")) :
    bindSendCoinRequest decoded = none := by
  cases hb : bindSendCoinRequest decoded with
  | none => rfl
  | some input =>
    obtain ⟨hd, hpos, hto⟩ := bindSendCoinRequest_some hb
    rcases h with h | ⟨i2, h, hbad⟩
    · rw [h] at hd; exact absurd hd (by simp)
    · rw [h] at hd
      have : i2 = input := Option.some.inj hd
      subst this
      rcases hbad with hbad | hbad
      · omega
      · exact absurd hbad hto

/-- The `sendCoin` handler either makes no service call, or it has a user id
from the context and a bound body and makes the one call `SendCoin` with them. -/
theorem sendCoin_calls (svc : Service) (decoded : Option SendCoinRequest) (c : Context) :
    (sendCoin svc decoded c).calls = c.calls ∨
    ∃ userID input, getUserID c = (userID, none) ∧ bindSendCoinRequest decoded = some input ∧
      (sendCoin svc decoded c).calls
        = c.calls ++ [ServiceCall.SendCoin userID input.ToUser input.Amount] := by
  unfold sendCoin
  rcases hg : getUserID c with ⟨userID, _ | e⟩
  swap
  · left; rfl
  cases hb : bindSendCoinRequest decoded with
  | none => left; rfl
  | some input =>
    right
    refine ⟨userID, input, rfl, rfl, ?_⟩
    simp only
    cases svc.SendCoin userID input.ToUser input.Amount with
    | none => rfl
    | some err =>
      simp only
      split
      · rfl
      · split
        · rfl
        · split <;> rfl

/-- C21 (counterexample): a request with amount 0 that carries no user id in its
context (its `Authorization` header is empty): the `sendCoin` handler writes
nothing, and the only response of the route is the 401 of `userIdentity`, not a
400. -/
theorem sendCoin_unauthenticated_no_400 :
    (sendCoin (demoService demoStore) (some ⟨"acct2", 0⟩) (newContext "" "")).written = [] ∧
    (protectedRoute (demoService demoStore)
        (sendCoin (demoService demoStore) (some ⟨"acct2", 0⟩)) (newContext "" "")).written
      = [⟨401, Body.errors "empty auth header"⟩] := by
  decide

/-- C21 (amended): for every `sendCoin` request whose body does not decode, or
whose amount is zero or negative, or whose toUser is empty, the handler makes
no service call, and when the context carries a user id it responds 400
"invalid request format". For every request at all, if the handler calls
`SendCoin` then the amount is above zero and toUser is not empty. -/
theorem sendCoin_rejects_invalid (svc : Service) (decoded : Option SendCoinRequest)
    (c : Context)
    (hbad : decoded = none ∨
      ∃ input, decoded = some input ∧ (input.Amount ≤ 0 ∨ input.ToUser = "")) :
    (sendCoin svc decoded c).calls = c.calls ∧
    (∀ userID, getUserID c = (userID, none) →
      sendCoin svc decoded c = NewErrorResponse c 400 "invalid request format") ∧
    (∀ (svc1 : Service) (decoded1 : Option SendCoinRequest) (c1 : Context) (n : Nat)
        (fromUserID : Int) (toUsername : String) (amount : Int),
      (sendCoin svc1 decoded1 c1).calls[c1.calls.length + n]?
          = some (ServiceCall.SendCoin fromUserID toUsername amount) →
        0 < amount ∧ toUsername ≠ "") := by
  have hnone := bindSendCoinRequest_none hbad
  refine ⟨?_, ?_, ?_⟩
  · rcases sendCoin_calls svc decoded c with h | ⟨_, input, _, hb, _⟩
    · exact h
    · rw [hnone] at hb; exact absurd hb (by simp)
  · intro userID hg
    simp [sendCoin, hg, hnone, StatusBadRequest]
  · intro svc1 decoded1 c1 n fromUserID toUsername amount hcall
    rcases sendCoin_calls svc1 decoded1 c1 with h | ⟨userID, input, _, hb, h⟩
    · rw [h] at hcall
      have : c1.calls[c1.calls.length + n]? = none :=
        List.getElem?_eq_none (by omega)
      rw [this] at hcall
      exact absurd hcall (by simp)
    · obtain ⟨_, hpos, hto⟩ := bindSendCoinRequest_some hb
      rw [h, List.getElem?_append_right (by omega)] at hcall
      have hidx : c1.calls.length + n - c1.calls.length = n := by omega
      rw [hidx] at hcall
      rcases n with _ | n
      · simp only [List.getElem?_cons_zero, Option.some.injEq, ServiceCall.SendCoin.injEq]
          at hcall
        rw [← hcall.2.2, ← hcall.2.1]
        exact ⟨hpos, hto⟩
      · simp at hcall

/-- C21 (amended), for account 1 sending amount 0 and amount -5 to "acct2": both
get 400 "invalid request format" and `SendCoin` is not called. -/
theorem sendCoin_rejects_invalid_witness :
    sendCoin (demoService demoStore) (some ⟨"acct2", 0⟩)
        ⟨"Bearer token1", "", some (CtxValue.int64 1), [], []⟩
      = ⟨"Bearer token1", "", some (CtxValue.int64 1),
          [⟨400, Body.errors "invalid request format"⟩], []⟩ ∧
    (sendCoin (demoService demoStore) (some ⟨"acct2", -5⟩)
        ⟨"Bearer token1", "", some (CtxValue.int64 1), [], []⟩).calls = [] ∧
    (sendCoin (demoService demoStore) (some ⟨"acct2", 5⟩)
        ⟨"Bearer token1", "", some (CtxValue.int64 1), [], []⟩).calls
      = [ServiceCall.SendCoin 1 "acct2" 5] :=
  have h := sendCoin_rejects_invalid (demoService demoStore) (some ⟨"acct2", -5⟩)
    ⟨"Bearer token1", "", some (CtxValue.int64 1), [], []⟩
    (Or.inr ⟨⟨"acct2", -5⟩, rfl, Or.inl (by decide)⟩)
  ⟨by decide, h.1, by decide⟩

/-! ## the errors the workflows can return -/

theorem GetUserBalance_err {f : Option Err} {s : Store} {id b : Int} {e : Err}
    (h : GetUserBalance f s id = (b, some e)) : f = some e ∨ e = Err.ErrNoRows := by
  unfold GetUserBalance at h
  cases f with
  | some e1 => left; simp at h; rw [h.2]
  | none =>
    cases hfd : s.users.find? (fun u => u.ID == id) with
    | none => right; simp [hfd] at h; exact h.2.symm
    | some u => simp [hfd] at h

theorem UpdateCoins_err {f : Option Err} {s s1 : Store} {id amt : Int} {e : Err}
    (h : UpdateCoins f s id amt = (s1, some e)) :
    f = some e ∨ e = Err.ErrInsufficientBalance := by
  unfold UpdateCoins at h
  cases f with
  | some e1 => left; simp at h; rw [h.2]
  | none =>
    right
    by_cases h0 : (s.users.filter (coinsGuard id amt)).length = 0
    · simp [h0] at h; exact h.2.symm
    · simp [h0] at h

theorem InsertTransaction_err {f : Option Err} {s s1 : Store} {a b c : Int} {e : Err}
    (h : InsertTransaction f s a b c = (s1, some e)) : f = some e := by
  unfold InsertTransaction at h
  cases f with
  | some e1 => simp at h; rw [h.2]
  | none => simp at h

theorem InsertInventoryItem_err {f : Option Err} {s s1 : Store} {a b : Int} {e : Err}
    (h : InsertInventoryItem f s a b = (s1, some e)) : f = some e := by
  unfold InsertInventoryItem at h
  cases f with
  | some e1 => simp at h; rw [h.2]
  | none => simp at h

theorem UpdateInventoryItem_err {f : Option Err} {s s1 : Store} {a b : Int} {e : Err}
    (h : UpdateInventoryItem f s a b = (s1, some e)) : f = some e := by
  unfold UpdateInventoryItem at h
  cases f with
  | some e1 => simp at h; rw [h.2]
  | none => simp at h

/-- An error returned by `SendCoin` is one of its three business errors,
`sql.ErrNoRows` from the balance read, or the error of a driver failure. -/
theorem SendCoin_err_cases {faults : Nat → Option Err} {s : Store} {fromUserID amount : Int}
    {toUsername : String} {e : Err}
    (h : (SendCoin faults s fromUserID toUsername amount).err = some e) :
    e = Err.ErrRecipientNotFound ∨ e = Err.ErrSendThemselves ∨
      e = Err.ErrInsufficientBalance ∨ e = Err.ErrNoRows ∨ ∃ k, faults k = some e := by
  unfold SendCoin trManagerDo sendCoinScope at h
  rcases h0 : GetUser (faults 0) s toUsername with ⟨toUser, _ | e0⟩
  swap
  · simp [h0] at h; left; exact h.symm
  simp only [h0] at h
  by_cases hself : fromUserID = toUser.ID
  · simp [hself] at h; right; left; exact h.symm
  simp only [hself, if_false] at h
  rcases h1 : GetUserBalance (faults 1) s fromUserID with ⟨balance, _ | e1⟩
  swap
  · simp [h1] at h
    subst h
    rcases GetUserBalance_err h1 with hf | hf
    · right; right; right; right; exact ⟨1, hf⟩
    · right; right; right; left; exact hf
  simp only [h1] at h
  by_cases hlt : balance < amount
  · simp [hlt] at h; right; right; left; exact h.symm
  simp only [hlt, if_false] at h
  rcases h2 : UpdateCoins (faults 2) s fromUserID (negInt64 amount) with ⟨s1, _ | e2⟩
  swap
  · simp [h2] at h
    subst h
    rcases UpdateCoins_err h2 with hf | hf
    · right; right; right; right; exact ⟨2, hf⟩
    · right; right; left; exact hf
  simp only [h2] at h
  rcases h3 : UpdateCoins (faults 3) s1 toUser.ID amount with ⟨s2, _ | e3⟩
  swap
  · simp [h3] at h
    subst h
    rcases UpdateCoins_err h3 with hf | hf
    · right; right; right; right; exact ⟨3, hf⟩
    · right; right; left; exact hf
  simp only [h3] at h
  rcases h4 : InsertTransaction (faults 4) s2 fromUserID toUser.ID amount with ⟨s3, _ | e4⟩
  · simp [h4] at h
  · simp [h4] at h
    subst h
    right; right; right; right; exact ⟨4, InsertTransaction_err h4⟩

/-- An error returned by `BuyItem` is one of its two business errors,
`sql.ErrNoRows` from the balance read, or the error of a driver failure. -/
theorem BuyItem_err_cases {faults : Nat → Option Err} {s : Store} {userID : Int}
    {itemName : String} {e : Err}
    (h : (BuyItem faults s userID itemName).err = some e) :
    e = Err.ErrItemNotFound ∨ e = Err.ErrInsufficientBalance ∨ e = Err.ErrNoRows ∨
      ∃ k, faults k = some e := by
  unfold BuyItem trManagerDo buyItemScope at h
  rcases h0 : GetItem (faults 0) s itemName with ⟨item, _ | e0⟩
  swap
  · simp [h0] at h; left; exact h.symm
  simp only [h0] at h
  rcases h1 : GetUserBalance (faults 1) s userID with ⟨balance, _ | e1⟩
  swap
  · simp [h1] at h
    subst h
    rcases GetUserBalance_err h1 with hf | hf
    · right; right; right; exact ⟨1, hf⟩
    · right; right; left; exact hf
  simp only [h1] at h
  by_cases hlt : balance < item.Price
  · simp [hlt] at h; right; left; exact h.symm
  simp only [hlt, if_false] at h
  rcases h2 : UpdateCoins (faults 2) s userID (negInt64 item.Price) with ⟨s1, _ | e2⟩
  swap
  · simp [h2] at h
    subst h
    rcases UpdateCoins_err h2 with hf | hf
    · right; right; right; exact ⟨2, hf⟩
    · right; left; exact hf
  simp only [h2] at h
  rcases h3 : GetInventoryItem (faults 3) s1 userID item.ID with ⟨q, _ | e3⟩
  · simp only [h3] at h
    rcases h4 : UpdateInventoryItem (faults 4) s1 userID item.ID with ⟨s2, _ | e4⟩
    · simp [h4] at h
    · simp [h4] at h
      subst h
      right; right; right; exact ⟨4, UpdateInventoryItem_err h4⟩
  · simp only [h3] at h
    rcases h4 : InsertInventoryItem (faults 4) s1 userID item.ID with ⟨s2, _ | e4⟩
    · simp [h4] at h
    · simp [h4] at h
      subst h
      right; right; right; exact ⟨4, InsertInventoryItem_err h4⟩

/-! ## from service errors to responses -/

/-- What the `sendCoin` handler writes once it has a user id and a bound body:
one response, chosen by what `SendCoin` returned. -/
theorem sendCoin_written (svc : Service) (decoded : Option SendCoinRequest) (c : Context)
    (userID : Int) (input : SendCoinRequest) (hg : getUserID c = (userID, none))
    (hb : bindSendCoinRequest decoded = some input) :
    (sendCoin svc decoded c).written = c.written ++
      [match svc.SendCoin userID input.ToUser input.Amount with
        | none => ⟨200, Body.status "coins were successfully sent to the user"⟩
        | some Err.ErrRecipientNotFound => ⟨400, Body.errors "recipient not found"⟩
        | some Err.ErrSendThemselves => ⟨400, Body.errors "cannot send coins to yourself"⟩
        | some Err.ErrInsufficientBalance => ⟨400, Body.errors "insufficient balance"⟩
        | some _ => ⟨500, Body.errors "internal server error"⟩] := by
  unfold sendCoin
  simp only [hg, hb]
  cases hs : svc.SendCoin userID input.ToUser input.Amount with
  | none => rfl
  | some err => cases err <;> rfl

/-- What the `buyItem` handler writes once it has a user id and an item name:
one response, chosen by what `BuyItem` returned. -/
theorem buyItem_written (svc : Service) (c : Context) (userID : Int)
    (hg : getUserID c = (userID, none)) (hitem : c.item ≠ "") :
    (buyItem svc c).written = c.written ++
      [match svc.BuyItem userID c.item with
        | none => ⟨200, Body.status "item was successfully purchased"⟩
        | some Err.ErrItemNotFound => ⟨400, Body.errors "item not found"⟩
        | some Err.ErrInsufficientBalance => ⟨400, Body.errors "insufficient balance"⟩
        | some _ => ⟨500, Body.errors "internal server error"⟩] := by
  unfold buyItem
  simp only [hg, hitem, if_false]
  cases hs : svc.BuyItem userID c.item with
  | none => rfl
  | some err => cases err <;> rfl

theorem SendCoin_err_ne_ErrItemNotFound (faults : Nat → Option Err) (s : Store)
    (fromUserID : Int) (toUsername : String) (amount : Int)
    (hfaults : ∀ k e, faults k = some e → ∃ n, e = Err.driver n) :
    (SendCoin faults s fromUserID toUsername amount).err ≠ some Err.ErrItemNotFound := by
  intro h
  rcases SendCoin_err_cases h with h1 | h1 | h1 | h1 | ⟨k, hk⟩
  · exact absurd h1 (by simp)
  · exact absurd h1 (by simp)
  · exact absurd h1 (by simp)
  · exact absurd h1 (by simp)
  · obtain ⟨n, hn⟩ := hfaults k _ hk
    exact absurd hn (by simp)

theorem BuyItem_err_ne_transfer_errors (faults : Nat → Option Err) (s : Store)
    (userID : Int) (itemName : String)
    (hfaults : ∀ k e, faults k = some e → ∃ n, e = Err.driver n) :
    (BuyItem faults s userID itemName).err ≠ some Err.ErrRecipientNotFound ∧
    (BuyItem faults s userID itemName).err ≠ some Err.ErrSendThemselves := by
  refine ⟨?_, ?_⟩
  · intro h
    rcases BuyItem_err_cases h with h1 | h1 | h1 | ⟨k, hk⟩
    · exact absurd h1 (by simp)
    · exact absurd h1 (by simp)
    · exact absurd h1 (by simp)
    · obtain ⟨n, hn⟩ := hfaults k _ hk
      exact absurd hn (by simp)
  · intro h
    rcases BuyItem_err_cases h with h1 | h1 | h1 | ⟨k, hk⟩
    · exact absurd h1 (by simp)
    · exact absurd h1 (by simp)
    · exact absurd h1 (by simp)
    · obtain ⟨n, hn⟩ := hfaults k _ hk
      exact absurd hn (by simp)

/-- C22 (counterexample): a service that returns `ErrItemNotFound` to the
`sendCoin` handler, or `ErrRecipientNotFound` or `ErrSendThemselves` to the
`buyItem` handler, gets 500 "internal server error", not the 400 of that
business error. -/
theorem handlers_foreign_business_error_500 :
    (sendCoin (stubService (some Err.ErrItemNotFound) none) (some ⟨"acct2", 100⟩)
        ⟨"", "", some (CtxValue.int64 1), [], []⟩).written
      = [⟨500, Body.errors "internal server error"⟩] ∧
    (buyItem (stubService none (some Err.ErrRecipientNotFound))
        ⟨"", "cup", some (CtxValue.int64 1), [], []⟩).written
      = [⟨500, Body.errors "internal server error"⟩] ∧
    (buyItem (stubService none (some Err.ErrSendThemselves))
        ⟨"", "cup", some (CtxValue.int64 1), [], []⟩).written
      = [⟨500, Body.errors "internal server error"⟩] := by
  decide

/-- C22 (amended): for every service and every result it returns to a handler
that reached it, the handler writes one response. `sendCoin`: nil gives 200;
`ErrRecipientNotFound`, `ErrSendThemselves` and `ErrInsufficientBalance` give
400 with their fixed message; every other error gives 500 "internal server
error". `buyItem`: nil gives 200; `ErrItemNotFound` and
`ErrInsufficientBalance` give 400 with their fixed message; every other error
gives 500 "internal server error". -/
theorem handlers_error_mapping (svc : Service) (decoded : Option SendCoinRequest)
    (c : Context) (userID : Int) (hg : getUserID c = (userID, none)) :
    (∀ input, bindSendCoinRequest decoded = some input →
      (svc.SendCoin userID input.ToUser input.Amount = none →
        (sendCoin svc decoded c).written = c.written ++
          [⟨200, Body.status "coins were successfully sent to the user"⟩]) ∧
      (svc.SendCoin userID input.ToUser input.Amount = some Err.ErrRecipientNotFound →
        (sendCoin svc decoded c).written = c.written ++
          [⟨400, Body.errors "recipient not found"⟩]) ∧
      (svc.SendCoin userID input.ToUser input.Amount = some Err.ErrSendThemselves →
        (sendCoin svc decoded c).written = c.written ++
          [⟨400, Body.errors "cannot send coins to yourself"⟩]) ∧
      (svc.SendCoin userID input.ToUser input.Amount = some Err.ErrInsufficientBalance →
        (sendCoin svc decoded c).written = c.written ++
          [⟨400, Body.errors "insufficient balance"⟩]) ∧
      (∀ err, svc.SendCoin userID input.ToUser input.Amount = some err →
        err ≠ Err.ErrRecipientNotFound → err ≠ Err.ErrSendThemselves →
        err ≠ Err.ErrInsufficientBalance →
        (sendCoin svc decoded c).written = c.written ++
          [⟨500, Body.errors "internal server error"⟩])) ∧
    (c.item ≠ "" →
      (svc.BuyItem userID c.item = none →
        (buyItem svc c).written = c.written ++
          [⟨200, Body.status "item was successfully purchased"⟩]) ∧
      (svc.BuyItem userID c.item = some Err.ErrItemNotFound →
        (buyItem svc c).written = c.written ++ [⟨400, Body.errors "item not found"⟩]) ∧
      (svc.BuyItem userID c.item = some Err.ErrInsufficientBalance →
        (buyItem svc c).written = c.written ++
          [⟨400, Body.errors "insufficient balance"⟩]) ∧
      (∀ err, svc.BuyItem userID c.item = some err →
        err ≠ Err.ErrItemNotFound → err ≠ Err.ErrInsufficientBalance →
        (buyItem svc c).written = c.written ++
          [⟨500, Body.errors "internal server error"⟩])) := by
  refine ⟨?_, ?_⟩
  · intro input hb
    have hw := sendCoin_written svc decoded c userID input hg hb
    refine ⟨?_, ?_, ?_, ?_, ?_⟩
    · intro hs
      rw [hw, hs]
    · intro hs
      rw [hw, hs]
    · intro hs
      rw [hw, hs]
    · intro hs
      rw [hw, hs]
    · intro err hs h1 h2 h3
      rw [hw, hs]
      cases err <;> first | rfl | exact absurd rfl h1 | exact absurd rfl h2 | exact absurd rfl h3
  · intro hitem
    have hw := buyItem_written svc c userID hg hitem
    refine ⟨?_, ?_, ?_, ?_⟩
    · intro hs
      rw [hw, hs]
    · intro hs
      rw [hw, hs]
    · intro hs
      rw [hw, hs]
    · intro err hs h1 h2
      rw [hw, hs]
      cases err <;> first | rfl | exact absurd rfl h1 | exact absurd rfl h2

/-- C22 (amended), with a service that fails with a driver error: both handlers
answer 500 "internal server error" and not the text of the error. With the
workflows on two accounts of 1000 each: sending 5000 gets 400 "insufficient
balance", sending to "nobody" gets 400 "recipient not found", sending 100 to
"acct2" gets 200, buying "unknown-item" gets 400 "item not found". -/
theorem handlers_error_mapping_witness :
    getUserID ⟨"", "cup", some (CtxValue.int64 1), [], []⟩ = (1, none) ∧
    (sendCoin (stubService (some (Err.driver 3)) (some (Err.driver 4))) (some ⟨"acct2", 100⟩)
        ⟨"", "cup", some (CtxValue.int64 1), [], []⟩).written
      = [] ++ [⟨500, Body.errors "internal server error"⟩] ∧
    (buyItem (stubService (some (Err.driver 3)) (some (Err.driver 4)))
        ⟨"", "cup", some (CtxValue.int64 1), [], []⟩).written
      = [] ++ [⟨500, Body.errors "internal server error"⟩] ∧
    (sendCoin (demoService demoStore) (some ⟨"acct2", 5000⟩)
        ⟨"", "", some (CtxValue.int64 1), [], []⟩).written
      = [⟨400, Body.errors "insufficient balance"⟩] ∧
    (sendCoin (demoService demoStore) (some ⟨"nobody", 5⟩)
        ⟨"", "", some (CtxValue.int64 1), [], []⟩).written
      = [⟨400, Body.errors "recipient not found"⟩] ∧
    (sendCoin (demoService demoStore) (some ⟨"acct2", 100⟩)
        ⟨"", "", some (CtxValue.int64 1), [], []⟩).written
      = [⟨200, Body.status "coins were successfully sent to the user"⟩] ∧
    (buyItem (demoService demoStore)
        ⟨"", "unknown-item", some (CtxValue.int64 1), [], []⟩).written
      = [⟨400, Body.errors "item not found"⟩] :=
  have h := handlers_error_mapping (stubService (some (Err.driver 3)) (some (Err.driver 4)))
    (some ⟨"acct2", 100⟩) ⟨"", "cup", some (CtxValue.int64 1), [], []⟩ 1 rfl
  ⟨rfl,
    (h.1 ⟨"acct2", 100⟩ (by decide)).2.2.2.2 (Err.driver 3) rfl (by decide) (by decide)
      (by decide),
    (h.2 (by decide)).2.2.2 (Err.driver 4) rfl (by decide) (by decide),
    by decide, by decide, by decide, by decide⟩

/-! ## the identity middleware -/

theorem headerParts_invalid_iff (parts : List String) :
    (parts.length ≠ 2 ∨ parts.getD 0 "" ≠ "Bearer") ↔ ∀ tok, parts ≠ ["Bearer", tok] := by
  constructor
  · intro h tok hp
    subst hp
    rcases h with h | h
    · exact h rfl
    · exact h rfl
  · intro h
    by_contra hc
    rw [not_or, not_not, not_not] at hc
    obtain ⟨hlen, hfirst⟩ := hc
    match parts, hlen, hfirst with
    | [a, b], _, hfirst =>
      simp only [List.getD_cons_zero] at hfirst
      exact h b (by rw [hfirst])

/-- The four ways `userIdentity` ends. -/
theorem userIdentity_cases (svc : Service) (c : Context) :
    (c.authorization = "" ∧
      userIdentity svc c = NewErrorResponse c 401 "empty auth header") ∨
    (c.authorization ≠ "" ∧ (∀ tok, stringsSplitSpace c.authorization ≠ ["Bearer", tok]) ∧
      userIdentity svc c = NewErrorResponse c 401 "invalid auth header format") ∨
    (∃ tok id e, stringsSplitSpace c.authorization = ["Bearer", tok] ∧
      svc.ParseToken tok = (id, some e) ∧
      userIdentity svc c
        = NewErrorResponse (recordCall c (ServiceCall.ParseToken tok)) 401
            "invalid or expired token") ∨
    (∃ tok id, stringsSplitSpace c.authorization = ["Bearer", tok] ∧
      svc.ParseToken tok = (id, none) ∧
      userIdentity svc c
        = { recordCall c (ServiceCall.ParseToken tok) with
            userCtx := some (CtxValue.int64 id) }) := by
  unfold userIdentity
  by_cases hempty : c.authorization = ""
  · left
    exact ⟨hempty, by simp [hempty, StatusUnauthorized]⟩
  right
  simp only [hempty, if_false]
  by_cases hinv : (stringsSplitSpace c.authorization).length ≠ 2 ∨
      (stringsSplitSpace c.authorization).getD 0 "" ≠ "Bearer"
  · left
    refine ⟨hempty, (headerParts_invalid_iff _).mp hinv, ?_⟩
    rw [if_pos hinv]
    rfl
  right
  rw [if_neg hinv]
  have hex : ∃ tok, stringsSplitSpace c.authorization = ["Bearer", tok] := by
    by_contra hc
    exact hinv ((headerParts_invalid_iff _).mpr (fun tok hp => hc ⟨tok, hp⟩))
  obtain ⟨tok, hparts⟩ := hex
  have htok : (stringsSplitSpace c.authorization).getD 1 "" = tok := by rw [hparts]; rfl
  rw [htok]
  rcases hp : svc.ParseToken tok with ⟨id, _ | e⟩
  · right
    exact ⟨tok, id, hparts, hp, rfl⟩
  · left
    exact ⟨tok, id, e, hparts, hp, rfl⟩

/-- C23: `userIdentity` answers 401 "empty auth header" to an empty header; 401
"invalid auth header format" to a header whose parts between single spaces are
not exactly "Bearer" and one more part; otherwise it calls `ParseToken` on the
second part, answers 401 "invalid or expired token" when that fails, and when
it succeeds writes nothing and stores the user id under `userID`. -/
theorem userIdentity_outcomes (svc : Service) (c : Context) :
    (c.authorization = "" →
      userIdentity svc c = NewErrorResponse c 401 "empty auth header") ∧
    (c.authorization ≠ "" → (∀ tok, stringsSplitSpace c.authorization ≠ ["Bearer", tok]) →
      userIdentity svc c = NewErrorResponse c 401 "invalid auth header format") ∧
    (∀ tok, stringsSplitSpace c.authorization = ["Bearer", tok] →
      (∀ id e, svc.ParseToken tok = (id, some e) →
        userIdentity svc c
          = NewErrorResponse (recordCall c (ServiceCall.ParseToken tok)) 401
              "invalid or expired token") ∧
      (∀ id, svc.ParseToken tok = (id, none) →
        userIdentity svc c
          = { recordCall c (ServiceCall.ParseToken tok) with
              userCtx := some (CtxValue.int64 id) })) := by
  have hsplit_empty : stringsSplitSpace "" = [""] := by decide
  rcases userIdentity_cases svc c with ⟨he, h⟩ | ⟨hne, hinv, h⟩ | ⟨tok, id, e, hp, hparse, h⟩ |
    ⟨tok, id, hp, hparse, h⟩
  · refine ⟨fun _ => h, fun hne => absurd he hne, ?_⟩
    intro tok hp
    rw [he, hsplit_empty] at hp
    exact absurd hp (by simp)
  · refine ⟨fun he => absurd he hne, fun _ _ => h, ?_⟩
    intro tok hp
    exact absurd hp (hinv tok)
  · have hne : c.authorization ≠ "" := by
      intro he
      rw [he, hsplit_empty] at hp
      exact absurd hp (by simp)
    refine ⟨fun he => absurd he hne, fun _ hinv => absurd hp (hinv tok), ?_⟩
    intro tok1 hp1
    rw [hp] at hp1
    have htok : tok = tok1 := by simpa using hp1
    subst htok
    refine ⟨fun _ _ _ => h, ?_⟩
    intro id1 hparse1
    rw [hparse] at hparse1
    exact absurd hparse1 (by simp)
  · have hne : c.authorization ≠ "" := by
      intro he
      rw [he, hsplit_empty] at hp
      exact absurd hp (by simp)
    refine ⟨fun he => absurd he hne, fun _ hinv => absurd hp (hinv tok), ?_⟩
    intro tok1 hp1
    rw [hp] at hp1
    have htok : tok = tok1 := by simpa using hp1
    subst htok
    refine ⟨?_, ?_⟩
    · intro id1 e1 hparse1
      rw [hparse] at hparse1
      exact absurd hparse1 (by simp)
    · intro id1 hparse1
      rw [hparse] at hparse1
      have : id = id1 := by simpa using hparse1
      subst this
      exact h

/-- C23, on five headers: empty, one part, "bearer" in lower case, three parts,
a refused token and an accepted one. -/
theorem userIdentity_outcomes_witness :
    stringsSplitSpace "Bearer token1" = ["Bearer", "token1"] ∧
    stringsSplitSpace "Bearer  token1" = ["Bearer", "", "token1"] ∧
    userIdentity (demoService demoStore) (newContext "" "")
      = ⟨"", "", none, [⟨401, Body.errors "empty auth header"⟩], []⟩ ∧
    (userIdentity (demoService demoStore) (newContext "InvalidToken" "")).written
      = [⟨401, Body.errors "invalid auth header format"⟩] ∧
    (userIdentity (demoService demoStore) (newContext "bearer token1" "")).written
      = [⟨401, Body.errors "invalid auth header format"⟩] ∧
    (userIdentity (demoService demoStore) (newContext "Bearer token1 x" "")).written
      = [⟨401, Body.errors "invalid auth header format"⟩] ∧
    userIdentity (demoService demoStore) (newContext "Bearer nope" "")
      = ⟨"Bearer nope", "", none, [⟨401, Body.errors "invalid or expired token"⟩],
          [ServiceCall.ParseToken "nope"]⟩ ∧
    userIdentity (demoService demoStore) (newContext "Bearer token1" "")
      = ⟨"Bearer token1", "", some (CtxValue.int64 1), [],
          [ServiceCall.ParseToken "token1"]⟩ :=
  ⟨by decide, by decide, by decide, by decide, by decide, by decide, by decide,
    ((userIdentity_outcomes (demoService demoStore) (newContext "Bearer token1" "")).2.2
      "token1" (by decide)).2 1 (by decide)⟩

/-! ## the authenticate handler -/

theorem bindAuthRequest_valid (input : AuthRequest) (hu : input.Username ≠ "")
    (hp : input.Password ≠ "") : bindAuthRequest (some input) = some input := by
  have h : bindAuthRequest (some input)
      = if input.Username ≠ "" ∧ input.Password ≠ "" then some input else none := rfl
  rw [h, if_pos ⟨hu, hp⟩]

theorem bindAuthRequest_invalid (input : AuthRequest)
    (h : input.Username = "" ∨ input.Password = "") : bindAuthRequest (some input) = none := by
  have h1 : bindAuthRequest (some input)
      = if input.Username ≠ "" ∧ input.Password ≠ "" then some input else none := rfl
  rw [h1, if_neg]
  intro hc
  rcases h with h | h
  · exact hc.1 h
  · exact hc.2 h

/-- C24: a body that does not decode, or has an empty username or password,
gets 400 "invalid request format" and no service call. For a valid body the
handler calls `GetUser`, then `CreateUser` exactly when `GetUser` returned an
error; a `CreateUser` error gives 500 with its text and no `GenerateToken`
call; otherwise `GenerateToken` is called, an error of it gives 401 with its
text, and a token gives 200 with the token. -/
theorem authenticate_flow (svc : Service) (c : Context) :
    authenticate svc none c = NewErrorResponse c 400 "invalid request format" ∧
    (∀ input : AuthRequest, input.Username = "" ∨ input.Password = "" →
      authenticate svc (some input) c = NewErrorResponse c 400 "invalid request format") ∧
    (∀ input : AuthRequest, input.Username ≠ "" → input.Password ≠ "" →
      (∀ user, svc.GetUser input.Username = (user, none) →
        (∀ token e, svc.GenerateToken input.Username input.Password = (token, some e) →
          authenticate svc (some input) c
            = { c with
                calls := c.calls ++ [ServiceCall.GetUser input.Username,
                  ServiceCall.GenerateToken input.Username input.Password],
                written := c.written ++ [⟨401, Body.errors e.Error⟩] }) ∧
        (∀ token, svc.GenerateToken input.Username input.Password = (token, none) →
          authenticate svc (some input) c
            = { c with
                calls := c.calls ++ [ServiceCall.GetUser input.Username,
                  ServiceCall.GenerateToken input.Username input.Password],
                written := c.written ++ [⟨200, Body.token token⟩] })) ∧
      (∀ user e0, svc.GetUser input.Username = (user, some e0) →
        (∀ e, svc.CreateUser input.Username input.Password = some e →
          authenticate svc (some input) c
            = { c with
                calls := c.calls ++ [ServiceCall.GetUser input.Username,
                  ServiceCall.CreateUser input.Username input.Password],
                written := c.written ++ [⟨500, Body.errors e.Error⟩] }) ∧
        (svc.CreateUser input.Username input.Password = none →
          (∀ token e, svc.GenerateToken input.Username input.Password = (token, some e) →
            authenticate svc (some input) c
              = { c with
                  calls := c.calls ++ [ServiceCall.GetUser input.Username,
                    ServiceCall.CreateUser input.Username input.Password,
                    ServiceCall.GenerateToken input.Username input.Password],
                  written := c.written ++ [⟨401, Body.errors e.Error⟩] }) ∧
          (∀ token, svc.GenerateToken input.Username input.Password = (token, none) →
            authenticate svc (some input) c
              = { c with
                  calls := c.calls ++ [ServiceCall.GetUser input.Username,
                    ServiceCall.CreateUser input.Username input.Password,
                    ServiceCall.GenerateToken input.Username input.Password],
                  written := c.written ++ [⟨200, Body.token token⟩] })))) := by
  refine ⟨rfl, ?_, ?_⟩
  · intro input h
    unfold authenticate
    rw [bindAuthRequest_invalid input h]
    rfl
  · intro input hu hp
    refine ⟨?_, ?_⟩
    · intro user hget
      refine ⟨?_, ?_⟩
      · intro token e hgen
        unfold authenticate
        rw [bindAuthRequest_valid input hu hp]
        simp only [hget, authenticateToken, hgen, NewErrorResponse, recordCall,
          StatusUnauthorized, List.append_assoc, List.singleton_append]
      · intro token hgen
        unfold authenticate
        rw [bindAuthRequest_valid input hu hp]
        simp only [hget, authenticateToken, hgen, writeJSON, recordCall,
          StatusOK, List.append_assoc, List.singleton_append]
    · intro user e0 hget
      refine ⟨?_, ?_⟩
      · intro e hcreate
        unfold authenticate
        rw [bindAuthRequest_valid input hu hp]
        simp only [hget, hcreate, NewErrorResponse, recordCall,
          StatusInternalServerError, List.append_assoc, List.singleton_append]
      · intro hcreate
        refine ⟨?_, ?_⟩
        · intro token e hgen
          unfold authenticate
          rw [bindAuthRequest_valid input hu hp]
          simp only [hget, hcreate, authenticateToken, hgen, NewErrorResponse, recordCall,
            StatusUnauthorized, List.append_assoc, List.singleton_append, List.cons_append,
            List.nil_append]
        · intro token hgen
          unfold authenticate
          rw [bindAuthRequest_valid input hu hp]
          simp only [hget, hcreate, authenticateToken, hgen, writeJSON, recordCall,
            StatusOK, List.append_assoc, List.singleton_append, List.cons_append,
            List.nil_append]

/-- C24, on examples: the right password of "bob" gives 200 with the token and
no `CreateUser` call, a password not matching the stored one 401 "incorrect
password", an empty one 400 with no call at all; an unknown name makes the
handler call `CreateUser`. -/
theorem authenticate_flow_witness :
    authenticate (demoService authStore) (some ⟨"bob", "pw"⟩) (newContext "" "")
      = ⟨"", "", none, [⟨200, Body.token "token1"⟩],
          [ServiceCall.GetUser "bob", ServiceCall.GenerateToken "bob" "pw"]⟩ ∧
    authenticate (demoService demoStore) (some ⟨"acct1", "pw"⟩) (newContext "" "")
      = ⟨"", "", none, [⟨401, Body.errors "incorrect password"⟩],
          [ServiceCall.GetUser "acct1", ServiceCall.GenerateToken "acct1" "pw"]⟩ ∧
    authenticate (demoService authStore) (some ⟨"bob", ""⟩) (newContext "" "")
      = ⟨"", "", none, [⟨400, Body.errors "invalid request format"⟩], []⟩ ∧
    (authenticate (demoService authStore) (some ⟨"eve", "pw"⟩) (newContext "" "")).calls
      = [ServiceCall.GetUser "eve", ServiceCall.CreateUser "eve" "pw",
          ServiceCall.GenerateToken "eve" "pw"] :=
  ⟨(((authenticate_flow (demoService authStore) (newContext "" "")).2.2 ⟨"bob", "pw"⟩
      (by decide) (by decide)).1 ⟨1, "bob", generatePasswordHash zeroDigest "pw", 1000⟩
      (by decide)).2 "token1" (by decide),
    by decide, by decide, by decide⟩

/-! ## the protected routes -/

theorem handlers_skip_without_userID (svc : Service) (decoded : Option SendCoinRequest)
    (c : Context) (h : c.userCtx = none) :
    buyItem svc c = c ∧ sendCoin svc decoded c = c ∧ getInfo svc c = c := by
  have hg : getUserID c = (0, some Err.ErrUserNotFound) := by
    unfold getUserID
    rw [h]
  refine ⟨?_, ?_, ?_⟩
  · unfold buyItem
    rw [hg]
  · unfold sendCoin
    rw [hg]
  · unfold getInfo
    rw [hg]

theorem buyItem_calls_cases (svc : Service) (c : Context) (id : Int)
    (hg : getUserID c = (id, none)) :
    (buyItem svc c).calls = c.calls ∨
      (buyItem svc c).calls = c.calls ++ [ServiceCall.BuyItem id c.item] := by
  unfold buyItem
  rw [hg]
  simp only []
  by_cases hi : c.item = ""
  · left
    rw [if_pos hi]
    rfl
  · right
    rw [if_neg hi]
    rcases svc.BuyItem id c.item with _ | e
    · rfl
    · simp only []
      split_ifs <;> rfl

theorem sendCoin_calls_cases (svc : Service) (decoded : Option SendCoinRequest) (c : Context)
    (id : Int) (hg : getUserID c = (id, none)) :
    (sendCoin svc decoded c).calls = c.calls ∨
      ∃ input : SendCoinRequest,
        (sendCoin svc decoded c).calls
          = c.calls ++ [ServiceCall.SendCoin id input.ToUser input.Amount] := by
  unfold sendCoin
  rw [hg]
  simp only []
  rcases bindSendCoinRequest decoded with _ | input
  · left
    rfl
  · right
    refine ⟨input, ?_⟩
    simp only []
    rcases svc.SendCoin id input.ToUser input.Amount with _ | e
    · rfl
    · simp only []
      split_ifs <;> rfl

theorem getInfo_calls_cases (svc : Service) (c : Context) (id : Int)
    (hg : getUserID c = (id, none)) :
    (getInfo svc c).calls = c.calls ++ [ServiceCall.GetUserInfo id] := by
  unfold getInfo
  rw [hg]
  simp only []
  rcases svc.GetUserInfo id with ⟨info, _ | e⟩ <;> rfl

/-- C30: on a request whose context has no `userID` yet, when `userIdentity`
rejects (empty header, malformed header, or `ParseToken` error) the key stays
unset and the `buyItem`, `sendCoin` and `getInfo` handlers running after it
change nothing: no service call, no second response. Conversely every call
made on a protected route that carries a user id carries the id which
`ParseToken` returned for the token of the header. -/
theorem protected_routes_identity (svc : Service) (decoded : Option SendCoinRequest)
    (c : Context) (hfresh : c.userCtx = none) :
    ((c.authorization = "" ∨ (∀ tok, stringsSplitSpace c.authorization ≠ ["Bearer", tok]) ∨
        (∃ tok, stringsSplitSpace c.authorization = ["Bearer", tok] ∧
          (svc.ParseToken tok).2 ≠ none)) →
      (userIdentity svc c).userCtx = none ∧
      (∃ message, (userIdentity svc c).written = c.written ++ [⟨401, Body.errors message⟩]) ∧
      (∀ call ∈ (userIdentity svc c).calls,
        call ∈ c.calls ∨ ∃ tok, call = ServiceCall.ParseToken tok) ∧
      protectedRoute svc (buyItem svc) c = userIdentity svc c ∧
      protectedRoute svc (sendCoin svc decoded) c = userIdentity svc c ∧
      protectedRoute svc (getInfo svc) c = userIdentity svc c) ∧
    (∀ handler, handler = buyItem svc ∨ handler = sendCoin svc decoded ∨ handler = getInfo svc →
      ∀ call ∈ (protectedRoute svc handler c).calls, ∀ id, call.actingUser = some id →
        call ∈ c.calls ∨
          ∃ tok, stringsSplitSpace c.authorization = ["Bearer", tok] ∧
            svc.ParseToken tok = (id, none)) := by
  have hsplit_empty : stringsSplitSpace "" = [""] := by decide
  rcases userIdentity_cases svc c with ⟨he, h⟩ | ⟨hne, hinv, h⟩ | ⟨tok, id, e, hp, hparse, h⟩ |
    ⟨tok, id, hp, hparse, h⟩
  · have hctx : (userIdentity svc c).userCtx = none := by rw [h]; exact hfresh
    have hskip := handlers_skip_without_userID svc decoded (userIdentity svc c) hctx
    have hcalls : (userIdentity svc c).calls = c.calls := by rw [h]; rfl
    refine ⟨fun _ => ⟨hctx, ⟨"empty auth header", by rw [h]; rfl⟩, ?_, hskip.1, hskip.2.1,
      hskip.2.2⟩, ?_⟩
    · intro call hcall
      rw [hcalls] at hcall
      exact Or.inl hcall
    · intro handler hh call hcall id1 _
      have hroute : protectedRoute svc handler c = userIdentity svc c := by
        rcases hh with hh | hh | hh
        · rw [hh]; exact hskip.1
        · rw [hh]; exact hskip.2.1
        · rw [hh]; exact hskip.2.2
      rw [hroute, hcalls] at hcall
      exact Or.inl hcall
  · have hctx : (userIdentity svc c).userCtx = none := by rw [h]; exact hfresh
    have hskip := handlers_skip_without_userID svc decoded (userIdentity svc c) hctx
    have hcalls : (userIdentity svc c).calls = c.calls := by rw [h]; rfl
    refine ⟨fun _ => ⟨hctx, ⟨"invalid auth header format", by rw [h]; rfl⟩, ?_, hskip.1,
      hskip.2.1, hskip.2.2⟩, ?_⟩
    · intro call hcall
      rw [hcalls] at hcall
      exact Or.inl hcall
    · intro handler hh call hcall id1 _
      have hroute : protectedRoute svc handler c = userIdentity svc c := by
        rcases hh with hh | hh | hh
        · rw [hh]; exact hskip.1
        · rw [hh]; exact hskip.2.1
        · rw [hh]; exact hskip.2.2
      rw [hroute, hcalls] at hcall
      exact Or.inl hcall
  · have hctx : (userIdentity svc c).userCtx = none := by rw [h]; exact hfresh
    have hskip := handlers_skip_without_userID svc decoded (userIdentity svc c) hctx
    have hcalls : (userIdentity svc c).calls = c.calls ++ [ServiceCall.ParseToken tok] := by
      rw [h]; rfl
    refine ⟨fun _ => ⟨hctx, ⟨"invalid or expired token", by rw [h]; rfl⟩, ?_, hskip.1,
      hskip.2.1, hskip.2.2⟩, ?_⟩
    · intro call hcall
      rw [hcalls, List.mem_append, List.mem_singleton] at hcall
      rcases hcall with hcall | hcall
      · exact Or.inl hcall
      · exact Or.inr ⟨tok, hcall⟩
    · intro handler hh call hcall id1 hact
      have hroute : protectedRoute svc handler c = userIdentity svc c := by
        rcases hh with hh | hh | hh
        · rw [hh]; exact hskip.1
        · rw [hh]; exact hskip.2.1
        · rw [hh]; exact hskip.2.2
      rw [hroute, hcalls, List.mem_append, List.mem_singleton] at hcall
      rcases hcall with hcall | hcall
      · exact Or.inl hcall
      · rw [hcall] at hact
        exact absurd hact (by simp [ServiceCall.actingUser])
  · have hne : c.authorization ≠ "" := by
      intro he
      rw [he, hsplit_empty] at hp
      exact absurd hp (by simp)
    have hcalls : (userIdentity svc c).calls = c.calls ++ [ServiceCall.ParseToken tok] := by
      rw [h]; rfl
    have hg : getUserID (userIdentity svc c) = (id, none) := by rw [h]; rfl
    refine ⟨?_, ?_⟩
    · intro hrej
      rcases hrej with he | hinv | ⟨tok1, hp1, hfail⟩
      · exact absurd he hne
      · exact absurd hp (hinv tok)
      · rw [hp] at hp1
        have htok : tok = tok1 := by simpa using hp1
        subst htok
        rw [hparse] at hfail
        exact absurd rfl hfail
    · intro handler hh call hcall id1 hact
      have hold : call ∈ (userIdentity svc c).calls →
          call ∈ c.calls ∨ ∃ tok, stringsSplitSpace c.authorization = ["Bearer", tok] ∧
            svc.ParseToken tok = (id1, none) := by
        intro hc1
        rw [hcalls, List.mem_append, List.mem_singleton] at hc1
        rcases hc1 with hc1 | hc1
        · exact Or.inl hc1
        · rw [hc1] at hact
          exact absurd hact (by simp [ServiceCall.actingUser])
      have hnew : call.actingUser = some id →
          call ∈ c.calls ∨ ∃ tok, stringsSplitSpace c.authorization = ["Bearer", tok] ∧
            svc.ParseToken tok = (id1, none) := by
        intro hid
        rw [hact] at hid
        have : id1 = id := by simpa using hid
        subst this
        exact Or.inr ⟨tok, hp, hparse⟩
      unfold protectedRoute at hcall
      rcases hh with hh | hh | hh
      · rw [hh] at hcall
        rcases buyItem_calls_cases svc (userIdentity svc c) id hg with hb | hb
        · rw [hb] at hcall
          exact hold hcall
        · rw [hb, List.mem_append, List.mem_singleton] at hcall
          rcases hcall with hcall | hcall
          · exact hold hcall
          · exact hnew (by rw [hcall]; rfl)
      · rw [hh] at hcall
        rcases sendCoin_calls_cases svc decoded (userIdentity svc c) id hg with hb | ⟨input, hb⟩
        · rw [hb] at hcall
          exact hold hcall
        · rw [hb, List.mem_append, List.mem_singleton] at hcall
          rcases hcall with hcall | hcall
          · exact hold hcall
          · exact hnew (by rw [hcall]; rfl)
      · rw [hh] at hcall
        rw [getInfo_calls_cases svc (userIdentity svc c) id hg, List.mem_append,
          List.mem_singleton] at hcall
        rcases hcall with hcall | hcall
        · exact hold hcall
        · exact hnew (by rw [hcall]; rfl)

/-- C30, on four requests to the purchase route: a refused token gives only the
401 and the `ParseToken` call, an empty header only the 401; an accepted token
gives the purchase for the account of the token. -/
theorem protected_routes_identity_witness :
    (newContext "Bearer nope" "cup").userCtx = none ∧
    protectedRoute (demoService demoStore) (buyItem (demoService demoStore))
        (newContext "Bearer nope" "cup")
      = userIdentity (demoService demoStore) (newContext "Bearer nope" "cup") ∧
    protectedRoute (demoService demoStore) (buyItem (demoService demoStore))
        (newContext "Bearer nope" "cup")
      = ⟨"Bearer nope", "cup", none, [⟨401, Body.errors "invalid or expired token"⟩],
          [ServiceCall.ParseToken "nope"]⟩ ∧
    protectedRoute (demoService demoStore) (getInfo (demoService demoStore))
        (newContext "" "")
      = ⟨"", "", none, [⟨401, Body.errors "empty auth header"⟩], []⟩ ∧
    protectedRoute (demoService demoStore)
        (sendCoin (demoService demoStore) (some ⟨"acct2", 100⟩)) (newContext "token1" "")
      = ⟨"token1", "", none, [⟨401, Body.errors "invalid auth header format"⟩], []⟩ ∧
    protectedRoute (demoService demoStore) (buyItem (demoService demoStore))
        (newContext "Bearer token2" "cup")
      = ⟨"Bearer token2", "cup", some (CtxValue.int64 2),
          [⟨200, Body.status "item was successfully purchased"⟩],
          [ServiceCall.ParseToken "token2", ServiceCall.BuyItem 2 "cup"]⟩ :=
  ⟨rfl,
    ((protected_routes_identity (demoService demoStore) none (newContext "Bearer nope" "cup")
      rfl).1 (Or.inr (Or.inr ⟨"nope", by decide, by decide⟩))).2.2.2.1,
    by decide, by decide, by decide, by decide⟩

end ShopService
